import Mathlib

/-!
libdetran: convergence monitor, dense eigensolver wrapper and CMFD outer solver.

A shallow embedding of

* `src/callow/solver/LinearSolver.cc` (constructor, `monitor_init`, `monitor`),
* `src/callow/solver/Eispack.cc` (`solve_complete`, `solve_impl`),
* `src/solvers/mg/MGSolverCMFD.cc` (`solve`, `update`),

together with the properties proved about them.

Conventions of the embedding.

* A finite `double` is an exact rational (`ℚ`); rounding is not modelled.
* Where the code divides, the quotient is a `Dbl` (`Option ℚ`): `none` stands for a value
  that is not a finite number (IEEE `Inf`/`NaN`, as produced by a zero divisor) or that was
  computed from such a value.
* `printf`/`display` diagnostics do not change any state that is read again and are left out.
* An access outside a `std::vector` is undefined behaviour; the operations of `LinearSolver`
  return `none` there.
* The flux field and the coarse vectors of `MGSolverCMFD` are total maps from the index to
  the entry; their sizes are the loop bounds `d_number_groups`, `number_cells()`.
* A violated `Require`, `Assert` or `Insist` ends the call: the operation returns `none`.
-/

/-! ## Doubles that may be non-finite -/

/-- A `double` produced by code that divides: `some q` is the finite value `q`, `none` a value
that is not a finite number or was computed from one. -/
abbrev Dbl := Option ℚ

namespace Dbl

/-- Sum of two doubles. -/
def add : Dbl → Dbl → Dbl
  | some x, some y => some (x + y)
  | _, _ => none

/-- Product of two doubles. -/
def mul : Dbl → Dbl → Dbl
  | some x, some y => some (x * y)
  | _, _ => none

/-- Quotient of two doubles; a zero divisor gives a non-finite value. -/
def div : Dbl → Dbl → Dbl
  | some x, some y => if y = 0 then none else some (x / y)
  | _, _ => none

/-- The comparison `a < b`; it is taken to fail when an operand is not finite (as it does for
a `NaN`). -/
def lt : Dbl → Dbl → Bool
  | some x, some y => decide (x < y)
  | _, _ => false

/-- The comparison `a > b`. -/
def gt (a b : Dbl) : Bool := lt b a

/-- Difference of two doubles. -/
def sub : Dbl → Dbl → Dbl
  | some x, some y => some (x - y)
  | _, _ => none

/-- Absolute value of a double. -/
def abs : Dbl → Dbl
  | some x => some |x|
  | none => none

/-- The larger of two doubles. -/
def max : Dbl → Dbl → Dbl
  | some x, some y => some (Max.max x y)
  | _, _ => none

end Dbl

namespace callow

/-! ## LinearSolver -/

/-- Solver status codes.  The enumeration lives in `LinearSolver.hh`, which is not among the
sources; `monitor_init` and `monitor` only ever assign `SUCCESS` and `DIVERGE`. -/
inductive status where
  | SUCCESS
  | MAXIT
  | DIVERGE
  | RUNNING
deriving DecidableEq

/-- Preconditioner side constants used by the constructor and `set_operators`. -/
inductive pc_side where
  | NONE
  | LEFT
  | RIGHT
deriving DecidableEq

/-- Norm selectors (`L1`, `L2`, `LINF`). -/
inductive norm_type where
  | L1
  | L2
  | LINF
deriving DecidableEq

/-- The data members of `callow::LinearSolver` that the constructor initialises, plus
`d_status`. -/
structure LinearSolver where
  d_absolute_tolerance : ℚ
  d_relative_tolerance : ℚ
  d_maximum_iterations : Int
  d_residual : List ℚ
  d_number_iterations : Int
  d_monitor_level : Int
  d_monitor_diverge : Bool
  d_norm_type : norm_type
  d_name : String
  d_pc_side : pc_side
  d_status : status
deriving DecidableEq

/-- The function `std::max(a, b)`: returns `b` when `a < b` and `a` otherwise. -/
def std_max (a b : ℚ) : ℚ := if a < b then b else a

/-- Read `v[i]` for an `int` index; `none` outside the vector. -/
def vec_get (v : List ℚ) (i : Int) : Option ℚ :=
  if 0 ≤ i then v[i.toNat]? else none

/-- Write `v[i] = x` for an `int` index; `none` outside the vector. -/
def vec_set (v : List ℚ) (i : Int) (x : ℚ) : Option (List ℚ) :=
  if 0 ≤ i ∧ i.toNat < v.length then some (v.set i.toNat x) else none

/-- The constructor `LinearSolver(atol, rtol, maxit, name)`.  A violated `Require` yields
`none`.  `d_status` is not initialised by the constructor; its indeterminate initial value is
the argument `st0`.  A negative `maxit + 1` is not a valid vector size. -/
def LinearSolver.create (atol rtol : ℚ) (maxit : Int) (name : String) (st0 : status) :
    Option LinearSolver :=
  if maxit + 1 < 0 then none
  else if atol ≥ 0 ∧ rtol ≥ 0 ∧ maxit > 0 then
    some
      { d_absolute_tolerance := atol
        d_relative_tolerance := rtol
        d_maximum_iterations := maxit
        d_residual := List.replicate (maxit + 1).toNat 0
        d_number_iterations := 0
        d_monitor_level := 2
        d_monitor_diverge := true
        d_norm_type := norm_type.L2
        d_name := name
        d_pc_side := pc_side.NONE
        d_status := st0 }
  else none

/-- The method `LinearSolver::monitor_init(r)`: records the initial residual and reports
convergence when it is below the absolute tolerance. -/
def LinearSolver.monitor_init (s : LinearSolver) (r : ℚ) : Option (LinearSolver × Bool) :=
  match vec_set s.d_residual 0 r with
  | none => none
  | some res =>
    let s1 := { s with d_residual := res }
    if r < s1.d_absolute_tolerance then
      some ({ s1 with d_status := status.SUCCESS }, true)
    else
      some (s1, false)

/-- The method `LinearSolver::monitor(it, r)`. -/
def LinearSolver.monitor (s : LinearSolver) (it : Int) (r : ℚ) :
    Option (LinearSolver × Bool) :=
  match vec_set s.d_residual it r with
  | none => none
  | some res =>
    let s1 := { s with d_number_iterations := it, d_residual := res }
    match vec_get res 0 with
    | none => none
    | some r0 =>
      if r < std_max (s1.d_relative_tolerance * r0) s1.d_absolute_tolerance then
        some ({ s1 with d_status := status.SUCCESS }, true)
      else if s1.d_monitor_diverge && decide (it > 1) then
        match vec_get res (it - 1) with
        | none => none
        | some prev =>
          if r - prev > 0 then
            some ({ s1 with d_status := status.DIVERGE }, true)
          else
            some (s1, false)
      else
        some (s1, false)

/-- Calls `monitor(k, r_k)`, `monitor(k+1, r_(k+1))`, ... for the listed residuals, stopping
at the first call that returns `true`.  The result lists, for every call made, the returned
flag and `d_status` after the call. -/
def feed_monitor (s : LinearSolver) (k : Nat) : List ℚ → Option (List (Bool × status))
  | [] => some []
  | r :: rs =>
    match s.monitor (k : Int) r with
    | none => none
    | some (s1, true) => some [(true, s1.d_status)]
    | some (s1, false) =>
      (feed_monitor s1 (k + 1) rs).map (fun t => (false, s1.d_status) :: t)

/-- Feeds `r_0` to `monitor_init` and `r_k` to `monitor(k, r_k)` in order, stopping at the
first `true` return, as an iterative solver does. -/
def run_monitor (s : LinearSolver) : List ℚ → Option (List (Bool × status))
  | [] => some []
  | r0 :: rs =>
    match s.monitor_init r0 with
    | none => none
    | some (s1, true) => some [(true, s1.d_status)]
    | some (s1, false) =>
      (feed_monitor s1 1 rs).map (fun t => (false, s1.d_status) :: t)

/-! ### Example solver states -/

/-- A solver as built by `LinearSolver(1/100, 1/100, 3, "solver")`, with status `RUNNING`. -/
def demo_solver : LinearSolver :=
  { d_absolute_tolerance := 1 / 100
    d_relative_tolerance := 1 / 100
    d_maximum_iterations := 3
    d_residual := [0, 0, 0, 0]
    d_number_iterations := 0
    d_monitor_level := 2
    d_monitor_diverge := true
    d_norm_type := norm_type.L2
    d_name := "solver"
    d_pc_side := pc_side.NONE
    d_status := status.RUNNING }

/-- The state of `demo_solver` after `monitor_init(1)`. -/
def demo_solver_init : LinearSolver := { demo_solver with d_residual := [1, 0, 0, 0] }

/-- The trace a monitored run is expected to leave when the first residual meeting the
success criterion has index `idx` (or none of `n` residuals meets it): nothing is declared
before that index (`false` returned, status still `st`), then `SUCCESS` is declared. -/
def expected_trace (st : status) (n : Nat) : Option Nat → List (Bool × status)
  | some j => List.replicate j (false, st) ++ [(true, status.SUCCESS)]
  | none => List.replicate n (false, st)

/-- The state of `demo_solver` after `monitor_init(1)` and `monitor(1, 1/2)`. -/
def demo_solver_one : LinearSolver :=
  { demo_solver with d_number_iterations := 1, d_residual := [1, 1 / 2, 0, 0] }

/-! ## Eispack -/

/-- A dense matrix (`callow::MatrixDense`, whose header is not among the sources): its
dimensions and the entry `get i j` read by `operator()(i, j)`. -/
structure MatrixDense where
  number_rows : Nat
  number_columns : Nat
  get : Nat → Nat → Dbl

/-- The constructor `MatrixDense(m, n, v)`: an `m` by `n` matrix with every entry `v`. -/
def MatrixDense.fill (m n : Nat) (v : Dbl) : MatrixDense :=
  { number_rows := m, number_columns := n, get := fun _ _ => v }

/-- What the EISPACK routine `rg_` (QR, standard problem) writes: the eigenvalue parts
`wr[i]`, `wi[i]`, the eigenvector array `z` and the error flag. -/
structure rg_result where
  wr : Nat → Dbl
  wi : Nat → Dbl
  z : Nat → Nat → Dbl
  ierr : Int

/-- What the EISPACK routine `rgg_` (QZ, generalized problem) writes: the numerators
`alfr[i]`, `alfi[i]`, the denominators `beta[i]`, the eigenvector array `z` and the error
flag. -/
structure rgg_result where
  alfr : Nat → Dbl
  alfi : Nat → Dbl
  beta : Nat → Dbl
  z : Nat → Nat → Dbl
  ierr : Int

/-- The external Fortran routines declared in `Eispack.hh`; their behaviour is arbitrary.
Arguments: `nm`, `n`, the matrices and `matz`. -/
structure Fortran where
  rg_ : Nat → Nat → MatrixDense → Int → rg_result
  rgg_ : Nat → Nat → MatrixDense → MatrixDense → Int → rgg_result

/-- The members of `callow::Eispack` used by `solve_complete` and `solve_impl`: the two
operator pointers (`none` is a null pointer) and the stored eigenvalue. -/
structure Eispack where
  d_A : Option MatrixDense
  d_B : Option MatrixDense
  d_lambda : Dbl
  d_which_value : Int

/-- A routine that is handed the buffer `&v[0]` and writes entries `0 .. n-1`: the first `n`
entries become `f 0, ..., f (n-1)`, the rest stays; `none` when the buffer is too short. -/
def write_first (n : Nat) (f : Nat → Dbl) (v : List Dbl) : Option (List Dbl) :=
  if n ≤ v.length then some ((List.range n).map f ++ v.drop n) else none

/-- Modelled from the spec: `callow::Vector::divide` (`Vector.hh` is not among the sources),
the element-wise scaling of each eigenvalue by its denominator term, for two vectors of the
same size. -/
def Vector_divide (v x : List Dbl) : Option (List Dbl) :=
  if x.length = v.length then some (List.zipWith Dbl.div v x) else none

/-- Modelled from the spec: `callow::Vector::scale` (`Vector.hh` is not among the sources),
the in-place scaling of every entry by `a`. -/
def Vector_scale (v : List Dbl) (a : Dbl) : List Dbl := v.map fun y => Dbl.mul y a

/-- The method `Eispack::solve_complete(V_R, V_I, E_R, E_I)`.  The result is the new content
of the four arguments; `none` when `Require(d_A)` or `Assert(!ierr)` fails or a buffer is too
short.  The eigenvector array written by the routine becomes the content of `V_R`; `V_I` is
not written on either path. -/
def Eispack.solve_complete (e : Eispack) (F : Fortran) (V_R V_I : MatrixDense)
    (E_R E_I : List Dbl) : Option (MatrixDense × MatrixDense × List Dbl × List Dbl) :=
  match e.d_A with
  | none => none
  | some A =>
    let m := A.number_rows
    let matz : Int := 1
    match e.d_B with
    | some B =>
      let E_D : List Dbl := List.replicate m (some 0)
      let out := F.rgg_ m m A B matz
      match write_first m out.alfr E_R, write_first m out.alfi E_I,
        write_first m out.beta E_D with
      | some E_R1, some E_I1, some E_D1 =>
        if out.ierr ≠ 0 then none
        else
          match Vector_divide E_R1 E_D1, Vector_divide E_I1 E_D1 with
          | some E_R2, some E_I2 => some ({ V_R with get := out.z }, V_I, E_R2, E_I2)
          | _, _ => none
      | _, _, _ => none
    | none =>
      let out := F.rg_ m m A matz
      match write_first m out.wr E_R, write_first m out.wi E_I with
      | some E_R1, some E_I1 => some ({ V_R with get := out.z }, V_I, E_R1, E_I1)
      | _, _ => none

/-- The search loop of `solve_impl` (`for (int i = 1; i < m; ++i)`), with `n` iterations left
and loop index `i`; the accumulator is `(max_E, max_i)`. -/
def max_loop (E_R : List Dbl) : Nat → Nat → Dbl × Nat → Option (Dbl × Nat)
  | 0, _, acc => some acc
  | n + 1, i, acc =>
    match E_R[i]? with
    | none => none
    | some e => max_loop E_R n (i + 1) (if Dbl.gt e acc.1 then (e, i) else acc)

/-- Lines 99 to 121 of `Eispack::solve_impl`: run `solve_complete` on fresh buffers, find the
maximum real eigenvalue part and copy the matching column of `V_R` into `x`.  Returns
`(max_E, max_i, x)` with `x` not yet normalised. -/
def Eispack.solve_impl_select (e : Eispack) (F : Fortran) (x : List Dbl) :
    Option (Dbl × Nat × List Dbl) :=
  match e.d_A with
  | none => none
  | some A =>
    let m := A.number_columns
    let V_R := MatrixDense.fill m m (some 0)
    let V_I := MatrixDense.fill m m (some 0)
    let E_R : List Dbl := List.replicate m (some 0)
    let E_I : List Dbl := List.replicate m (some 0)
    match e.solve_complete F V_R V_I E_R E_I with
    | none => none
    | some (V_R1, _, E_R1, _) =>
      match E_R1[0]? with
      | none => none
      | some e0 =>
        match max_loop E_R1 (m - 1) 1 (e0, 0) with
        | none => none
        | some (max_E, max_i) =>
          match write_first m (fun i => V_R1.get i max_i) x with
          | none => none
          | some x1 => some (max_E, max_i, x1)

/-- The method `Eispack::solve_impl(x, x0)`: the selection above, then
`x.scale(1.0 / x.norm(L2))` and `d_lambda = max_E`.  `norm` is `callow::Vector::norm`, which
is not among the sources.  Returns the solver and the new `x`. -/
def Eispack.solve_impl (e : Eispack) (F : Fortran) (norm : norm_type → List Dbl → Dbl)
    (x _x0 : List Dbl) : Option (Eispack × List Dbl) :=
  match e.solve_impl_select F x with
  | none => none
  | some (max_E, _, x1) =>
    some ({ e with d_lambda := max_E },
      Vector_scale x1 (Dbl.div (some 1) (norm norm_type.L2 x1)))

/-- A stand-in for the Fortran routines on the diagonal matrix `diag(3, 7)`: eigenvalues
`3, 7` (and, for the generalized routine, numerators `6, 7` over denominators `2, 1`), no
imaginary parts, and the identity as eigenvector array. -/
def demo_fortran : Fortran :=
  { rg_ := fun _ _ _ _ =>
      { wr := fun i => if i = 0 then some 3 else some 7
        wi := fun _ => some 0
        z := fun i j => if i = j then some 1 else some 0
        ierr := 0 }
    rgg_ := fun _ _ _ _ _ =>
      { alfr := fun i => if i = 0 then some 6 else some 7
        alfi := fun _ => some 0
        beta := fun i => if i = 0 then some 2 else some 1
        z := fun i j => if i = j then some 1 else some 0
        ierr := 0 } }

/-- The matrix `diag(3, 7)`. -/
def demo_diag : MatrixDense :=
  { number_rows := 2
    number_columns := 2
    get := fun i j => if i = j then (if i = 0 then some 3 else some 7) else some 0 }

/-- An Eispack solver holding `diag(3, 7)` and no `B`. -/
def demo_eispack : Eispack :=
  { d_A := some demo_diag, d_B := none, d_lambda := some 0, d_which_value := 0 }

/-- An Eispack solver holding `diag(3, 7)` and `B = diag(3, 7)`. -/
def demo_eispack_gen : Eispack :=
  { d_A := some demo_diag, d_B := some demo_diag, d_lambda := some 0, d_which_value := 0 }

/-- A stand-in for `Vector::norm` that returns `1`, the L2 norm of a unit coordinate
vector. -/
def demo_unit_norm : norm_type → List Dbl → Dbl := fun _ _ => some 1

/-- The matrix of ones, `[[1, 1], [1, 1]]`. -/
def demo_ones : MatrixDense := MatrixDense.fill 2 2 (some 1)

/-- A stand-in for the Fortran routines on the matrix of ones: eigenvalues `0, 2`, no imaginary
parts, and the eigenvector columns `(1, -1)` and `(1, 1)`. -/
def demo_fortran_ones : Fortran :=
  { rg_ := fun _ _ _ _ =>
      { wr := fun i => if i = 0 then some 0 else some 2
        wi := fun _ => some 0
        z := fun i j => if i = 1 ∧ j = 0 then some (-1) else some 1
        ierr := 0 }
    rgg_ := fun _ _ _ _ _ =>
      { alfr := fun i => if i = 0 then some 0 else some 2
        alfi := fun _ => some 0
        beta := fun _ => some 1
        z := fun i j => if i = 1 ∧ j = 0 then some (-1) else some 1
        ierr := 0 } }

/-- An Eispack solver holding the matrix of ones and no `B`. -/
def demo_eispack_ones : Eispack :=
  { d_A := some demo_ones, d_B := none, d_lambda := some 0, d_which_value := 0 }

/-- A matrix behind an `SP_matrix` handle: a dense matrix, or a matrix of another kind
(sparse or shell) of which only the dimensions are read. -/
inductive Matrix where
  | dense (M : MatrixDense)
  | other (rows columns : Nat)

/-- The call `A->number_rows()`. -/
def Matrix.number_rows : Matrix → Nat
  | Matrix.dense M => M.number_rows
  | Matrix.other r _ => r

/-- The call `A->number_columns()`. -/
def Matrix.number_columns : Matrix → Nat
  | Matrix.dense M => M.number_columns
  | Matrix.other _ c => c

/-- The entries of the parameter database that `LinearSolver::set_operators` looks up;
`none` is a key for which `check` fails. -/
structure InputDB where
  pc_type : Option String
  pc_side : Option pc_side

/-- The constructors `PCILU0(A)` and `PCJacobi(A)`, which are not among the sources; each may
fail (`none`). -/
structure PCFactory (P : Type) where
  ilu0 : Matrix → Option P
  jacobi : Matrix → Option P

/-- A `LinearSolver` together with the members `d_A` and `d_P`, which the constructor leaves
null (`none`). -/
structure LinearSolverWithOperators (P : Type) extends LinearSolver where
  d_A : Option Matrix
  d_P : Option P

/-- The method `LinearSolver::set_operators(A, db)`; `A` and `db` may be null.  A violated
`Require` or `Ensure` and a failing preconditioner constructor end the call (`none`).  The
result pairs the solver with the final value of the local variable `pc_side`, which the method
reads from `db` and then drops. -/
def LinearSolverWithOperators.set_operators {P : Type} (F : PCFactory P)
    (s : LinearSolverWithOperators P) (A : Option Matrix) (db : Option InputDB) :
    Option (LinearSolverWithOperators P × pc_side) :=
  match A with
  | none => none
  | some a =>
    let s1 := { s with d_A := some a }
    if a.number_rows = a.number_columns then
      match db with
      | none => some (s1, pc_side.LEFT)
      | some d =>
        let pc_type : String := match d.pc_type with
          | some t => t
          | none => ""
        let local_side : pc_side := match d.pc_side with
          | some v => v
          | none => pc_side.LEFT
        if pc_type = "ilu0" then
          match F.ilu0 a with
          | none => none
          | some p => some ({ s1 with d_P := some p }, local_side)
        else if pc_type = "jacobi" then
          match F.jacobi a with
          | none => none
          | some p => some ({ s1 with d_P := some p }, local_side)
        else some (s1, local_side)
    else none

/-- The method `LinearSolver::set_tolerances(atol, rtol, maxit)`: the three members are
assigned and then checked; a violated `Require` ends the call (`none`). -/
def LinearSolver.set_tolerances (s : LinearSolver) (atol rtol : ℚ) (maxit : Int) :
    Option LinearSolver :=
  let s1 :=
    { s with
      d_absolute_tolerance := atol
      d_relative_tolerance := rtol
      d_maximum_iterations := maxit }
  if s1.d_absolute_tolerance > 0 ∧ s1.d_relative_tolerance > 0 ∧ s1.d_maximum_iterations ≥ 0
  then some s1
  else none

/-- A sequence of `set_tolerances` calls, all of which succeed (`none` as soon as one
fails). -/
def set_tolerances_calls (s : LinearSolver) : List (ℚ × ℚ × Int) → Option LinearSolver
  | [] => some s
  | c :: cs =>
    match s.set_tolerances c.1 c.2.1 c.2.2 with
    | none => none
    | some s1 => set_tolerances_calls s1 cs

/-- The method `Eispack::set_operators(A, B, db)`; `A` and `B` may be null.  `Require(A)` and
the two `Insist` checks on the dynamic type end the call (`none`) when violated; `db` is not
read. -/
def Eispack.set_operators (e : Eispack) (A B : Option Matrix) : Option Eispack :=
  match A with
  | none => none
  | some (Matrix.other _ _) => none
  | some (Matrix.dense a) =>
    let e1 := { e with d_A := some a }
    match B with
    | none => some e1
    | some (Matrix.other _ _) => none
    | some (Matrix.dense b) => some { e1 with d_B := some b }

/-- Whether a matrix handle holds a dense matrix. -/
def Matrix.is_dense : Matrix → Bool
  | Matrix.dense _ => true
  | Matrix.other _ _ => false

/-- Sum of the squares of the entries of a vector, over any scalars: the square of its L2
norm. -/
def sum_squares {K : Type} [Mul K] [Add K] [Zero K] (v : List K) : K :=
  (v.map fun y => y * y).sum

/-- A dense `2 × 3` matrix of zeros. -/
def demo_wide : MatrixDense := MatrixDense.fill 2 3 (some 0)

/-- A dense `3 × 3` matrix of zeros. -/
def demo_three : MatrixDense := MatrixDense.fill 3 3 (some 0)

/-- The matrix `diag(2, 1)`. -/
def demo_diag_b : MatrixDense :=
  { number_rows := 2
    number_columns := 2
    get := fun i j => if i = j then (if i = 0 then some 2 else some 1) else some 0 }

/-- A stand-in for the Fortran routines on `A = diag(3, 7)`, `B = diag(2, 1)`: the QR routine
returns the eigenvalues `3, 7` of `A`, the QZ routine the numerators `3, 7` over the
denominators `2, 1`. -/
def demo_fortran_b : Fortran :=
  { rg_ := demo_fortran.rg_
    rgg_ := fun _ _ _ _ _ =>
      { alfr := fun i => if i = 0 then some 3 else some 7
        alfi := fun _ => some 0
        beta := fun i => if i = 0 then some 2 else some 1
        z := fun i j => if i = j then some 1 else some 0
        ierr := 0 } }

/-- A fresh Eispack solver: no operators set. -/
def demo_eispack_fresh : Eispack :=
  { d_A := none, d_B := none, d_lambda := some 0, d_which_value := 0 }

/-- Preconditioner constructors that always succeed and return the name of the kind. -/
def demo_pc_factory : PCFactory String :=
  { ilu0 := fun _ => some "ilu0", jacobi := fun _ => some "jacobi" }

/-- The solver `demo_solver` with no operators set, as the constructor leaves it. -/
def demo_solver_ops : LinearSolverWithOperators String :=
  { demo_solver with d_A := none, d_P := none }

/-- A parameter database asking for a Jacobi preconditioner applied on the right. -/
def demo_db : InputDB := { pc_type := some "jacobi", pc_side := some pc_side.RIGHT }

end callow

namespace detran

/-! ## MGSolverCMFD -/

/-- The configuration of an `MGSolverCMFD` read by `solve` and `update`: group counts, the
adjoint and multiplying flags, the outer iteration limit and tolerance, and the fine and
coarse meshes (cell counts, cell volumes and the fine-to-coarse map `mesh_map("COARSEMESH")`).
Containers are total maps from the index to the entry. -/
structure MGSolverCMFD where
  d_number_groups : Nat
  material_number_groups : Nat
  d_adjoint : Bool
  d_multiply : Bool
  d_maximum_iterations : Nat
  d_tolerance : ℚ
  mesh_number_cells : Nat
  mesh_volume : Nat → ℚ
  cmap : Nat → Nat
  coarse_number_cells : Nat
  coarse_volume : Nat → ℚ

/-- The mutable data of a solve: the group fluxes `d_state->phi(g)[i]` and everything else
the collaborators own (boundary fluxes, current tally, sweep source, coarse solver). -/
structure State (σ : Type) where
  phi : Nat → Nat → Dbl
  ext : σ

/-- The collaborators of `MGSolverCMFD`, none of which is among the sources; their behaviour
is arbitrary.

* `wg_solve g` is `d_wg_solver->solve(g)`;
* `setup_outer a` is `d_fissionsource->setup_outer(a)`;
* `build_operator keff` is the homogenisation and the construction of the `CMFDLossOperator`
  (lines 124 to 137 of `update`);
* `fixed_source g` is `reset()`, `build_fixed(g)` and `fixed_group_source()` of the sweep
  source;
* `linear_solve op b x` is `d_solver->set_operators(op, db)` and `d_solver->solve(b, x)`,
  returning the new `x`. -/
structure Collaborators (σ ω : Type) where
  wg_solve : Nat → State σ → State σ
  setup_outer : Dbl → State σ → State σ
  build_operator : ℚ → State σ → ω × σ
  fixed_source : Nat → State σ → (Nat → Dbl) × σ
  linear_solve : ω → (Nat → Dbl) → (Nat → Dbl) → σ → (Nat → Dbl) × σ

/-- What the model records of a run, in order: each within-group solve, the total residual
computed at the end of each pass over the groups, and each call of the CMFD update. -/
inductive Event where
  | sweep (g : Nat)
  | residual (nres_tot : Dbl)
  | cmfd_update
deriving DecidableEq

/-- The loop `for (size_t i = 0; i < n; ++i) body(i)` acting on a state `s`. -/
def for_range {S : Type} (n : Nat) (body : Nat → S → S) (s : S) : S :=
  (List.range n).foldl (fun acc i => body i acc) s

/-- The index `ci = cmap[i] + g * d_coarse_mesh->number_cells()`. -/
def MGSolverCMFD.ci (S : MGSolverCMFD) (g i : Nat) : Nat :=
  S.cmap i + g * S.coarse_number_cells

/-- The ratio `v_ratio = d_mesh->volume(i) / d_coarse_mesh->volume(cmap[i])`. -/
def MGSolverCMFD.v_ratio (S : MGSolverCMFD) (i : Nat) : Dbl :=
  Dbl.div (some (S.mesh_volume i)) (some (S.coarse_volume (S.cmap i)))

/-- The body of the inner assembly loop (lines 153 to 156) acting on `(b, x)`. -/
def MGSolverCMFD.assemble_cell (S : MGSolverCMFD) (phi : Nat → Nat → Dbl) (q : Nat → Dbl)
    (g i : Nat) (bx : (Nat → Dbl) × (Nat → Dbl)) : (Nat → Dbl) × (Nat → Dbl) :=
  (Function.update bx.1 (S.ci g i) (Dbl.add (bx.1 (S.ci g i)) (Dbl.mul (q i) (S.v_ratio i))),
   Function.update bx.2 (S.ci g i)
    (Dbl.add (bx.2 (S.ci g i)) (Dbl.mul (phi g i) (S.v_ratio i))))

/-- The source construction of `update` (lines 140 to 158): starting from zero vectors `x`
and `b`, accumulate the volume-weighted fixed source and flux of every fine cell.  Returns
`((b, x), ext)`. -/
def MGSolverCMFD.assemble {σ ω : Type} (S : MGSolverCMFD) (C : Collaborators σ ω)
    (st : State σ) : ((Nat → Dbl) × (Nat → Dbl)) × σ :=
  for_range S.d_number_groups
    (fun g acc =>
      let qs := C.fixed_source g { st with ext := acc.2 }
      (for_range S.mesh_number_cells (fun i bx => S.assemble_cell st.phi qs.1 g i bx) acc.1,
        qs.2))
    ((fun _ => some 0, fun _ => some 0), st.ext)

/-- The flux scaling of `update` (lines 167 to 174): every `phi(g)[i]` is multiplied by
`x[ci] / x0[ci]`. -/
def MGSolverCMFD.prolongate (S : MGSolverCMFD) (x x0 : Nat → Dbl) (phi : Nat → Nat → Dbl) :
    Nat → Nat → Dbl :=
  for_range S.d_number_groups
    (fun g p =>
      for_range S.mesh_number_cells
        (fun i p1 =>
          Function.update p1 g
            (Function.update (p1 g) i
              (Dbl.mul (p1 g i) (Dbl.div (x (S.ci g i)) (x0 (S.ci g i))))))
        p)
    phi

/-- The vector `x0` of `update`: the copy of the assembled `x` taken before the coarse
solve. -/
def MGSolverCMFD.update_x0 {σ ω : Type} (S : MGSolverCMFD) (C : Collaborators σ ω) (keff : ℚ)
    (st : State σ) : Nat → Dbl :=
  (S.assemble C { st with ext := (C.build_operator keff st).2 }).1.2

/-- The vector `x` of `update` after `d_solver->solve(b, x)`: the coarse solution. -/
def MGSolverCMFD.update_x {σ ω : Type} (S : MGSolverCMFD) (C : Collaborators σ ω) (keff : ℚ)
    (st : State σ) : Nat → Dbl :=
  let op := C.build_operator keff st
  let a := S.assemble C { st with ext := op.2 }
  (C.linear_solve op.1 a.1.1 a.1.2 a.2).1

/-- The method `MGSolverCMFD::update(keff)`.  It returns nothing and raises nothing: the
result is the new state. -/
def MGSolverCMFD.update {σ ω : Type} (S : MGSolverCMFD) (C : Collaborators σ ω) (keff : ℚ)
    (st : State σ) : State σ :=
  let op := C.build_operator keff st
  let a := S.assemble C { st with ext := op.2 }
  let x0 := a.1.2
  let sol := C.linear_solve op.1 a.1.1 a.1.2 a.2
  { phi := S.prolongate sol.1 x0 st.phi, ext := sol.2 }

/-- Modelled from the spec: `detran_utilities::range(a, b)` (`MathUtilities.hh` is not among
the sources), the indices from `a` up to but excluding `b`, counting upwards when `a ≤ b` and
downwards otherwise. -/
def range (a b : Int) : List Nat :=
  if a ≤ b then (List.range (b - a).toNat).map fun k => (a + k).toNat
  else (List.range (a - b).toNat).map fun k => (a - k).toNat

/-- Modelled from the spec: `detran_utilities::norm_residual(x, y, "Linf")` (`MathUtilities.hh`
is not among the sources), the largest `|x[i] - y[i]|` over the `n` entries. -/
def norm_residual (n : Nat) (x y : Nat → Dbl) : Dbl :=
  for_range n (fun i v => Dbl.max v (Dbl.abs (Dbl.sub (x i) (y i)))) (some 0)

/-- Modelled from the spec: `detran_utilities::norm(x, "Linf")` (`MathUtilities.hh` is not
among the sources), the largest `|x[i]|` over the `n` entries. -/
def norm (n : Nat) (x : Nat → Dbl) : Dbl :=
  for_range n (fun i v => Dbl.max v (Dbl.abs (x i))) (some 0)

/-- The member `d_lower` set by the constructor. -/
def MGSolverCMFD.d_lower (S : MGSolverCMFD) : Int :=
  if S.d_adjoint then (S.d_number_groups : Int) - 1 else 0

/-- The member `d_upper` set by the constructor. -/
def MGSolverCMFD.d_upper (S : MGSolverCMFD) : Int :=
  if S.d_adjoint then -1 else (S.material_number_groups : Int)

/-- The data carried around the outer loop of `solve`: the state, the group residuals, the
total residual and the record of calls. -/
structure Loop (σ : Type) where
  st : State σ
  nres : Nat → Dbl
  nres_tot : Dbl
  log : List Event

/-- The loop over the iteration block (lines 92 to 97): solve each listed group and store its
residual against `phi_old`. -/
def MGSolverCMFD.sweep_groups {σ ω : Type} (S : MGSolverCMFD) (C : Collaborators σ ω)
    (phi_old : Nat → Nat → Dbl) : List Nat → Loop σ → Loop σ
  | [], L => L
  | g :: gs, L =>
    let st1 := C.wg_solve g L.st
    S.sweep_groups C phi_old gs
      { L with
        st := st1
        nres := Function.update L.nres g
          (norm_residual S.mesh_number_cells (st1.phi g) (phi_old g))
        log := L.log ++ [Event.sweep g] }

/-- One pass of the outer loop up to the convergence test (lines 86 to 98): reset the group
residuals, save the flux, solve the groups in order and compute the total residual. -/
def MGSolverCMFD.pass {σ ω : Type} (S : MGSolverCMFD) (C : Collaborators σ ω)
    (groups : List Nat) (L : Loop σ) : Loop σ :=
  let L0 := { L with nres := fun g => Dbl.mul (L.nres g) (some 0) }
  let phi_old := L0.st.phi
  let L1 := S.sweep_groups C phi_old groups L0
  let tot := norm S.d_number_groups L1.nres
  { L1 with nres_tot := tot, log := L1.log ++ [Event.residual tot] }

/-- The outer loop of `solve` (lines 84 to 109) with `fuel` iterations left before the test
`iteration <= d_maximum_iterations` fails.  Returns the final value of `iteration` and the
loop data. -/
def MGSolverCMFD.outer_loop {σ ω : Type} (S : MGSolverCMFD) (C : Collaborators σ ω) (keff : ℚ)
    (groups : List Nat) : Nat → Nat → Loop σ → Nat × Loop σ
  | 0, iteration, L => (iteration, L)
  | fuel + 1, iteration, L =>
    let L2 := S.pass C groups L
    if Dbl.lt L2.nres_tot (some S.d_tolerance) then (iteration, L2)
    else
      S.outer_loop C keff groups fuel (iteration + 1)
        { L2 with st := S.update C keff L2.st, log := L2.log ++ [Event.cmfd_update] }

/-- The method `MGSolverCMFD::solve(keff)`.  Returns the final value of `iteration` and the
loop data (state, residuals and the record of calls).  The copy `phi_old` of line 72 is
shadowed inside the loop and never read; the diagnostic output is left out. -/
def MGSolverCMFD.solve {σ ω : Type} (S : MGSolverCMFD) (C : Collaborators σ ω) (keff : ℚ)
    (st : State σ) : Nat × Loop σ :=
  let st1 := if S.d_multiply then C.setup_outer (Dbl.div (some 1) (some keff)) st else st
  let groups := range S.d_lower S.d_upper
  S.outer_loop C keff groups (S.d_maximum_iterations + 1) 0
    { st := st1, nres := fun _ => some 0, nres_tot := some 0, log := [] }

/-- Number of passes over the groups in a record of calls: one total residual is computed per
pass. -/
def passes : List Event → Nat
  | [] => 0
  | Event.residual _ :: t => passes t + 1
  | _ :: t => passes t

/-- Number of CMFD updates in a record of calls. -/
def updates : List Event → Nat
  | [] => 0
  | Event.cmfd_update :: t => updates t + 1
  | _ :: t => updates t

/-- Number of passes whose total residual was not below the tolerance. -/
def unconverged_passes (tol : ℚ) : List Event → Nat
  | [] => 0
  | Event.residual r :: t =>
    if Dbl.lt r (some tol) then unconverged_passes tol t else unconverged_passes tol t + 1
  | _ :: t => unconverged_passes tol t

/-- The shape the claim gives a record of calls: a pass whose total residual is below the
tolerance ends the record, and any other pass is followed at once by exactly one CMFD update;
updates occur nowhere else. -/
def well_paced (tol : ℚ) : List Event → Bool
  | [] => true
  | Event.sweep _ :: t => well_paced tol t
  | Event.residual r :: t =>
    if Dbl.lt r (some tol) then t.isEmpty
    else
      match t with
      | Event.cmfd_update :: t1 => well_paced tol t1
      | _ => false
  | Event.cmfd_update :: _ => false

/-! ### Example problems -/

/-- A one-group problem on two fine cells of volume 1 forming one coarse cell of volume 2,
with at most one outer iteration configured and tolerance `1/2`. -/
def demo_cmfd : MGSolverCMFD :=
  { d_number_groups := 1
    material_number_groups := 1
    d_adjoint := false
    d_multiply := false
    d_maximum_iterations := 1
    d_tolerance := 1 / 2
    mesh_number_cells := 2
    mesh_volume := fun _ => 1
    cmap := fun _ => 0
    coarse_number_cells := 1
    coarse_volume := fun _ => 2 }

/-- Collaborators for `demo_cmfd`: the within-group solve adds 1 to every flux value of its
group, there is no fixed source, and the coarse solve multiplies its initial guess by
`factor`. -/
def demo_collab (factor : ℚ) : Collaborators Unit Unit :=
  { wg_solve := fun g st =>
      { st with phi := Function.update st.phi g fun i => Dbl.add (st.phi g i) (some 1) }
    setup_outer := fun _ st => st
    build_operator := fun _ _ => ((), ())
    fixed_source := fun _ _ => (fun _ => some 0, ())
    linear_solve := fun _ _ x _ => (fun j => Dbl.mul (x j) (some factor), ()) }

/-- Collaborators for `demo_cmfd` whose coarse solve returns the constant vector 1. -/
def demo_collab_one : Collaborators Unit Unit :=
  { demo_collab 1 with linear_solve := fun _ _ _ _ => (fun _ => some 1, ()) }

/-- The state with flux 0 in every cell. -/
def demo_state_zero : State Unit := { phi := fun _ _ => some 0, ext := () }

/-- The state with flux 1 in every cell. -/
def demo_state_flat : State Unit := { phi := fun _ _ => some 1, ext := () }

/-- The loop data with which `solve` enters its outer loop (lines 72 to 79): the state after
the optional `setup_outer(1.0 / keff)`, zero residuals and an empty record of calls. -/
def MGSolverCMFD.solve_start {σ ω : Type} (S : MGSolverCMFD) (C : Collaborators σ ω) (keff : ℚ)
    (st : State σ) : Loop σ :=
  { st := if S.d_multiply then C.setup_outer (Dbl.div (some 1) (some keff)) st else st
    nres := fun _ => some 0
    nres_tot := some 0
    log := [] }

/-- The sweep-source data before the assembly loop of `update` reaches group `g`: the result of
the `fixed_source` calls for the groups `0 .. g-1`. -/
def MGSolverCMFD.source_ext {σ ω : Type} (_S : MGSolverCMFD) (C : Collaborators σ ω)
    (st : State σ) (g : Nat) : σ :=
  for_range g (fun g1 e => (C.fixed_source g1 { st with ext := e }).2) st.ext

/-- The fixed source `q` that the assembly loop of `update` obtains for group `g`. -/
def MGSolverCMFD.group_source {σ ω : Type} (S : MGSolverCMFD) (C : Collaborators σ ω)
    (st : State σ) (g : Nat) : Nat → Dbl :=
  (C.fixed_source g { st with ext := S.source_ext C st g }).1

/-- The sum over the fine cells `i` with `cmap[i] = c` of `f[i] * (V_i / V_c)`, taken in the
order of the cells. -/
def MGSolverCMFD.coarse_sum (S : MGSolverCMFD) (f : Nat → Dbl) (c : Nat) : Dbl :=
  for_range S.mesh_number_cells
    (fun i acc =>
      if S.cmap i = c then
        Dbl.add acc
          (Dbl.mul (f i) (Dbl.div (some (S.mesh_volume i)) (some (S.coarse_volume c))))
      else acc)
    (some 0)

/-- The vector `b` of `update`: the assembled right-hand side. -/
def MGSolverCMFD.update_b {σ ω : Type} (S : MGSolverCMFD) (C : Collaborators σ ω) (keff : ℚ)
    (st : State σ) : Nat → Dbl :=
  (S.assemble C { st with ext := (C.build_operator keff st).2 }).1.1

/-- Collaborators for `demo_cmfd` whose within-group solve leaves the flux as it is. -/
def demo_collab_fixed : Collaborators Unit Unit :=
  { demo_collab 1 with wg_solve := fun _ st => st }

/-- The accessors of one `KineticsMaterial` (whose header is not among the sources) that
`LinearMaterial` reads, with their argument order: `sigma_t(m, g)`, `sigma_s(m, g, gp)`,
`chi_d(m, i, g)`, `beta(m, i)`, ... -/
structure KineticsMaterial where
  number_materials : Nat
  number_groups : Nat
  number_precursor_groups : Nat
  sigma_t : Nat → Nat → ℚ
  sigma_a : Nat → Nat → ℚ
  sigma_f : Nat → Nat → ℚ
  nu : Nat → Nat → ℚ
  diff_coef : Nat → Nat → ℚ
  sigma_s : Nat → Nat → Nat → ℚ
  chi : Nat → Nat → ℚ
  chi_d : Nat → Nat → Nat → ℚ
  beta : Nat → Nat → ℚ
  beta_total : Nat → ℚ
  lambda : Nat → ℚ
  velocity : Nat → ℚ

/-- The members of a `LinearMaterial`: the time table, the materials at the table times (a
null pointer is `none`), the current time and step, and the arrays of the base class, indexed
as the code indexes them (`d_sigma_a[g][m]`, `d_sigma_s[g][gp][m]`, `d_chi_d[m][i][g]`,
`d_beta[i][m]`); the arrays are total maps from the indices to the entry. -/
structure LinearMaterial where
  d_number_materials : Nat
  d_number_groups : Nat
  d_number_precursor_groups : Nat
  d_times : List ℚ
  d_materials : List (Option KineticsMaterial)
  d_number_times : Nat
  d_t : ℚ
  d_dt : ℚ
  d_kcrit : ℚ
  d_velocity : Nat → ℚ
  d_lambda : Nat → ℚ
  d_sigma_t : Nat → Nat → Dbl
  d_sigma_a : Nat → Nat → Dbl
  d_sigma_f : Nat → Nat → Dbl
  d_nu : Nat → Nat → Dbl
  d_diff_coef : Nat → Nat → Dbl
  d_sigma_s : Nat → Nat → Nat → Dbl
  d_chi : Nat → Nat → Dbl
  d_chi_d : Nat → Nat → Nat → Dbl
  d_beta : Nat → Nat → Dbl

/-- The checks made for table entry `i` by the loop of the constructor (lines 33 to 46):
strictly increasing times, a material that is there, and matching dimensions. -/
def LinearMaterial.entry_ok (times : List ℚ) (materials : List (Option KineticsMaterial))
    (nm ng np : Nat) (i : Nat) : Bool :=
  (if 0 < i then
    match times[i - 1]?, times[i]? with
    | some a, some b => decide (a < b)
    | _, _ => false
  else true) &&
  match materials[i]? with
  | some (some X) =>
    decide (X.number_materials = nm) && decide (X.number_groups = ng) &&
      decide (X.number_precursor_groups = np)
  | _ => false

/-- The constructor `LinearMaterial(times, materials, name)`.  `init` holds the members as the
base-class constructor, which is not among the sources, leaves them.  A violated `Require`
and a read of a missing `materials[0]` end the call (`none`). -/
def LinearMaterial.create (init : LinearMaterial) (times : List ℚ)
    (materials : List (Option KineticsMaterial)) (_name : String) : Option LinearMaterial :=
  match materials[0]? with
  | some (some m0) =>
    let M0 : LinearMaterial :=
      { init with
        d_number_materials := m0.number_materials
        d_number_groups := m0.number_groups
        d_number_precursor_groups := m0.number_precursor_groups
        d_times := times
        d_materials := materials }
    if 0 < M0.d_times.length ∧ M0.d_times.length = M0.d_materials.length ∧
        (List.range M0.d_times.length).all
          (fun i => LinearMaterial.entry_ok M0.d_times M0.d_materials M0.d_number_materials
            M0.d_number_groups M0.d_number_precursor_groups i) = true then
      let M1 := for_range M0.d_number_groups
        (fun g (X : LinearMaterial) =>
          { X with d_velocity := Function.update X.d_velocity g (m0.velocity g) }) M0
      let M2 := for_range M1.d_number_precursor_groups
        (fun i (X : LinearMaterial) =>
          { X with d_lambda := Function.update X.d_lambda i (m0.lambda i) }) M1
      some { M2 with d_number_times := M2.d_times.length }
    else none
  | _ => none

/-- The search loop of `update` (lines 92 to 94) with `k` iterations left, loop index `i` and
the current value of `index_B`; the second comparison is made only when the first holds. -/
def index_loop (times : List ℚ) (t : ℚ) : Nat → Nat → Nat → Option Nat
  | 0, _, index_B => some index_B
  | k + 1, i, index_B =>
    match times[i - 1]? with
    | none => none
    | some a =>
      if t > a then
        match times[i]? with
        | none => none
        | some b => index_loop times t k (i + 1) (if t ≤ b then i else index_B)
      else index_loop times t k (i + 1) index_B

/-- Lines 77 to 102 of `update`: the indices and factors `(index_A, index_B, A, B)` chosen for
the time `d_t`.  `index_B - 1` on an `index_B` of zero wraps around and leaves the table
(`none`), as does `d_number_times - 1` on zero. -/
def LinearMaterial.select (M : LinearMaterial) : Option (Nat × Nat × Dbl × Dbl) :=
  match M.d_times[0]? with
  | none => none
  | some t0 =>
    if M.d_t ≤ t0 then some (0, 0, some 1, some 0)
    else if M.d_number_times = 0 then none
    else
      match M.d_times[M.d_number_times - 1]? with
      | none => none
      | some tl =>
        if M.d_t > tl then some (M.d_number_times - 1, M.d_number_times - 1, some 1, some 0)
        else
          match index_loop M.d_times M.d_t (M.d_number_times - 1) 1 0 with
          | none => none
          | some index_B =>
            if index_B = 0 then none
            else
              match M.d_times[index_B - 1]?, M.d_times[index_B]? with
              | some tA, some tB =>
                let B := Dbl.div (some (M.d_t - tA)) (some (tB - tA))
                some (index_B - 1, index_B, Dbl.sub (some 1) B, B)
              | _, _ => none

/-- The combination `cA * a + cB * b`. -/
def blend (cA cB : Dbl) (a b : ℚ) : Dbl := Dbl.add (Dbl.mul cA (some a)) (Dbl.mul cB (some b))

/-- The assignment `a[i][j] = v`. -/
def set2 (a : Nat → Nat → Dbl) (i j : Nat) (v : Dbl) : Nat → Nat → Dbl :=
  Function.update a i (Function.update (a i) j v)

/-- The assignment `a[i][j][k] = v`. -/
def set3 (a : Nat → Nat → Nat → Dbl) (i j k : Nat) (v : Dbl) : Nat → Nat → Nat → Dbl :=
  Function.update a i (set2 (a i) j k v)

/-- Lines 128 to 133 of `update_material` for material `m` and group `g`: the synthetic total
cross section and the four interpolated arrays indexed `[g][m]`. -/
def LinearMaterial.fill_basic (M : LinearMaterial) (A B : KineticsMaterial) (cA cB : Dbl)
    (m g : Nat) : LinearMaterial :=
  { M with
    d_sigma_t := set2 M.d_sigma_t g m
      (Dbl.add (blend cA cB (A.sigma_t m g) (B.sigma_t m g))
        (Dbl.div (some 1) (some (M.d_velocity g * M.d_dt))))
    d_sigma_a := set2 M.d_sigma_a g m (blend cA cB (A.sigma_a m g) (B.sigma_a m g))
    d_sigma_f := set2 M.d_sigma_f g m (blend cA cB (A.sigma_f m g) (B.sigma_f m g))
    d_nu := set2 M.d_nu g m (blend cA cB (A.nu m g) (B.nu m g))
    d_diff_coef := set2 M.d_diff_coef g m (blend cA cB (A.diff_coef m g) (B.diff_coef m g)) }

/-- Lines 134 to 138: the scattering loop over `gp`. -/
def LinearMaterial.fill_scatter (M : LinearMaterial) (A B : KineticsMaterial) (cA cB : Dbl)
    (m g : Nat) : LinearMaterial :=
  for_range A.number_groups
    (fun gp (X : LinearMaterial) =>
      { X with
        d_sigma_s := set3 X.d_sigma_s g gp m
          (blend cA cB (A.sigma_s m g gp) (B.sigma_s m g gp)) })
    M

/-- Lines 139 to 147: the loop over the precursor groups; the result is `(chiA, chiB)` and the
material with `d_chi_d` filled. -/
def LinearMaterial.fill_delayed (M : LinearMaterial) (A B : KineticsMaterial) (cA cB : Dbl)
    (m g : Nat) : Dbl × Dbl × LinearMaterial :=
  for_range M.d_number_precursor_groups
    (fun i (acc : Dbl × Dbl × LinearMaterial) =>
      let den : Dbl := some (1 + acc.2.2.d_dt * acc.2.2.d_lambda i)
      (Dbl.add acc.1
          (Dbl.div (some (A.lambda i * A.beta m i * A.chi_d m i g * acc.2.2.d_dt)) den),
        Dbl.add acc.2.1
          (Dbl.div (some (B.lambda i * B.beta m i * B.chi_d m i g * acc.2.2.d_dt)) den),
        { acc.2.2 with
          d_chi_d := set3 acc.2.2.d_chi_d m i g
            (blend cA cB (A.chi_d m i g) (B.chi_d m i g)) }))
    (some 0, some 0, M)

/-- The body of the loop over the groups (lines 127 to 151) for material `m` and group `g`. -/
def LinearMaterial.fill_group (M : LinearMaterial) (A B : KineticsMaterial) (cA cB : Dbl)
    (m g : Nat) : LinearMaterial :=
  let c := ((M.fill_basic A B cA cB m g).fill_scatter A B cA cB m g).fill_delayed A B cA cB m g
  let chiA := Dbl.add c.1 (some ((1 - A.beta_total m) * A.chi m g))
  let chiB := Dbl.add c.2.1 (some ((1 - B.beta_total m) * B.chi m g))
  { c.2.2 with
    d_chi := set2 c.2.2.d_chi g m
      (Dbl.add (c.2.2.d_chi g m)
        (Dbl.div (Dbl.add (Dbl.mul cA chiA) (Dbl.mul cB chiB)) (some c.2.2.d_kcrit))) }

/-- The body of the loop over the materials (lines 124 to 156) for material `m`. -/
def LinearMaterial.fill_material (M : LinearMaterial) (A B : KineticsMaterial) (cA cB : Dbl)
    (m : Nat) : LinearMaterial :=
  for_range M.d_number_precursor_groups
    (fun i (X : LinearMaterial) =>
      { X with d_beta := set2 X.d_beta i m (blend cA cB (A.beta m i) (B.beta m i)) })
    (for_range A.number_groups (fun g (X : LinearMaterial) => X.fill_group A B cA cB m g) M)

/-- The method `LinearMaterial::update_material(iA, iB, cA, cB)`; a missing material ends the
call (`none`). -/
def LinearMaterial.update_material (M : LinearMaterial) (iA iB : Nat) (cA cB : Dbl) :
    Option LinearMaterial :=
  match M.d_materials[iA]?, M.d_materials[iB]? with
  | some (some A), some (some B) =>
    some (for_range A.number_materials
      (fun m (X : LinearMaterial) => X.fill_material A B cA cB m) M)
  | _, _ => none

/-- The method `LinearMaterial::update(t, dt)`.  `finalize` is the base-class method of that
name, which is not among the sources. -/
def LinearMaterial.update (finalize : LinearMaterial → LinearMaterial) (M : LinearMaterial)
    (t dt : ℚ) : Option LinearMaterial :=
  let M1 := { M with d_t := t, d_dt := dt }
  match M1.select with
  | none => none
  | some (index_A, index_B, A, B) =>
    match M1.update_material index_A index_B A B with
    | none => none
    | some M2 => some (finalize M2)

/-- A one-material, one-group material with one precursor group and every cross section equal
to `c`. -/
def demo_km (c : ℚ) : KineticsMaterial :=
  { number_materials := 1
    number_groups := 1
    number_precursor_groups := 1
    sigma_t := fun _ _ => c
    sigma_a := fun _ _ => c
    sigma_f := fun _ _ => c
    nu := fun _ _ => c
    diff_coef := fun _ _ => c
    sigma_s := fun _ _ _ => c
    chi := fun _ _ => c
    chi_d := fun _ _ _ => c
    beta := fun _ _ => c
    beta_total := fun _ => c
    lambda := fun _ => 1
    velocity := fun _ => 1 }

/-- A `LinearMaterial` as a base-class constructor might leave it: zero arrays, `d_kcrit = 1`. -/
def demo_lm_init : LinearMaterial :=
  { d_number_materials := 0
    d_number_groups := 0
    d_number_precursor_groups := 0
    d_times := []
    d_materials := []
    d_number_times := 0
    d_t := 0
    d_dt := 0
    d_kcrit := 1
    d_velocity := fun _ => 0
    d_lambda := fun _ => 0
    d_sigma_t := fun _ _ => some 0
    d_sigma_a := fun _ _ => some 0
    d_sigma_f := fun _ _ => some 0
    d_nu := fun _ _ => some 0
    d_diff_coef := fun _ _ => some 0
    d_sigma_s := fun _ _ _ => some 0
    d_chi := fun _ _ => some 0
    d_chi_d := fun _ _ _ => some 0
    d_beta := fun _ _ => some 0 }

/-- The time table `0, 1, 3`. -/
def demo_times : List ℚ := [0, 1, 3]

/-- The materials at the times of `demo_times`, with cross sections `1`, `2` and `4`. -/
def demo_materials : List (Option KineticsMaterial) :=
  [some (demo_km 1), some (demo_km 2), some (demo_km 4)]

/-- The material built by `LinearMaterial(demo_times, demo_materials, "lin")`. -/
def demo_lm : LinearMaterial :=
  (LinearMaterial.create demo_lm_init demo_times demo_materials "lin").getD demo_lm_init

end detran

/-! # Theorems -/

namespace callow

/-! ### Basic facts -/

theorem std_max_eq_max (a b : ℚ) : std_max a b = max a b := by
  unfold std_max
  split_ifs with h
  · exact (max_eq_right h.le).symm
  · exact (max_eq_left (not_lt.mp h)).symm

theorem vec_set_some {v : List ℚ} {i : Int} (x : ℚ) (h0 : 0 ≤ i) (h1 : i.toNat < v.length) :
    vec_set v i x = some (v.set i.toNat x) := by
  simp [vec_set, h0, h1]

theorem vec_get_set_ne {v : List ℚ} {i j : Int} (x : ℚ) (hi : 0 ≤ i) (hj : 0 ≤ j)
    (hne : i ≠ j) : vec_get (v.set i.toNat x) j = vec_get v j := by
  have hn : i.toNat ≠ j.toNat := by omega
  simp [vec_get, hj, List.getElem?_set_ne hn]

theorem vec_get_set_self {v : List ℚ} {i : Int} (x : ℚ) (hi : 0 ≤ i)
    (h1 : i.toNat < v.length) : vec_get (v.set i.toNat x) i = some x := by
  simp [vec_get, hi, h1]

/-! ### The success and divergence tests of `monitor` -/

theorem monitor_eval (s : LinearSolver) (it : Int) (r r0 : ℚ) (hit : 1 ≤ it)
    (hin : it < s.d_residual.length) (h0 : vec_get s.d_residual 0 = some r0) :
    s.monitor it r =
      (let s1 : LinearSolver :=
        { s with d_number_iterations := it, d_residual := s.d_residual.set it.toNat r }
      if r < max (s.d_relative_tolerance * r0) s.d_absolute_tolerance then
        some ({ s1 with d_status := status.SUCCESS }, true)
      else if s.d_monitor_diverge = true ∧ 1 < it then
        match vec_get s.d_residual (it - 1) with
        | none => none
        | some prev =>
          if prev < r then some ({ s1 with d_status := status.DIVERGE }, true)
          else some (s1, false)
      else some (s1, false)) := by
  have hnn : 0 ≤ it := by omega
  have hlt : it.toNat < s.d_residual.length := by omega
  have hget0 : vec_get (s.d_residual.set it.toNat r) 0 = some r0 := by
    rw [vec_get_set_ne r hnn (le_refl 0) (by omega)]; exact h0
  have hgetp : vec_get (s.d_residual.set it.toNat r) (it - 1) = vec_get s.d_residual (it - 1) := by
    by_cases h1 : 1 < it
    · exact vec_get_set_ne r hnn (by omega) (by omega)
    · have : it - 1 = 0 := by omega
      rw [this, hget0, h0]
  simp only [LinearSolver.monitor, vec_set_some r hnn hlt, hget0, std_max_eq_max, hgetp,
    Bool.and_eq_true, decide_eq_true_eq, gt_iff_lt, sub_pos]

theorem monitor_init_records (t t1 : LinearSolver) (r0 : ℚ) (b0 : Bool)
    (h : t.monitor_init r0 = some (t1, b0)) :
    vec_get t1.d_residual 0 = some r0 ∧ t1.d_residual.length = t.d_residual.length ∧
      t1.d_relative_tolerance = t.d_relative_tolerance ∧
      t1.d_absolute_tolerance = t.d_absolute_tolerance := by
  unfold LinearSolver.monitor_init at h
  by_cases hne : (0 : Int) ≤ 0 ∧ (0 : Int).toNat < t.d_residual.length
  · have hset : vec_set t.d_residual 0 r0 = some (t.d_residual.set 0 r0) := by
      simpa using vec_set_some (v := t.d_residual) (i := 0) r0 hne.1 hne.2
    have hg : vec_get (t.d_residual.set 0 r0) 0 = some r0 := by
      simpa using vec_get_set_self (v := t.d_residual) (i := 0) r0 hne.1 hne.2
    simp only [hset] at h
    split_ifs at h <;> cases h <;> exact ⟨hg, by simp, rfl, rfl⟩
  · have hset : vec_set t.d_residual 0 r0 = none := by
      simp only [vec_set, hne, if_false]
    simp [hset] at h

/-- C1: `monitor_init r0` records `r0` as entry 0 of the residual history.  For an iteration
index `it ≥ 1` inside a history whose entry 0 holds `r0`, `monitor it r` returns, and it
returns `true` with status `SUCCESS` exactly when `r < max (rtol * r0) atol`; entry 0 of the
history, its length and the tolerances are left as they were, so the same holds at every
later call. -/
theorem monitor_success_iff (s : LinearSolver) (it : Int) (r r0 : ℚ) (hit : 1 ≤ it)
    (hin : it < s.d_residual.length) (h0 : vec_get s.d_residual 0 = some r0) :
    (∀ (t t1 : LinearSolver) (b0 : Bool), t.monitor_init r0 = some (t1, b0) →
      vec_get t1.d_residual 0 = some r0) ∧
    ∃ s1 b, s.monitor it r = some (s1, b) ∧
      ((s1.d_status = status.SUCCESS ∧ b = true) ↔
        r < max (s.d_relative_tolerance * r0) s.d_absolute_tolerance) ∧
      vec_get s1.d_residual 0 = some r0 ∧ s1.d_residual.length = s.d_residual.length ∧
      s1.d_relative_tolerance = s.d_relative_tolerance ∧
      s1.d_absolute_tolerance = s.d_absolute_tolerance := by
  refine ⟨fun t t1 b0 h => (monitor_init_records t t1 r0 b0 h).1, ?_⟩
  have hnn : 0 ≤ it := by omega
  have hget0 : vec_get (s.d_residual.set it.toNat r) 0 = some r0 := by
    rw [vec_get_set_ne r hnn (le_refl 0) (by omega)]; exact h0
  rw [monitor_eval s it r r0 hit hin h0]
  by_cases hs : r < max (s.d_relative_tolerance * r0) s.d_absolute_tolerance
  · simp [hs, hget0]
  · by_cases hd : s.d_monitor_diverge = true ∧ 1 < it
    · have hp : ∃ prev, vec_get s.d_residual (it - 1) = some prev := by
        have h1 : (it - 1).toNat < s.d_residual.length := by omega
        exact ⟨s.d_residual[(it - 1).toNat], by simp [vec_get, show 0 ≤ it - 1 by omega, h1]⟩
      obtain ⟨prev, hprev⟩ := hp
      by_cases hg : prev < r <;> simp [hs, hd, hprev, hg, hget0]
    · simp [hs, hd, hget0]

theorem demo_solver_create :
    LinearSolver.create (1 / 100) (1 / 100) 3 "solver" status.RUNNING = some demo_solver := by
  norm_num [LinearSolver.create, demo_solver]
  rfl

theorem demo_solver_monitor_init :
    demo_solver.monitor_init 1 = some (demo_solver_init, false) := by
  norm_num [LinearSolver.monitor_init, vec_set, demo_solver, demo_solver_init]

theorem monitor_success_iff_witness :
    ∃ s1 b, demo_solver_init.monitor 2 (1 / 1000) = some (s1, b) ∧
      ((s1.d_status = status.SUCCESS ∧ b = true) ↔
        (1 / 1000 : ℚ) < max (demo_solver_init.d_relative_tolerance * 1)
          demo_solver_init.d_absolute_tolerance) ∧
      vec_get s1.d_residual 0 = some 1 ∧
      s1.d_residual.length = demo_solver_init.d_residual.length ∧
      s1.d_relative_tolerance = demo_solver_init.d_relative_tolerance ∧
      s1.d_absolute_tolerance = demo_solver_init.d_absolute_tolerance :=
  (monitor_success_iff demo_solver_init 2 (1 / 1000) 1 (by decide) (by decide)
    (by decide)).2

theorem expected_trace_cons (st : status) (n : Nat) (o : Option Nat) :
    (false, st) :: expected_trace st n o =
      expected_trace st (n + 1) (o.map fun i => i + 1) := by
  cases o <;> simp [expected_trace, List.replicate_succ]

theorem feed_monitor_trace (r0 : ℚ) :
    ∀ (rs : List ℚ) (s : LinearSolver) (k : Nat) (prev : ℚ), 1 ≤ k →
      k + rs.length ≤ s.d_residual.length →
      vec_get s.d_residual 0 = some r0 →
      vec_get s.d_residual ((k : Int) - 1) = some prev →
      List.Chain (fun a b => b ≤ a) prev rs →
      feed_monitor s k rs = some (expected_trace s.d_status rs.length
        (rs.findIdx? fun r =>
          decide (r < max (s.d_relative_tolerance * r0) s.d_absolute_tolerance))) := by
  intro rs
  induction rs with
  | nil => intro s k prev _ _ _ _ _; simp [feed_monitor, expected_trace]
  | cons r rs ih =>
    intro s k prev hk hlen h0 hprev hch
    have hle : r ≤ prev := (List.chain_cons.mp hch).1
    have hch1 : List.Chain (fun a b => b ≤ a) r rs := (List.chain_cons.mp hch).2
    simp only [List.length_cons] at hlen
    have hit : (1 : Int) ≤ (k : Int) := by omega
    have hin : (k : Int) < s.d_residual.length := by omega
    have hnn : (0 : Int) ≤ (k : Int) := by omega
    have hnp : ¬ prev < r := not_lt.mpr hle
    have hev := monitor_eval s k r r0 hit hin h0
    rw [hprev] at hev
    by_cases hs : r < max (s.d_relative_tolerance * r0) s.d_absolute_tolerance
    · simp only [hs, if_true] at hev
      simp only [feed_monitor, hev, List.findIdx?_cons, hs, decide_True, if_true,
        expected_trace, List.replicate_zero, List.nil_append]
    · simp only [hs, hnp, if_false, ite_self] at hev
      have hih := ih { s with d_number_iterations := k, d_residual := s.d_residual.set k r }
        (k + 1) r (by omega) (by simp only [List.length_set]; omega)
        (by
          have := vec_get_set_ne (v := s.d_residual) (i := (k : Int)) (j := 0) r hnn
            (le_refl 0) (by omega)
          simpa [h0] using this)
        (by
          have := vec_get_set_self (v := s.d_residual) (i := (k : Int)) r hnn (by simpa using hin)
          simpa using this)
        hch1
      simp only [Int.toNat_ofNat] at hev
      simp only [feed_monitor, hev, hih, Option.map_some', expected_trace_cons,
        List.findIdx?_cons, hs, decide_False, Bool.false_eq_true, if_false,
        List.findIdx?_succ, List.length_cons]

theorem monitor_init_eval (s : LinearSolver) (r : ℚ) (hne : 0 < s.d_residual.length) :
    s.monitor_init r =
      (if r < s.d_absolute_tolerance then
        some ({ s with d_residual := s.d_residual.set 0 r, d_status := status.SUCCESS }, true)
      else some ({ s with d_residual := s.d_residual.set 0 r }, false)) := by
  have h := vec_set_some (v := s.d_residual) (i := 0) r (le_refl 0) (by simpa using hne)
  simp only [Int.toNat_zero] at h
  simp only [LinearSolver.monitor_init, h]

/-- C3: for residuals `r0, r1, ..., rn` that fit in the residual history, with `0 ≤ r0`, no
value above its predecessor and `rtol ≤ 1`, feeding `r0` to `monitor_init` and `rk` to
`monitor(k, rk)` until the first `true` return produces a result, and the run declares
`SUCCESS` exactly at the first index `k` with `rk < max (rtol * r0) atol`: every earlier call
returns `false` and leaves the status untouched, and when no residual meets the criterion
every call does so.  (Non-negativity of the later residuals and `0 ≤ rtol` are not needed.) -/
theorem run_monitor_success (s : LinearSolver) (r0 : ℚ) (rs : List ℚ) (hr0 : 0 ≤ r0)
    (hrt : s.d_relative_tolerance ≤ 1) (hch : List.Chain (fun a b => b ≤ a) r0 rs)
    (hlen : (r0 :: rs).length ≤ s.d_residual.length) :
    run_monitor s (r0 :: rs) = some (expected_trace s.d_status (r0 :: rs).length
      ((r0 :: rs).findIdx? fun r =>
        decide (r < max (s.d_relative_tolerance * r0) s.d_absolute_tolerance))) := by
  simp only [List.length_cons] at hlen
  have hne : 0 < s.d_residual.length := by omega
  have hmul : s.d_relative_tolerance * r0 ≤ r0 := by nlinarith
  by_cases ha : r0 < s.d_absolute_tolerance
  · have hs : r0 < max (s.d_relative_tolerance * r0) s.d_absolute_tolerance :=
      lt_max_of_lt_right ha
    simp only [run_monitor, monitor_init_eval s r0 hne, ha, if_true, List.findIdx?_cons, hs,
      decide_True, expected_trace, List.replicate_zero, List.nil_append]
  · have hs : ¬ r0 < max (s.d_relative_tolerance * r0) s.d_absolute_tolerance := by
      rw [lt_max_iff]
      rintro (h | h)
      · exact absurd h (not_lt.mpr hmul)
      · exact ha h
    have hft := feed_monitor_trace r0 rs { s with d_residual := s.d_residual.set 0 r0 } 1 r0
      (le_refl 1) (by simp only [List.length_set]; omega)
      (by
        have := vec_get_set_self (v := s.d_residual) (i := 0) r0 (le_refl 0) (by simpa using hne)
        simpa using this)
      (by
        have := vec_get_set_self (v := s.d_residual) (i := 0) r0 (le_refl 0) (by simpa using hne)
        simpa using this)
      hch
    simp only [run_monitor, monitor_init_eval s r0 hne, ha, if_false, hft, Option.map_some',
      expected_trace_cons, List.findIdx?_cons, hs, decide_False, Bool.false_eq_true,
      List.findIdx?_succ, List.length_cons]

theorem run_monitor_success_witness :
    run_monitor demo_solver [1, 1 / 2, 49 / 100, 1 / 1000] =
      some [(false, status.RUNNING), (false, status.RUNNING), (false, status.RUNNING),
        (true, status.SUCCESS)] :=
  (run_monitor_success demo_solver 1 [1 / 2, 49 / 100, 1 / 1000] (by norm_num)
    (by norm_num [demo_solver])
    (by norm_num)
    (by decide)).trans (by
      norm_num [demo_solver, expected_trace, List.findIdx?_cons, List.replicate])

/-! ### Divergence test -/

/-- C2 (as stated) fails at `it = 1`: with divergence monitoring on, initial residual `1` and
tolerances `1/100`, the residual `2` at iteration 1 misses the success criterion and exceeds
the previous (initial) residual, yet `monitor(1, 2)` returns `false` and the status stays
`RUNNING` instead of becoming `DIVERGE`. -/
theorem monitor_first_iteration_no_diverge :
    demo_solver.monitor_init 1 = some (demo_solver_init, false) ∧
      demo_solver_init.d_monitor_diverge = true ∧
      vec_get demo_solver_init.d_residual (1 - 1) = some 1 ∧
      ¬ ((2 : ℚ) < max (demo_solver_init.d_relative_tolerance * 1)
        demo_solver_init.d_absolute_tolerance) ∧
      (1 : ℚ) < 2 ∧
      (demo_solver_init.monitor 1 2).map (fun p => (p.2, p.1.d_status)) =
        some (false, status.RUNNING) := by
  refine ⟨?_, rfl, by decide, ?_, by norm_num, ?_⟩
  · norm_num [LinearSolver.monitor_init, vec_set, demo_solver, demo_solver_init]
  · norm_num [demo_solver_init, demo_solver]
  · norm_num [LinearSolver.monitor, vec_set, vec_get, std_max, demo_solver_init, demo_solver]

/-- C2 (amended): with divergence monitoring enabled, for an iteration index `it ≥ 1` inside
the residual history and a residual `r` that misses the success criterion and is strictly
greater than the residual recorded for iteration `it - 1`: when `it ≥ 2`, `monitor it r`
sets the status to `DIVERGE` and returns `true`; when `it = 1` it returns `false` and leaves
the status as it was. -/
theorem monitor_diverge (s : LinearSolver) (it : Int) (r r0 prev : ℚ)
    (hd : s.d_monitor_diverge = true) (hit : 1 ≤ it) (hin : it < s.d_residual.length)
    (h0 : vec_get s.d_residual 0 = some r0) (hprev : vec_get s.d_residual (it - 1) = some prev)
    (hns : ¬ r < max (s.d_relative_tolerance * r0) s.d_absolute_tolerance) (hgt : prev < r) :
    (2 ≤ it → ∃ s1, s.monitor it r = some (s1, true) ∧ s1.d_status = status.DIVERGE) ∧
    (it = 1 → ∃ s1, s.monitor it r = some (s1, false) ∧ s1.d_status = s.d_status) := by
  rw [monitor_eval s it r r0 hit hin h0, hprev]
  constructor
  · intro h2
    have h1 : 1 < it := by omega
    simp [hns, hd, h1, hgt]
  · intro h1
    have h1n : ¬ 1 < it := by omega
    simp [hns, h1n]

theorem monitor_diverge_witness :
    (∃ s1, demo_solver_one.monitor 2 (3 / 4) = some (s1, true) ∧
      s1.d_status = status.DIVERGE) :=
  (monitor_diverge demo_solver_one 2 (3 / 4) 1 (1 / 2) rfl (by decide) (by decide)
    (by decide) rfl (by norm_num [demo_solver_one, demo_solver])
    (by norm_num)).1 (by decide)

/-! ### Eispack: scaling of the generalized eigenvalues -/

theorem write_first_length {n : Nat} {f : Nat → Dbl} {v w : List Dbl}
    (h : write_first n f v = some w) : w.length = v.length := by
  unfold write_first at h
  split_ifs at h with hn
  cases h
  simp only [List.length_append, List.length_map, List.length_range, List.length_drop]
  omega

theorem write_first_exact (f : Nat → Dbl) {v : List Dbl} :
    write_first v.length f v = some ((List.range v.length).map f) := by
  simp [write_first]

theorem Vector_divide_length {v x w : List Dbl} (h : Vector_divide v x = some w) :
    w.length = v.length := by
  unfold Vector_divide at h
  split_ifs at h with hn
  cases h
  simp [hn]

theorem solve_complete_length {e : Eispack} {F : Fortran} {V_R V_I V_R1 V_I1 : MatrixDense}
    {E_R E_I E_R1 E_I1 : List Dbl}
    (h : e.solve_complete F V_R V_I E_R E_I = some (V_R1, V_I1, E_R1, E_I1)) :
    E_R1.length = E_R.length := by
  unfold Eispack.solve_complete at h
  cases hA : e.d_A with
  | none => simp [hA] at h
  | some A =>
    cases hB : e.d_B with
    | none =>
      simp only [hA, hB] at h
      cases h1 : write_first A.number_rows (F.rg_ A.number_rows A.number_rows A 1).wr E_R with
      | none => simp [h1] at h
      | some a =>
        cases h2 : write_first A.number_rows (F.rg_ A.number_rows A.number_rows A 1).wi E_I with
        | none => simp [h1, h2] at h
        | some b =>
          simp only [h1, h2, Option.some.injEq, Prod.mk.injEq] at h
          rw [← h.2.2.1]
          exact write_first_length h1
    | some B =>
      simp only [hA, hB] at h
      cases h1 : write_first A.number_rows
          (F.rgg_ A.number_rows A.number_rows A B 1).alfr E_R with
      | none => simp [h1] at h
      | some a =>
        cases h2 : write_first A.number_rows
            (F.rgg_ A.number_rows A.number_rows A B 1).alfi E_I with
        | none => simp [h1, h2] at h
        | some b =>
          cases h3 : write_first A.number_rows
              (F.rgg_ A.number_rows A.number_rows A B 1).beta
              (List.replicate A.number_rows (some 0)) with
          | none => simp [h1, h2, h3] at h
          | some c =>
            simp only [h1, h2, h3] at h
            split_ifs at h with hi
            cases h4 : Vector_divide a c with
            | none => simp [h4] at h
            | some a2 =>
              cases h5 : Vector_divide b c with
              | none => simp [h4, h5] at h
              | some b2 =>
                simp only [h4, h5, Option.some.injEq, Prod.mk.injEq] at h
                rw [← h.2.2.1, Vector_divide_length h4]
                exact write_first_length h1

/-- C5: in `solve_complete` on buffers of the matrix dimension `m`: when a `B` operator is
set and the QZ routine reports no error, every returned eigenvalue part is the quotient
`E_R[i] = alfr[i] / beta[i]`, `E_I[i] = alfi[i] / beta[i]` of the routine's numerator and
denominator (for `i < m`); when no `B` is set, `E_R` and `E_I` are exactly the `wr`, `wi`
written by the QR routine. -/
theorem solve_complete_scaling (e : Eispack) (F : Fortran) (A : MatrixDense)
    (V_R V_I : MatrixDense) (E_R E_I : List Dbl) (hA : e.d_A = some A)
    (hR : E_R.length = A.number_rows) (hI : E_I.length = A.number_rows) :
    (∀ B, e.d_B = some B → (F.rgg_ A.number_rows A.number_rows A B 1).ierr = 0 →
      ∃ E_R1 E_I1,
        e.solve_complete F V_R V_I E_R E_I =
          some ({ V_R with get := (F.rgg_ A.number_rows A.number_rows A B 1).z }, V_I,
            E_R1, E_I1) ∧
        E_R1.length = A.number_rows ∧ E_I1.length = A.number_rows ∧
        ∀ i, i < A.number_rows →
          E_R1[i]? = some (Dbl.div ((F.rgg_ A.number_rows A.number_rows A B 1).alfr i)
            ((F.rgg_ A.number_rows A.number_rows A B 1).beta i)) ∧
          E_I1[i]? = some (Dbl.div ((F.rgg_ A.number_rows A.number_rows A B 1).alfi i)
            ((F.rgg_ A.number_rows A.number_rows A B 1).beta i))) ∧
    (e.d_B = none →
      e.solve_complete F V_R V_I E_R E_I =
        some ({ V_R with get := (F.rg_ A.number_rows A.number_rows A 1).z }, V_I,
          (List.range A.number_rows).map (F.rg_ A.number_rows A.number_rows A 1).wr,
          (List.range A.number_rows).map (F.rg_ A.number_rows A.number_rows A 1).wi)) := by
  constructor
  · intro B hB herr
    have h1 := write_first_exact (F.rgg_ A.number_rows A.number_rows A B 1).alfr (v := E_R)
    have h2 := write_first_exact (F.rgg_ A.number_rows A.number_rows A B 1).alfi (v := E_I)
    have h3 := write_first_exact (F.rgg_ A.number_rows A.number_rows A B 1).beta
      (v := List.replicate A.number_rows (some 0))
    rw [hR] at h1
    rw [hI] at h2
    simp only [List.length_replicate] at h3
    refine ⟨List.zipWith Dbl.div
        ((List.range A.number_rows).map (F.rgg_ A.number_rows A.number_rows A B 1).alfr)
        ((List.range A.number_rows).map (F.rgg_ A.number_rows A.number_rows A B 1).beta),
      List.zipWith Dbl.div
        ((List.range A.number_rows).map (F.rgg_ A.number_rows A.number_rows A B 1).alfi)
        ((List.range A.number_rows).map (F.rgg_ A.number_rows A.number_rows A B 1).beta),
      ?_, ?_, ?_, ?_⟩
    · simp only [Eispack.solve_complete, hA, hB, h1, h2, h3, herr, ne_eq, not_true_eq_false,
        if_false, Vector_divide, List.length_map, List.length_range, if_true]
    · simp
    · simp
    · intro i hi
      simp [List.getElem?_zipWith, List.getElem?_range hi, hi]
  · intro hB
    have h1 := write_first_exact (F.rg_ A.number_rows A.number_rows A 1).wr (v := E_R)
    have h2 := write_first_exact (F.rg_ A.number_rows A.number_rows A 1).wi (v := E_I)
    rw [hR] at h1
    rw [hI] at h2
    simp only [Eispack.solve_complete, hA, hB, h1, h2]

theorem solve_complete_scaling_witness :
    ∃ E_R1 E_I1,
      demo_eispack_gen.solve_complete demo_fortran (MatrixDense.fill 2 2 (some 0))
          (MatrixDense.fill 2 2 (some 0)) [some 0, some 0] [some 0, some 0] =
        some ({ MatrixDense.fill 2 2 (some 0) with get := (demo_fortran.rgg_ 2 2 demo_diag
          demo_diag 1).z }, MatrixDense.fill 2 2 (some 0), E_R1, E_I1) ∧
      E_R1[0]? = some (some 3) ∧ E_R1[1]? = some (some 7) := by
  obtain ⟨E_R1, E_I1, h, _, _, hi⟩ :=
    (solve_complete_scaling demo_eispack_gen demo_fortran demo_diag
      (MatrixDense.fill 2 2 (some 0)) (MatrixDense.fill 2 2 (some 0)) [some 0, some 0]
      [some 0, some 0] rfl rfl rfl).1 demo_diag rfl rfl
  refine ⟨E_R1, E_I1, h, ?_, ?_⟩
  · rw [(hi 0 (by decide)).1]
    norm_num [demo_fortran, Dbl.div]
  · rw [(hi 1 (by decide)).1]
    norm_num [demo_fortran, Dbl.div]

/-! ### Eispack: selection of the dominant eigenpair -/

theorem max_loop_finite (er : List ℚ) :
    ∀ (n i : Nat) (v : ℚ) (k : Nat), i + n = er.length → k < i → er[k]? = some v →
      (∀ (j : Nat) (w : ℚ), j < i → er[j]? = some w → w ≤ v) →
      (∀ (j : Nat) (w : ℚ), j < k → er[j]? = some w → w < v) →
      ∃ v1 k1, max_loop (er.map some) n i (some v, k) = some (some v1, k1) ∧
        k1 < er.length ∧ er[k1]? = some v1 ∧
        (∀ (j : Nat) (w : ℚ), er[j]? = some w → w ≤ v1) ∧
        (∀ (j : Nat) (w : ℚ), j < k1 → er[j]? = some w → w < v1) := by
  intro n
  induction n with
  | zero =>
    intro i v k hlen hk hv hle hlt
    refine ⟨v, k, rfl, by omega, hv, ?_, hlt⟩
    intro j w hj
    have hjl : j < er.length := by
      by_contra hc
      rw [List.getElem?_eq_none (by omega)] at hj
      cases hj
    exact hle j w (by omega) hj
  | succ n ih =>
    intro i v k hlen hk hv hle hlt
    have hi : i < er.length := by omega
    have he : er[i]? = some er[i] := List.getElem?_eq_getElem hi
    have hme : (er.map some)[i]? = some (some er[i]) := by simp [he]
    by_cases hgt : v < er[i]
    · have hstep : max_loop (er.map some) (n + 1) i (some v, k) =
          max_loop (er.map some) n (i + 1) (some er[i], i) := by
        simp [max_loop, hme, Dbl.gt, Dbl.lt, hgt]
      rw [hstep]
      refine ih (i + 1) er[i] i (by omega) (by omega) he ?_ ?_
      · intro j w hj hw
        by_cases hji : j = i
        · subst hji
          rw [he] at hw
          cases hw
          exact le_refl _
        · exact le_of_lt (lt_of_le_of_lt (hle j w (by omega) hw) hgt)
      · intro j w hj hw
        exact lt_of_le_of_lt (hle j w hj hw) hgt
    · have hstep : max_loop (er.map some) (n + 1) i (some v, k) =
          max_loop (er.map some) n (i + 1) (some v, k) := by
        simp [max_loop, hme, Dbl.gt, Dbl.lt, hgt]
      rw [hstep]
      refine ih (i + 1) v k (by omega) (by omega) hv ?_ hlt
      intro j w hj hw
      by_cases hji : j = i
      · subst hji
        rw [he] at hw
        cases hw
        exact not_lt.mp hgt
      · exact hle j w (by omega) hw

/-- C4: for a dimension `m ≥ 1` and finite real eigenvalue parts `E_R` returned by
`solve_complete`, `solve_impl` selects the least index `k` at which `E_R` attains its
maximum (`E_R[j] ≤ E_R[k]` for all `j`, `E_R[j] < E_R[k]` for `j < k`), copies column `k` of
`V_R` into `x` before normalising it, and stores `E_R[k]` in `d_lambda`. -/
theorem solve_impl_selects_max (e : Eispack) (F : Fortran) (norm : norm_type → List Dbl → Dbl)
    (x x0 : List Dbl) (A V_R V_I : MatrixDense) (er : List ℚ) (E_I : List Dbl)
    (hA : e.d_A = some A) (hm : 1 ≤ A.number_columns) (hx : x.length = A.number_columns)
    (hsc : e.solve_complete F (MatrixDense.fill A.number_columns A.number_columns (some 0))
        (MatrixDense.fill A.number_columns A.number_columns (some 0))
        (List.replicate A.number_columns (some 0)) (List.replicate A.number_columns (some 0)) =
      some (V_R, V_I, er.map some, E_I)) :
    ∃ v k, k < A.number_columns ∧ er[k]? = some v ∧
      (∀ (j : Nat) (w : ℚ), er[j]? = some w → w ≤ v) ∧
      (∀ (j : Nat) (w : ℚ), j < k → er[j]? = some w → w < v) ∧
      e.solve_impl_select F x =
        some (some v, k, (List.range A.number_columns).map fun i => V_R.get i k) ∧
      e.solve_impl F norm x x0 =
        some ({ e with d_lambda := some v },
          Vector_scale ((List.range A.number_columns).map fun i => V_R.get i k)
            (Dbl.div (some 1)
              (norm norm_type.L2 ((List.range A.number_columns).map fun i => V_R.get i k)))) := by
  have hlen : er.length = A.number_columns := by
    have := solve_complete_length hsc
    simpa using this
  have h0 : er[0]? = some er[0] := List.getElem?_eq_getElem (by omega)
  obtain ⟨v, k, hloop, hk, hv, hle, hlt⟩ :=
    max_loop_finite er (A.number_columns - 1) 1 er[0] 0 (by omega) (by omega) h0
      (by
        intro j w hj hw
        have hj0 : j = 0 := by omega
        subst hj0
        rw [h0] at hw
        cases hw
        exact le_refl _)
      (by intro j w hj; omega)
  have hwf := write_first_exact (fun i => V_R.get i k) (v := x)
  rw [hx] at hwf
  have hsel : e.solve_impl_select F x =
      some (some v, k, (List.range A.number_columns).map fun i => V_R.get i k) := by
    simp only [Eispack.solve_impl_select, hA, hsc, List.getElem?_map, h0, Option.map_some',
      hloop, hwf]
  refine ⟨v, k, by omega, hv, hle, hlt, hsel, ?_⟩
  simp only [Eispack.solve_impl, hsel]

theorem solve_impl_selects_max_witness :
    ∃ v k, k < 2 ∧ [(3 : ℚ), 7][k]? = some v ∧
      (∀ (j : Nat) (w : ℚ), [(3 : ℚ), 7][j]? = some w → w ≤ v) ∧
      (∀ (j : Nat) (w : ℚ), j < k → [(3 : ℚ), 7][j]? = some w → w < v) ∧
      demo_eispack.solve_impl_select demo_fortran [some 0, some 0] =
        some (some v, k, (List.range 2).map fun i => (demo_fortran.rg_ 2 2 demo_diag 1).z i k) ∧
      demo_eispack.solve_impl demo_fortran demo_unit_norm [some 0, some 0] [] =
        some ({ demo_eispack with d_lambda := some v },
          Vector_scale ((List.range 2).map fun i => (demo_fortran.rg_ 2 2 demo_diag 1).z i k)
            (Dbl.div (some 1) (demo_unit_norm norm_type.L2
              ((List.range 2).map fun i => (demo_fortran.rg_ 2 2 demo_diag 1).z i k)))) :=
  solve_impl_selects_max demo_eispack demo_fortran demo_unit_norm [some 0, some 0] []
    demo_diag { MatrixDense.fill 2 2 (some 0) with get := (demo_fortran.rg_ 2 2 demo_diag 1).z }
    (MatrixDense.fill 2 2 (some 0)) [3, 7] [some 0, some 0] rfl (by decide) rfl rfl

theorem create_bounds {atol rtol : ℚ} {maxit : Int} {name : String} {st0 : status}
    {s : LinearSolver} (h : LinearSolver.create atol rtol maxit name st0 = some s) :
    0 ≤ s.d_absolute_tolerance ∧ 0 ≤ s.d_relative_tolerance ∧ 0 < s.d_maximum_iterations := by
  unfold LinearSolver.create at h
  split_ifs at h with h1 h2
  cases h
  exact ⟨h2.1, h2.2.1, h2.2.2⟩

theorem set_tolerances_bounds {s s1 : LinearSolver} {atol rtol : ℚ} {maxit : Int}
    (h : s.set_tolerances atol rtol maxit = some s1) :
    0 < s1.d_absolute_tolerance ∧ 0 < s1.d_relative_tolerance ∧ 0 ≤ s1.d_maximum_iterations := by
  simp only [LinearSolver.set_tolerances] at h
  split_ifs at h with h1
  cases h
  exact ⟨h1.1, h1.2.1, h1.2.2⟩

theorem set_tolerances_calls_bounds (cs : List (ℚ × ℚ × Int)) :
    ∀ (s s1 : LinearSolver), set_tolerances_calls s cs = some s1 → cs ≠ [] →
      0 < s1.d_absolute_tolerance ∧ 0 < s1.d_relative_tolerance ∧
        0 ≤ s1.d_maximum_iterations := by
  induction cs with
  | nil => intro s s1 _ hne; exact absurd rfl hne
  | cons c cs ih =>
    intro s s1 h _
    simp only [set_tolerances_calls] at h
    cases hc : s.set_tolerances c.1 c.2.1 c.2.2 with
    | none => simp [hc] at h
    | some s2 =>
      simp only [hc] at h
      cases cs with
      | nil =>
        simp only [set_tolerances_calls, Option.some.injEq] at h
        subst h
        exact set_tolerances_bounds hc
      | cons c2 cs2 => exact ih s2 s1 h (List.cons_ne_nil _ _)

/-- C14 (as stated) fails: after the constructor `LinearSolver(1/100, 1/100, 3, "solver")`,
the call `set_tolerances(1, 1, 0)` succeeds and leaves `d_maximum_iterations = 0`, which is
not `> 0`. -/
theorem set_tolerances_admits_zero_iterations :
    LinearSolver.create (1 / 100) (1 / 100) 3 "solver" status.RUNNING = some demo_solver ∧
      set_tolerances_calls demo_solver [(1, 1, 0)] =
        some { demo_solver with
          d_absolute_tolerance := 1, d_relative_tolerance := 1, d_maximum_iterations := 0 } ∧
      ¬ (0 : Int) < ({ demo_solver with
          d_absolute_tolerance := 1, d_relative_tolerance := 1,
          d_maximum_iterations := 0 } : LinearSolver).d_maximum_iterations := by
  refine ⟨?_, ?_, by decide⟩
  · norm_num [LinearSolver.create, demo_solver]
    rfl
  · norm_num [set_tolerances_calls, LinearSolver.set_tolerances]

/-- C14 (amended): every configuration produced by a successful constructor call followed by
any number of successful `set_tolerances` calls has `atol ≥ 0`, `rtol ≥ 0` and
`maximum_iterations ≥ 0`; `maximum_iterations > 0` holds when no `set_tolerances` call was
made, and after at least one such call both tolerances are `> 0`. -/
theorem reachable_tolerances (atol rtol : ℚ) (maxit : Int) (name : String) (st0 : status)
    (cs : List (ℚ × ℚ × Int)) (s0 s : LinearSolver)
    (hc : LinearSolver.create atol rtol maxit name st0 = some s0)
    (hs : set_tolerances_calls s0 cs = some s) :
    0 ≤ s.d_absolute_tolerance ∧ 0 ≤ s.d_relative_tolerance ∧ 0 ≤ s.d_maximum_iterations ∧
      (cs = [] → 0 < s.d_maximum_iterations) ∧
      (cs ≠ [] → 0 < s.d_absolute_tolerance ∧ 0 < s.d_relative_tolerance) := by
  have hb := create_bounds hc
  by_cases hnil : cs = []
  · subst hnil
    simp only [set_tolerances_calls, Option.some.injEq] at hs
    subst hs
    exact ⟨hb.1, hb.2.1, le_of_lt hb.2.2, fun _ => hb.2.2, fun h => absurd rfl h⟩
  · have h := set_tolerances_calls_bounds cs s0 s hs hnil
    exact ⟨le_of_lt h.1, le_of_lt h.2.1, h.2.2, fun h0 => absurd h0 hnil, fun _ => ⟨h.1, h.2.1⟩⟩

theorem reachable_tolerances_witness :
    (0 : ℚ) ≤ 1 / 2 ∧ (0 : ℚ) ≤ 1 / 4 ∧ (0 : Int) ≤ 5 ∧
      (([(1, 1, 0), (1 / 2, 1 / 4, 5)] : List (ℚ × ℚ × Int)) = [] → (0 : Int) < 5) ∧
      (([(1, 1, 0), (1 / 2, 1 / 4, 5)] : List (ℚ × ℚ × Int)) ≠ [] →
        (0 : ℚ) < 1 / 2 ∧ (0 : ℚ) < 1 / 4) :=
  reachable_tolerances (1 / 100) (1 / 100) 3 "solver" status.RUNNING
    [(1, 1, 0), (1 / 2, 1 / 4, 5)] demo_solver
    { demo_solver with
      d_absolute_tolerance := 1 / 2, d_relative_tolerance := 1 / 4, d_maximum_iterations := 5 }
    (by norm_num [LinearSolver.create, demo_solver]; rfl)
    (by norm_num [set_tolerances_calls, LinearSolver.set_tolerances])

/-! ### `LinearSolver::set_operators` -/

theorem set_operators_pc_side {P : Type} (F : PCFactory P) (s s1 : LinearSolverWithOperators P)
    (A : Option Matrix) (db : Option InputDB) (side : pc_side)
    (h : s.set_operators F A db = some (s1, side)) :
    s1.d_pc_side = s.d_pc_side ∧ s1.toLinearSolver = s.toLinearSolver := by
  unfold LinearSolverWithOperators.set_operators at h
  cases A with
  | none => simp at h
  | some a =>
    simp only at h
    split_ifs at h with hsq
    cases db with
    | none =>
      simp only [Option.some.injEq, Prod.mk.injEq] at h
      rw [← h.1]
      exact ⟨rfl, rfl⟩
    | some d =>
      simp only at h
      split_ifs at h with h1 h2
      · cases hp : F.ilu0 a with
        | none => simp [hp] at h
        | some p =>
          simp only [hp, Option.some.injEq, Prod.mk.injEq] at h
          rw [← h.1]
          exact ⟨rfl, rfl⟩
      · cases hp : F.jacobi a with
        | none => simp [hp] at h
        | some p =>
          simp only [hp, Option.some.injEq, Prod.mk.injEq] at h
          rw [← h.1]
          exact ⟨rfl, rfl⟩
      · simp only [Option.some.injEq, Prod.mk.injEq] at h
        rw [← h.1]
        exact ⟨rfl, rfl⟩

/-- C15: `set_operators(A, db)` succeeds only if `A` is set and square, and then stores `A`;
for a null `A` and for an `A` whose row count differs from its column count the call fails,
whatever `db` holds. -/
theorem set_operators_requires_square {P : Type} (F : PCFactory P)
    (s : LinearSolverWithOperators P) (A : Option Matrix) (db : Option InputDB) :
    (∀ s1 side, s.set_operators F A db = some (s1, side) →
      ∃ a, A = some a ∧ a.number_rows = a.number_columns ∧ s1.d_A = some a) ∧
    (A = none → s.set_operators F A db = none) ∧
    (∀ a, A = some a → a.number_rows ≠ a.number_columns → s.set_operators F A db = none) := by
  refine ⟨?_, ?_, ?_⟩
  · intro s1 side h
    unfold LinearSolverWithOperators.set_operators at h
    cases A with
    | none => simp at h
    | some a =>
      simp only at h
      split_ifs at h with hsq
      refine ⟨a, rfl, hsq, ?_⟩
      cases db with
      | none =>
        simp only [Option.some.injEq, Prod.mk.injEq] at h
        rw [← h.1]
      | some d =>
        simp only at h
        split_ifs at h with h1 h2
        · cases hp : F.ilu0 a with
          | none => simp [hp] at h
          | some p =>
            simp only [hp, Option.some.injEq, Prod.mk.injEq] at h
            rw [← h.1]
        · cases hp : F.jacobi a with
          | none => simp [hp] at h
          | some p =>
            simp only [hp, Option.some.injEq, Prod.mk.injEq] at h
            rw [← h.1]
        · simp only [Option.some.injEq, Prod.mk.injEq] at h
          rw [← h.1]
  · intro hA
    subst hA
    rfl
  · intro a hA hne
    subst hA
    simp [LinearSolverWithOperators.set_operators, hne]

/-- C20 fails on the code: with a database holding `pc_type = "jacobi"` and
`pc_side = RIGHT`, `set_operators` succeeds, builds the Jacobi preconditioner and reads `RIGHT`
into its local variable, but the solver's `d_pc_side` is still the constructor's `NONE`. -/
theorem set_operators_drops_pc_side :
    demo_solver_ops.d_pc_side = pc_side.NONE ∧
      demo_solver_ops.set_operators demo_pc_factory (some (Matrix.dense demo_diag))
          (some demo_db) =
        some ({ demo_solver_ops with d_A := some (Matrix.dense demo_diag), d_P := some "jacobi" },
          pc_side.RIGHT) ∧
      ({ demo_solver_ops with d_A := some (Matrix.dense demo_diag), d_P := some "jacobi" } :
        LinearSolverWithOperators String).d_pc_side = pc_side.NONE := by
  refine ⟨rfl, ?_, rfl⟩
  simp [LinearSolverWithOperators.set_operators, demo_db, demo_pc_factory, Matrix.number_rows,
    Matrix.number_columns, demo_diag]

/-! ### `Eispack::set_operators` -/

theorem eispack_set_operators_dense (e : Eispack) (a : MatrixDense) (B : Option Matrix) :
    e.set_operators (some (Matrix.dense a)) B =
      match B with
      | none => some { e with d_A := some a }
      | some (Matrix.other _ _) => none
      | some (Matrix.dense b) => some { e with d_A := some a, d_B := some b } := by
  cases B with
  | none => rfl
  | some b => cases b <;> rfl

/-- C16 (as stated) fails: a dense `2 × 3` matrix `A` is accepted and stored, and so is a
dense `3 × 3` matrix `B` next to the `2 × 2` matrix `A = diag(3, 7)`. -/
theorem eispack_accepts_malformed :
    demo_wide.number_rows ≠ demo_wide.number_columns ∧
      demo_eispack_fresh.set_operators (some (Matrix.dense demo_wide)) none =
        some { demo_eispack_fresh with d_A := some demo_wide } ∧
      demo_three.number_rows ≠ demo_diag.number_rows ∧
      demo_eispack_fresh.set_operators (some (Matrix.dense demo_diag))
          (some (Matrix.dense demo_three)) =
        some { demo_eispack_fresh with d_A := some demo_diag, d_B := some demo_three } := by
  refine ⟨by decide, rfl, by decide, rfl⟩

/-- C16 (amended): `Eispack::set_operators` checks the kind of its operators only.  Every
dense `A`, square or not, is stored, and every dense `B`, whatever its dimensions, is stored
with it; no squareness or dimension test is made. -/
theorem eispack_stores_any_dense (e : Eispack) (a b : MatrixDense) :
    e.set_operators (some (Matrix.dense a)) none = some { e with d_A := some a } ∧
      e.set_operators (some (Matrix.dense a)) (some (Matrix.dense b)) =
        some { e with d_A := some a, d_B := some b } :=
  ⟨rfl, rfl⟩

/-- C17: `Eispack::set_operators(A, B)` succeeds if and only if `A` is set and dense and `B`
is absent or dense; in particular it fails for a non-dense `A` and for a non-dense `B`. -/
theorem eispack_set_operators_succeeds_iff (e : Eispack) (A B : Option Matrix) :
    (e.set_operators A B).isSome = true ↔
      (∃ a, A = some a ∧ a.is_dense = true) ∧ (B = none ∨ ∃ b, B = some b ∧ b.is_dense = true) := by
  cases A with
  | none => simp [Eispack.set_operators]
  | some a =>
    cases a with
    | other r c => simp [Eispack.set_operators, Matrix.is_dense]
    | dense a =>
      cases B with
      | none => simp [Eispack.set_operators, Matrix.is_dense]
      | some b =>
        cases b with
        | other r c => simp [Eispack.set_operators, Matrix.is_dense]
        | dense b => simp [Eispack.set_operators, Matrix.is_dense]

theorem eispack_set_operators_keeps_B (e : Eispack) (a : MatrixDense) :
    e.set_operators (some (Matrix.dense a)) none = some { e with d_A := some a } ∧
      ({ e with d_A := some a } : Eispack).d_B = e.d_B :=
  ⟨rfl, rfl⟩

/-- C18 fails on the code: a solver that was given `A = diag(3, 7)` and `B = diag(2, 1)` and
is then given `A` alone still holds `B`; `solve_complete` takes the generalized path and
returns the scaled values `3/2, 7`, not the eigenvalues `3, 7` that the same call returns on a
fresh solver given `A` alone. -/
theorem eispack_stale_B :
    (∃ e1 e2,
      demo_eispack_fresh.set_operators (some (Matrix.dense demo_diag))
          (some (Matrix.dense demo_diag_b)) = some e1 ∧
      e1.set_operators (some (Matrix.dense demo_diag)) none = some e2 ∧
      e2.d_B = some demo_diag_b ∧
      (e2.solve_complete demo_fortran_b (MatrixDense.fill 2 2 (some 0))
          (MatrixDense.fill 2 2 (some 0)) [some 0, some 0] [some 0, some 0]).map
        (fun r => r.2.2.1) = some [some (3 / 2), some 7]) ∧
    (∃ e3,
      demo_eispack_fresh.set_operators (some (Matrix.dense demo_diag)) none = some e3 ∧
      e3.d_B = none ∧
      (e3.solve_complete demo_fortran_b (MatrixDense.fill 2 2 (some 0))
          (MatrixDense.fill 2 2 (some 0)) [some 0, some 0] [some 0, some 0]).map
        (fun r => r.2.2.1) = some [some 3, some 7]) := by
  refine ⟨⟨_, _, rfl, rfl, rfl, ?_⟩, ⟨_, rfl, rfl, ?_⟩⟩
  · norm_num [Eispack.solve_complete, demo_eispack_fresh, demo_diag, demo_fortran_b,
      write_first, Vector_divide, Dbl.div, List.range, List.range.loop]
  · norm_num [Eispack.solve_complete, demo_eispack_fresh, demo_diag, demo_fortran_b,
      demo_fortran, write_first, List.range, List.range.loop]

/-! ### Normalisation of the eigenvector -/

theorem sum_squares_cons {K : Type} [Mul K] [Add K] [Zero K] (a : K) (v : List K) :
    sum_squares (a :: v) = a * a + sum_squares v := by
  simp [sum_squares]

theorem sum_squares_cast (v : List ℚ) :
    sum_squares (v.map fun c : ℚ => (c : ℝ)) = ((sum_squares v : ℚ) : ℝ) := by
  induction v with
  | nil => simp [sum_squares]
  | cons a v ih =>
    rw [List.map_cons, sum_squares_cons, sum_squares_cons, ih]
    push_cast
    ring

theorem no_rat_half_square (q : ℚ) : 2 * (q * q) ≠ 1 := by
  intro h
  have h2 : ((2 * q : ℚ) : ℝ) * ((2 * q : ℚ) : ℝ) = 2 := by
    have : (2 * q) * (2 * q) = 2 := by linarith
    exact_mod_cast this
  have habs : Real.sqrt 2 = |((2 * q : ℚ) : ℝ)| := by
    rw [← h2, Real.sqrt_mul_self_eq_abs]
  have hirr := irrational_sqrt_two
  rw [habs] at hirr
  have hcast : |((2 * q : ℚ) : ℝ)| = ((|2 * q| : ℚ) : ℝ) := by push_cast; rfl
  rw [hcast] at hirr
  exact (Rat.not_irrational _) hirr

theorem solve_impl_ones_select :
    demo_eispack_ones.solve_impl_select demo_fortran_ones [some 0, some 0] =
      some (some 2, 1, [some 1, some 1]) := by
  norm_num [Eispack.solve_impl_select, Eispack.solve_complete, demo_eispack_ones, demo_ones,
    demo_fortran_ones, MatrixDense.fill, write_first, max_loop, Dbl.gt, Dbl.lt, List.range,
    List.range.loop]

/-- For the matrix of ones the selected column is `(1, 1)`, and whatever `Vector::norm`
returns, the vector `solve_impl` returns does not have L2 norm `1` over the reals: its entries
are `(a, a)` for one rational `a`, and `2 a²` is never `1`. -/
theorem solve_impl_ones_never_unit (norm : norm_type → List Dbl → Dbl) (s : Eispack)
    (xs : List ℚ)
    (h : demo_eispack_ones.solve_impl demo_fortran_ones norm [some 0, some 0] [] =
      some (s, xs.map some)) :
    Real.sqrt (sum_squares (xs.map fun c : ℚ => (c : ℝ))) ≠ 1 := by
  simp only [Eispack.solve_impl, solve_impl_ones_select, Option.some.injEq, Prod.mk.injEq,
    Vector_scale, List.map_cons, List.map_nil] at h
  obtain ⟨_, hx⟩ := h
  cases hd : Dbl.div (some 1) (norm norm_type.L2 [some 1, some 1]) with
  | none =>
    rw [hd] at hx
    cases xs with
    | nil => simp at hx
    | cons a t => simp [Dbl.mul] at hx
  | some q =>
    rw [hd] at hx
    have hxs : xs = [1 * q, 1 * q] := by
      cases xs with
      | nil => simp at hx
      | cons a t =>
        cases t with
        | nil => simp at hx
        | cons b u =>
          cases u with
          | nil =>
            simp only [Dbl.mul, List.map_cons, List.map_nil, List.cons.injEq,
              Option.some.injEq, and_true] at hx
            rw [← hx.1, ← hx.2]
          | cons c w => simp at hx
    subst hxs
    intro hone
    rw [sum_squares_cast, Real.sqrt_eq_one] at hone
    have hq : sum_squares [1 * q, 1 * q] = (1 : ℚ) := by exact_mod_cast hone
    simp only [sum_squares, List.map_cons, List.map_nil, List.sum_cons, List.sum_nil] at hq
    exact no_rat_half_square q (by linarith)

theorem create_residual_length {atol rtol : ℚ} {maxit : Int} {name : String} {st0 : status}
    {s : LinearSolver} (h : LinearSolver.create atol rtol maxit name st0 = some s) :
    (s.d_residual.length : Int) = s.d_maximum_iterations + 1 := by
  unfold LinearSolver.create at h
  split_ifs at h with h1 h2
  cases h
  simp only [List.length_replicate]
  omega

theorem set_tolerances_residual {s s1 : LinearSolver} {atol rtol : ℚ} {maxit : Int}
    (h : s.set_tolerances atol rtol maxit = some s1) :
    s1.d_residual = s.d_residual ∧ s1.d_maximum_iterations = maxit := by
  simp only [LinearSolver.set_tolerances] at h
  split_ifs at h with h1
  cases h
  exact ⟨rfl, rfl⟩

theorem set_tolerances_calls_residual (cs : List (ℚ × ℚ × Int)) :
    ∀ (s s1 : LinearSolver), set_tolerances_calls s cs = some s1 →
      s1.d_residual = s.d_residual := by
  induction cs with
  | nil =>
    intro s s1 h
    simp only [set_tolerances_calls, Option.some.injEq] at h
    rw [h]
  | cons c cs ih =>
    intro s s1 h
    simp only [set_tolerances_calls] at h
    cases hc : s.set_tolerances c.1 c.2.1 c.2.2 with
    | none => simp [hc] at h
    | some s2 =>
      simp only [hc] at h
      rw [ih s2 s1 h, (set_tolerances_residual hc).1]

/-- C22 fails on the code: after the constructor `LinearSolver(1/100, 1/100, 3, "solver")`
the history has 4 entries; `set_tolerances(1/100, 1/100, 10)` succeeds and raises
`d_maximum_iterations` to 10 without resizing it, so the history is not of length 11 and
`monitor(5, 1)`, with `5 ≤ d_maximum_iterations`, writes `d_residual[5]` outside it. -/
theorem set_tolerances_keeps_history_length :
    LinearSolver.create (1 / 100) (1 / 100) 3 "solver" status.RUNNING = some demo_solver ∧
      set_tolerances_calls demo_solver [(1 / 100, 1 / 100, 10)] =
        some { demo_solver with d_maximum_iterations := 10 } ∧
      ({ demo_solver with d_maximum_iterations := 10 } : LinearSolver).d_residual.length = 4 ∧
      ({ demo_solver with d_maximum_iterations := 10 } : LinearSolver).d_maximum_iterations + 1
        = 11 ∧
      ({ demo_solver with d_maximum_iterations := 10 } : LinearSolver).monitor 5 1 = none := by
  refine ⟨?_, ?_, rfl, rfl, ?_⟩
  · norm_num [LinearSolver.create, demo_solver]
    rfl
  · norm_num [set_tolerances_calls, LinearSolver.set_tolerances, demo_solver]
  · simp [LinearSolver.monitor, vec_set, demo_solver]

end callow

namespace detran

/-! ### Loops -/

theorem for_range_zero {S : Type} (body : Nat → S → S) (s : S) : for_range 0 body s = s := rfl

theorem for_range_succ {S : Type} (n : Nat) (body : Nat → S → S) (s : S) :
    for_range (n + 1) body s = body n (for_range n body s) := by
  simp [for_range, List.range_succ]

/-! ### The flux scaling of `update` -/

theorem prolongate_inner (r : Nat → Dbl) (g : Nat) (p : Nat → Nat → Dbl) (n : Nat) :
    ∀ g1 i1,
      for_range n
          (fun i (p1 : Nat → Nat → Dbl) =>
            Function.update p1 g (Function.update (p1 g) i (Dbl.mul (p1 g i) (r i)))) p g1 i1 =
        if g1 = g ∧ i1 < n then Dbl.mul (p g i1) (r i1) else p g1 i1 := by
  induction n with
  | zero => intro g1 i1; simp [for_range_zero]
  | succ n ih =>
    intro g1 i1
    rw [for_range_succ]
    by_cases hg : g1 = g
    · subst hg
      by_cases hi : i1 = n
      · subst hi
        simp [ih]
      · have hlt : i1 < n + 1 ↔ i1 < n := by omega
        simp [ih, hi, hlt]
    · simp [ih, hg]

theorem prolongate_apply (S : MGSolverCMFD) (x x0 : Nat → Dbl) (phi : Nat → Nat → Dbl)
    (g i : Nat) :
    S.prolongate x x0 phi g i =
      if g < S.d_number_groups ∧ i < S.mesh_number_cells then
        Dbl.mul (phi g i) (Dbl.div (x (S.ci g i)) (x0 (S.ci g i)))
      else phi g i := by
  unfold MGSolverCMFD.prolongate
  generalize S.d_number_groups = G
  induction G generalizing g i with
  | zero => simp [for_range_zero]
  | succ G ih =>
    rw [for_range_succ]
    rw [prolongate_inner (fun i => Dbl.div (x (S.ci G i)) (x0 (S.ci G i))) G _
      S.mesh_number_cells g i]
    by_cases hg : g = G
    · subst hg
      by_cases hi : i < S.mesh_number_cells
      · simp [ih, hi]
      · simp [ih, hi]
    · have hlt : g < G + 1 ↔ g < G := by omega
      simp [ih, hg, hlt]

theorem update_phi {σ ω : Type} (S : MGSolverCMFD) (C : Collaborators σ ω) (keff : ℚ)
    (st : State σ) (g i : Nat) (hg : g < S.d_number_groups) (hi : i < S.mesh_number_cells) :
    (S.update C keff st).phi g i =
      Dbl.mul (st.phi g i)
        (Dbl.div (S.update_x C keff st (S.ci g i)) (S.update_x0 C keff st (S.ci g i))) := by
  simp [MGSolverCMFD.update, MGSolverCMFD.update_x, MGSolverCMFD.update_x0, prolongate_apply,
    hg, hi]

/-- C6: after `update`, for every group `g` and fine-mesh cell `i` the new flux is the old
flux multiplied by `x[ci] / x0[ci]`, with `ci = cmap[i] + g * Nc`, `x0` the coarse vector
assembled before the coarse solve and `x` the coarse solution; for finite values and a
non-zero `x0[ci]` that is the number `phi * (x[ci] / x0[ci])`. -/
theorem update_multiplicative {σ ω : Type} (S : MGSolverCMFD) (C : Collaborators σ ω)
    (keff : ℚ) (st : State σ) (g i : Nat) (hg : g < S.d_number_groups)
    (hi : i < S.mesh_number_cells) :
    S.ci g i = S.cmap i + g * S.coarse_number_cells ∧
    (S.update C keff st).phi g i =
      Dbl.mul (st.phi g i)
        (Dbl.div (S.update_x C keff st (S.ci g i)) (S.update_x0 C keff st (S.ci g i))) ∧
    ∀ p a b : ℚ, st.phi g i = some p → S.update_x C keff st (S.ci g i) = some a →
      S.update_x0 C keff st (S.ci g i) = some b → b ≠ 0 →
      (S.update C keff st).phi g i = some (p * (a / b)) := by
  refine ⟨rfl, update_phi S C keff st g i hg hi, ?_⟩
  intro p a b hp ha hb hb0
  rw [update_phi S C keff st g i hg hi, hp, ha, hb]
  simp [Dbl.mul, Dbl.div, hb0]

/-- C7 (amended): if the coarse solution `x[ci]` equals the pre-correction value `x0[ci]` and
that value is finite and not zero, the flux of every fine-mesh cell of that group inside that
coarse cell is exactly unchanged by `update`. -/
theorem update_shape_preserving {σ ω : Type} (S : MGSolverCMFD) (C : Collaborators σ ω)
    (keff : ℚ) (st : State σ) (g i : Nat) (b : ℚ) (hg : g < S.d_number_groups)
    (hi : i < S.mesh_number_cells)
    (heq : S.update_x C keff st (S.ci g i) = S.update_x0 C keff st (S.ci g i))
    (hb : S.update_x0 C keff st (S.ci g i) = some b) (hb0 : b ≠ 0) :
    (S.update C keff st).phi g i = st.phi g i := by
  rw [update_phi S C keff st g i hg hi, heq, hb]
  cases hp : st.phi g i with
  | none => simp [Dbl.mul]
  | some p => simp [Dbl.mul, Dbl.div, hb0]

/-- C8 (amended): `update` divides without a guard.  Whenever the pre-correction coarse value
`x0[ci]` is zero, `update` still returns a state and the flux of every fine-mesh cell of that
group mapped to `ci` is the outcome of the division by zero, a non-finite value. -/
theorem update_unguarded {σ ω : Type} (S : MGSolverCMFD) (C : Collaborators σ ω)
    (keff : ℚ) (st : State σ) (g i : Nat) (hg : g < S.d_number_groups)
    (hi : i < S.mesh_number_cells) (hz : S.update_x0 C keff st (S.ci g i) = some 0) :
    (S.update C keff st).phi g i = none := by
  rw [update_phi S C keff st g i hg hi, hz]
  cases hp : st.phi g i with
  | none => simp [Dbl.mul]
  | some p =>
    cases hx : S.update_x C keff st (S.ci g i) with
    | none => simp [Dbl.mul, Dbl.div]
    | some a => simp [Dbl.mul, Dbl.div]

/-! ### `update` on the example problem -/

theorem demo_x0_flat (factor : ℚ) :
    demo_cmfd.update_x0 (demo_collab factor) 1 demo_state_flat (demo_cmfd.ci 0 1) = some 1 := by
  norm_num [MGSolverCMFD.update_x0, MGSolverCMFD.assemble, MGSolverCMFD.assemble_cell,
    MGSolverCMFD.ci, MGSolverCMFD.v_ratio, for_range, List.range_succ, demo_cmfd, demo_collab,
    demo_state_flat, Dbl.add, Dbl.mul, Dbl.div]

theorem demo_x_flat (factor : ℚ) :
    demo_cmfd.update_x (demo_collab factor) 1 demo_state_flat (demo_cmfd.ci 0 1) =
      some factor := by
  norm_num [MGSolverCMFD.update_x, MGSolverCMFD.assemble, MGSolverCMFD.assemble_cell,
    MGSolverCMFD.ci, MGSolverCMFD.v_ratio, for_range, List.range_succ, demo_cmfd, demo_collab,
    demo_state_flat, Dbl.add, Dbl.mul, Dbl.div]

theorem demo_x0_zero {ω : Type} (C : Collaborators Unit ω)
    (hq : ∀ g st, (C.fixed_source g st).1 = fun _ => some 0) (j : Nat) :
    demo_cmfd.update_x0 C 1 demo_state_zero j = some 0 := by
  by_cases hj : j = 0 <;>
  norm_num [MGSolverCMFD.update_x0, MGSolverCMFD.assemble, MGSolverCMFD.assemble_cell,
    MGSolverCMFD.ci, MGSolverCMFD.v_ratio, for_range, List.range_succ, demo_cmfd,
    demo_state_zero, Dbl.add, Dbl.mul, Dbl.div, hq, hj, Function.update]

theorem update_multiplicative_witness :
    (demo_cmfd.update (demo_collab 2) 1 demo_state_flat).phi 0 1 = some (1 * (2 / 1)) :=
  (update_multiplicative demo_cmfd (demo_collab 2) 1 demo_state_flat 0 1 (by decide)
    (by decide)).2.2 1 2 1 rfl (demo_x_flat 2) (demo_x0_flat 2) (by norm_num)

theorem update_shape_preserving_witness :
    (demo_cmfd.update (demo_collab 1) 1 demo_state_flat).phi 0 1 = demo_state_flat.phi 0 1 :=
  update_shape_preserving demo_cmfd (demo_collab 1) 1 demo_state_flat 0 1 1 (by decide)
    (by decide) ((demo_x_flat 1).trans (demo_x0_flat 1).symm) (demo_x0_flat 1) (by norm_num)

/-- C7 (as stated) fails where the coarse values are zero: on the all-zero flux with a coarse
solve that returns its initial guess, `x[0] = x0[0] = 0`, yet the flux of fine cell 0 changes
from `0` to the non-finite outcome of `0 / 0`. -/
theorem update_changes_flux_at_zero :
    demo_cmfd.update_x (demo_collab 1) 1 demo_state_zero (demo_cmfd.ci 0 0) =
        demo_cmfd.update_x0 (demo_collab 1) 1 demo_state_zero (demo_cmfd.ci 0 0) ∧
      demo_state_zero.phi 0 0 = some 0 ∧
      (demo_cmfd.update (demo_collab 1) 1 demo_state_zero).phi 0 0 = none ∧
      (demo_cmfd.update (demo_collab 1) 1 demo_state_zero).phi 0 0 ≠
        demo_state_zero.phi 0 0 := by
  have h0 := demo_x0_zero (demo_collab 1) (fun _ _ => rfl) (demo_cmfd.ci 0 0)
  have hx : demo_cmfd.update_x (demo_collab 1) 1 demo_state_zero (demo_cmfd.ci 0 0) =
      some 0 := by
    have : demo_cmfd.update_x (demo_collab 1) 1 demo_state_zero (demo_cmfd.ci 0 0) =
        Dbl.mul (demo_cmfd.update_x0 (demo_collab 1) 1 demo_state_zero (demo_cmfd.ci 0 0))
          (some 1) := rfl
    rw [this, h0]
    norm_num [Dbl.mul]
  have hu : (demo_cmfd.update (demo_collab 1) 1 demo_state_zero).phi 0 0 = none := by
    rw [update_phi demo_cmfd (demo_collab 1) 1 demo_state_zero 0 0 (by decide) (by decide),
      hx, h0]
    simp [Dbl.mul, Dbl.div, demo_state_zero]
  refine ⟨hx.trans h0.symm, rfl, hu, ?_⟩
  rw [hu]
  simp [demo_state_zero]

/-- C8 (as stated) fails: on the all-zero flux the pre-correction coarse value `x0[0]` is
zero, and `update` (with a coarse solution equal to 1) nevertheless returns a state in which
the flux of fine cells 0 and 1 is the non-finite outcome of `1 / 0`; nothing guards the
division or reports the condition. -/
theorem update_divides_by_zero :
    demo_cmfd.update_x0 demo_collab_one 1 demo_state_zero (demo_cmfd.ci 0 0) = some 0 ∧
      demo_cmfd.update_x demo_collab_one 1 demo_state_zero (demo_cmfd.ci 0 0) = some 1 ∧
      (demo_cmfd.update demo_collab_one 1 demo_state_zero).phi 0 0 = none ∧
      (demo_cmfd.update demo_collab_one 1 demo_state_zero).phi 0 1 = none := by
  have h0 := fun j => demo_x0_zero demo_collab_one (fun _ _ => rfl) j
  have hx : ∀ j, demo_cmfd.update_x demo_collab_one 1 demo_state_zero j = some 1 :=
    fun _ => rfl
  refine ⟨h0 _, hx _, ?_, ?_⟩
  · rw [update_phi demo_cmfd demo_collab_one 1 demo_state_zero 0 0 (by decide) (by decide),
      hx, h0]
    simp [Dbl.mul, Dbl.div, demo_state_zero]
  · rw [update_phi demo_cmfd demo_collab_one 1 demo_state_zero 0 1 (by decide) (by decide),
      hx, h0]
    simp [Dbl.mul, Dbl.div, demo_state_zero]

theorem update_unguarded_witness :
    (demo_cmfd.update (demo_collab 3) 1 demo_state_zero).phi 0 1 = none :=
  update_unguarded demo_cmfd (demo_collab 3) 1 demo_state_zero 0 1 (by decide) (by decide)
    (demo_x0_zero (demo_collab 3) (fun _ _ => rfl) _)

/-! ### The outer loop of `solve` -/

theorem sweep_groups_log {σ ω : Type} (S : MGSolverCMFD) (C : Collaborators σ ω)
    (phi_old : Nat → Nat → Dbl) (gs : List Nat) (L : Loop σ) :
    (S.sweep_groups C phi_old gs L).log = L.log ++ gs.map Event.sweep := by
  induction gs generalizing L with
  | nil => simp [MGSolverCMFD.sweep_groups]
  | cons g gs ih => simp [MGSolverCMFD.sweep_groups, ih]

theorem passes_sweeps (gs : List Nat) (t : List Event) :
    passes (gs.map Event.sweep ++ t) = passes t := by
  induction gs with
  | nil => rfl
  | cons g gs ih => simpa [passes] using ih

theorem updates_sweeps (gs : List Nat) (t : List Event) :
    updates (gs.map Event.sweep ++ t) = updates t := by
  induction gs with
  | nil => rfl
  | cons g gs ih => simpa [updates] using ih

theorem unconverged_sweeps (tol : ℚ) (gs : List Nat) (t : List Event) :
    unconverged_passes tol (gs.map Event.sweep ++ t) = unconverged_passes tol t := by
  induction gs with
  | nil => rfl
  | cons g gs ih => simpa [unconverged_passes] using ih

theorem well_paced_sweeps (tol : ℚ) (gs : List Nat) (t : List Event) :
    well_paced tol (gs.map Event.sweep ++ t) = well_paced tol t := by
  induction gs with
  | nil => rfl
  | cons g gs ih => simpa [well_paced] using ih

theorem pass_log {σ ω : Type} (S : MGSolverCMFD) (C : Collaborators σ ω)
    (groups : List Nat) (L : Loop σ) :
    (S.pass C groups L).log =
      L.log ++ (groups.map Event.sweep ++ [Event.residual (S.pass C groups L).nres_tot]) := by
  simp only [MGSolverCMFD.pass, sweep_groups_log, List.append_assoc]

/-- The calls made by the outer loop: the record grows by a suffix `tr` that has the shape
`well_paced`, holds as many updates as unconverged passes, and holds at most `fuel` passes,
exactly `fuel` of them when no pass converges. -/
theorem outer_loop_log {σ ω : Type} (S : MGSolverCMFD) (C : Collaborators σ ω) (keff : ℚ)
    (groups : List Nat) (fuel : Nat) :
    ∀ (iteration : Nat) (L : Loop σ), ∃ tr,
      (S.outer_loop C keff groups fuel iteration L).2.log = L.log ++ tr ∧
      well_paced S.d_tolerance tr = true ∧
      updates tr = unconverged_passes S.d_tolerance tr ∧
      passes tr ≤ fuel ∧
      (unconverged_passes S.d_tolerance tr = passes tr → passes tr = fuel) := by
  induction fuel with
  | zero =>
    intro iteration L
    exact ⟨[], by simp [MGSolverCMFD.outer_loop], rfl, rfl, le_refl 0, fun _ => rfl⟩
  | succ fuel ih =>
    intro iteration L
    simp only [MGSolverCMFD.outer_loop]
    have hpl := pass_log S C groups L
    generalize S.pass C groups L = L2 at hpl ⊢
    split_ifs with hlt
    · refine ⟨groups.map Event.sweep ++ [Event.residual L2.nres_tot], hpl, ?_, ?_, ?_, ?_⟩
      · simp [well_paced_sweeps, well_paced, hlt]
      · simp [updates_sweeps, unconverged_sweeps, updates, unconverged_passes, hlt]
      · simp [passes_sweeps, passes]
      · simp [passes_sweeps, unconverged_sweeps, passes, unconverged_passes, hlt]
    · obtain ⟨tr, hlog, hwp, hup, hps, hall⟩ := ih (iteration + 1)
        { L2 with st := S.update C keff L2.st, log := L2.log ++ [Event.cmfd_update] }
      refine ⟨groups.map Event.sweep ++
          (Event.residual L2.nres_tot :: Event.cmfd_update :: tr), ?_, ?_, ?_, ?_, ?_⟩
      · rw [hlog, hpl]
        simp
      · simp [well_paced_sweeps, well_paced, hlt, hwp]
      · simp [updates_sweeps, unconverged_sweeps, updates, unconverged_passes, hlt, hup]
      · simp only [passes_sweeps, passes]
        omega
      · simp only [passes_sweeps, unconverged_sweeps, passes, unconverged_passes, hlt,
          if_false, Bool.false_eq_true]
        intro h
        have := hall (by omega)
        omega

/-- C10: in the record of calls of `solve`, a pass whose total residual is below the
tolerance ends the loop with no update after it, every other pass is followed by exactly one
CMFD update before the next pass, and updates occur nowhere else; hence the number of CMFD
updates equals the number of passes whose total residual was not below the tolerance. -/
theorem solve_updates {σ ω : Type} (S : MGSolverCMFD) (C : Collaborators σ ω) (keff : ℚ)
    (st : State σ) :
    well_paced S.d_tolerance (S.solve C keff st).2.log = true ∧
    updates (S.solve C keff st).2.log =
      unconverged_passes S.d_tolerance (S.solve C keff st).2.log := by
  obtain ⟨tr, hlog, hwp, hup, _, _⟩ := outer_loop_log S C keff (range S.d_lower S.d_upper)
    (S.d_maximum_iterations + 1) 0
    { st := if S.d_multiply then C.setup_outer (Dbl.div (some 1) (some keff)) st else st
      nres := fun _ => some 0, nres_tot := some 0, log := [] }
  have hl : (S.solve C keff st).2.log = tr := by
    simpa [MGSolverCMFD.solve] using hlog
  rw [hl]
  exact ⟨hwp, hup⟩

/-- The outer loop makes at most `d_maximum_iterations + 1` passes over the groups, and
exactly that many when no pass converges. -/
theorem solve_passes {σ ω : Type} (S : MGSolverCMFD) (C : Collaborators σ ω) (keff : ℚ)
    (st : State σ) :
    passes (S.solve C keff st).2.log ≤ S.d_maximum_iterations + 1 ∧
    (unconverged_passes S.d_tolerance (S.solve C keff st).2.log =
        passes (S.solve C keff st).2.log →
      passes (S.solve C keff st).2.log = S.d_maximum_iterations + 1) := by
  obtain ⟨tr, hlog, _, _, hps, hall⟩ := outer_loop_log S C keff (range S.d_lower S.d_upper)
    (S.d_maximum_iterations + 1) 0
    { st := if S.d_multiply then C.setup_outer (Dbl.div (some 1) (some keff)) st else st
      nres := fun _ => some 0, nres_tot := some 0, log := [] }
  have hl : (S.solve C keff st).2.log = tr := by
    simpa [MGSolverCMFD.solve] using hlog
  rw [hl]
  exact ⟨hps, hall⟩

/-! ### The iteration limit -/

theorem passes_append (l1 l2 : List Event) : passes (l1 ++ l2) = passes l1 + passes l2 := by
  induction l1 with
  | nil => simp [passes]
  | cons e l1 ih =>
    cases e with
    | sweep g => simp [passes, ih]
    | residual r => simp [passes, ih]; omega
    | cmfd_update => simp [passes, ih]

theorem updates_append (l1 l2 : List Event) :
    updates (l1 ++ l2) = updates l1 + updates l2 := by
  induction l1 with
  | nil => simp [updates]
  | cons e l1 ih =>
    cases e with
    | sweep g => simp [updates, ih]
    | residual r => simp [updates, ih]
    | cmfd_update => simp [updates, ih]; omega

theorem demo_pass_unconverged (factor : ℚ) (L : Loop Unit) :
    Dbl.lt (demo_cmfd.pass (demo_collab factor) [0] L).nres_tot (some demo_cmfd.d_tolerance) =
      false := by
  cases h0 : L.st.phi 0 0 with
  | none =>
    cases h1 : L.st.phi 0 1 <;>
    simp [MGSolverCMFD.pass, MGSolverCMFD.sweep_groups, norm, norm_residual, for_range,
      List.range_succ, demo_cmfd, demo_collab, h0, h1, Dbl.add, Dbl.sub, Dbl.abs, Dbl.max,
      Dbl.lt]
  | some a =>
    cases h1 : L.st.phi 0 1 with
    | none =>
      simp [MGSolverCMFD.pass, MGSolverCMFD.sweep_groups, norm, norm_residual, for_range,
        List.range_succ, demo_cmfd, demo_collab, h0, h1, Dbl.add, Dbl.sub, Dbl.abs, Dbl.max,
        Dbl.lt]
    | some b =>
      norm_num [MGSolverCMFD.pass, MGSolverCMFD.sweep_groups, norm, norm_residual, for_range,
        List.range_succ, demo_cmfd, demo_collab, h0, h1, Dbl.add, Dbl.sub, Dbl.abs, Dbl.max,
        Dbl.lt]

theorem demo_outer_loop_counts (factor : ℚ) (fuel : Nat) :
    ∀ (iteration : Nat) (L : Loop Unit),
      (demo_cmfd.outer_loop (demo_collab factor) 1 [0] fuel iteration L).1 = iteration + fuel ∧
      passes (demo_cmfd.outer_loop (demo_collab factor) 1 [0] fuel iteration L).2.log =
        passes L.log + fuel ∧
      updates (demo_cmfd.outer_loop (demo_collab factor) 1 [0] fuel iteration L).2.log =
        updates L.log + fuel := by
  induction fuel with
  | zero => intro iteration L; simp [MGSolverCMFD.outer_loop]
  | succ fuel ih =>
    intro iteration L
    have hun := demo_pass_unconverged factor L
    have hpl := pass_log demo_cmfd (demo_collab factor) [0] L
    simp only [MGSolverCMFD.outer_loop, hun, Bool.false_eq_true, if_false]
    obtain ⟨h1, h2, h3⟩ := ih (iteration + 1)
      { demo_cmfd.pass (demo_collab factor) [0] L with
        st := demo_cmfd.update (demo_collab factor) 1
          (demo_cmfd.pass (demo_collab factor) [0] L).st
        log := (demo_cmfd.pass (demo_collab factor) [0] L).log ++ [Event.cmfd_update] }
    refine ⟨by rw [h1]; omega, ?_, ?_⟩
    · rw [h2]
      simp only [passes_append, hpl]
      simp [passes]
      omega
    · rw [h3]
      simp only [updates_append, hpl]
      simp [updates]
      omega

/-- C9 fails on the code: with `d_maximum_iterations = 1` and a within-group solver that never
converges, `solve` makes 2 passes over the groups (and 2 CMFD updates), leaving
`iteration = 2`. -/
theorem solve_exceeds_iteration_limit :
    demo_cmfd.d_maximum_iterations = 1 ∧
      passes (demo_cmfd.solve (demo_collab 1) 1 demo_state_flat).2.log = 2 ∧
      updates (demo_cmfd.solve (demo_collab 1) 1 demo_state_flat).2.log = 2 ∧
      (demo_cmfd.solve (demo_collab 1) 1 demo_state_flat).1 = 2 := by
  have hg : range demo_cmfd.d_lower demo_cmfd.d_upper = [0] := by decide
  obtain ⟨h1, h2, h3⟩ := demo_outer_loop_counts 1 2 0
    { st := demo_state_flat, nres := fun _ => some 0, nres_tot := some 0, log := [] }
  refine ⟨rfl, ?_, ?_, ?_⟩
  · simpa [MGSolverCMFD.solve, hg, demo_cmfd, passes] using h2
  · simpa [MGSolverCMFD.solve, hg, demo_cmfd, updates] using h3
  · simpa [MGSolverCMFD.solve, hg, demo_cmfd] using h1

/-! ### A converged state -/

theorem solve_eq_outer_loop {σ ω : Type} (S : MGSolverCMFD) (C : Collaborators σ ω) (keff : ℚ)
    (st : State σ) :
    S.solve C keff st =
      S.outer_loop C keff (range S.d_lower S.d_upper) (S.d_maximum_iterations + 1) 0
        (S.solve_start C keff st) := rfl

/-- C11: when the first pass over the groups changes the flux by less than the tolerance
(the total residual it computes, the L-infinity norm over the groups of the L-infinity change
of each group's flux, is below `d_tolerance`), `solve` stops after that one pass: `iteration`
is 0 at exit, the CMFD update is never called, and the loop is left through the convergence
test with the state the pass produced. -/
theorem solve_converged {σ ω : Type} (S : MGSolverCMFD) (C : Collaborators σ ω) (keff : ℚ)
    (st : State σ)
    (hconv : Dbl.lt (S.pass C (range S.d_lower S.d_upper) (S.solve_start C keff st)).nres_tot
      (some S.d_tolerance) = true) :
    (S.solve C keff st).1 = 0 ∧
    updates (S.solve C keff st).2.log = 0 ∧
    passes (S.solve C keff st).2.log = 1 ∧
    Dbl.lt (S.solve C keff st).2.nres_tot (some S.d_tolerance) = true ∧
    (S.solve C keff st).2 = S.pass C (range S.d_lower S.d_upper) (S.solve_start C keff st) := by
  have hsolve : S.solve C keff st =
      (0, S.pass C (range S.d_lower S.d_upper) (S.solve_start C keff st)) := by
    rw [solve_eq_outer_loop]
    simp only [MGSolverCMFD.outer_loop, hconv, if_true]
  have hlog := pass_log S C (range S.d_lower S.d_upper) (S.solve_start C keff st)
  rw [hsolve]
  refine ⟨rfl, ?_, ?_, hconv, rfl⟩
  · rw [hlog]
    simp [MGSolverCMFD.solve_start, updates_sweeps, updates]
  · rw [hlog]
    simp [MGSolverCMFD.solve_start, passes_sweeps, passes]

theorem demo_fixed_converged :
    Dbl.lt (demo_cmfd.pass demo_collab_fixed (range demo_cmfd.d_lower demo_cmfd.d_upper)
      (demo_cmfd.solve_start demo_collab_fixed 1 demo_state_flat)).nres_tot
      (some demo_cmfd.d_tolerance) = true := by
  have hg : range demo_cmfd.d_lower demo_cmfd.d_upper = [0] := by decide
  rw [hg]
  norm_num [MGSolverCMFD.pass, MGSolverCMFD.sweep_groups, MGSolverCMFD.solve_start, norm,
    norm_residual, for_range, List.range_succ, demo_cmfd, demo_collab_fixed, demo_collab,
    demo_state_flat, Dbl.add, Dbl.sub, Dbl.abs, Dbl.max, Dbl.lt, Dbl.mul]

theorem solve_converged_witness :
    (demo_cmfd.solve demo_collab_fixed 1 demo_state_flat).1 = 0 ∧
    updates (demo_cmfd.solve demo_collab_fixed 1 demo_state_flat).2.log = 0 ∧
    passes (demo_cmfd.solve demo_collab_fixed 1 demo_state_flat).2.log = 1 ∧
    Dbl.lt (demo_cmfd.solve demo_collab_fixed 1 demo_state_flat).2.nres_tot
      (some demo_cmfd.d_tolerance) = true ∧
    (demo_cmfd.solve demo_collab_fixed 1 demo_state_flat).2 =
      demo_cmfd.pass demo_collab_fixed (range demo_cmfd.d_lower demo_cmfd.d_upper)
        (demo_cmfd.solve_start demo_collab_fixed 1 demo_state_flat) :=
  solve_converged demo_cmfd demo_collab_fixed 1 demo_state_flat demo_fixed_converged

/-! ### The order of the groups -/

theorem for_range_congr {T : Type} (n : Nat) (f g : Nat → T → T) (s : T)
    (h : ∀ i, i < n → ∀ t, f i t = g i t) : for_range n f s = for_range n g s := by
  induction n with
  | zero => rfl
  | succ n ih =>
    rw [for_range_succ, for_range_succ, ih (fun i hi t => h i (by omega) t)]
    exact h n (by omega) _

theorem assemble_inner (S : MGSolverCMFD) (phi : Nat → Nat → Dbl) (q : Nat → Dbl) (g : Nat)
    (bx : (Nat → Dbl) × (Nat → Dbl)) (n : Nat) (j : Nat) :
    (for_range n (fun i acc => S.assemble_cell phi q g i acc) bx).1 j =
        for_range n
          (fun i acc =>
            if S.ci g i = j then Dbl.add acc (Dbl.mul (q i) (S.v_ratio i)) else acc)
          (bx.1 j) ∧
      (for_range n (fun i acc => S.assemble_cell phi q g i acc) bx).2 j =
        for_range n
          (fun i acc =>
            if S.ci g i = j then Dbl.add acc (Dbl.mul (phi g i) (S.v_ratio i)) else acc)
          (bx.2 j) := by
  induction n with
  | zero => exact ⟨rfl, rfl⟩
  | succ n ih =>
    have h1 : ∀ acc : (Nat → Dbl) × (Nat → Dbl),
        (S.assemble_cell phi q g n acc).1 j =
          if S.ci g n = j then Dbl.add (acc.1 j) (Dbl.mul (q n) (S.v_ratio n)) else acc.1 j := by
      intro acc
      by_cases h : S.ci g n = j
      · subst h
        simp [MGSolverCMFD.assemble_cell]
      · simp [MGSolverCMFD.assemble_cell, h, Function.update_noteq (Ne.symm h)]
    have h2 : ∀ acc : (Nat → Dbl) × (Nat → Dbl),
        (S.assemble_cell phi q g n acc).2 j =
          if S.ci g n = j then Dbl.add (acc.2 j) (Dbl.mul (phi g n) (S.v_ratio n))
          else acc.2 j := by
      intro acc
      by_cases h : S.ci g n = j
      · subst h
        simp [MGSolverCMFD.assemble_cell]
      · simp [MGSolverCMFD.assemble_cell, h, Function.update_noteq (Ne.symm h)]
    simp only [for_range_succ]
    rw [h1, h2, ih.1, ih.2]
    exact ⟨rfl, rfl⟩

theorem ci_eq_iff (S : MGSolverCMFD) (g g1 i c : Nat) (hi : S.cmap i < S.coarse_number_cells)
    (hc : c < S.coarse_number_cells) :
    S.ci g1 i = c + g * S.coarse_number_cells ↔ g1 = g ∧ S.cmap i = c := by
  unfold MGSolverCMFD.ci
  constructor
  · intro h
    rcases Nat.lt_trichotomy g1 g with hlt | heq | hgt
    · have h1 : (g1 + 1) * S.coarse_number_cells ≤ g * S.coarse_number_cells :=
        Nat.mul_le_mul_right _ hlt
      rw [Nat.add_mul, Nat.one_mul] at h1
      omega
    · subst heq
      exact ⟨rfl, by omega⟩
    · have h1 : (g + 1) * S.coarse_number_cells ≤ g1 * S.coarse_number_cells :=
        Nat.mul_le_mul_right _ hgt
      rw [Nat.add_mul, Nat.one_mul] at h1
      omega
  · rintro ⟨h1, h2⟩
    rw [h1, h2]

theorem for_range_skip {T : Type} (n : Nat) (f : Nat → T → T) (s : T)
    (h : ∀ i, i < n → ∀ t, f i t = t) : for_range n f s = s := by
  induction n with
  | zero => rfl
  | succ n ih =>
    rw [for_range_succ, ih (fun i hi t => h i (by omega) t)]
    exact h n (by omega) _

theorem assemble_ext {σ ω : Type} (S : MGSolverCMFD) (C : Collaborators σ ω) (st : State σ)
    (k : Nat) :
    (for_range k
      (fun g (acc : ((Nat → Dbl) × (Nat → Dbl)) × σ) =>
        ((for_range S.mesh_number_cells
            (fun i bx =>
              S.assemble_cell st.phi (C.fixed_source g { st with ext := acc.2 }).1 g i bx)
            acc.1,
          (C.fixed_source g { st with ext := acc.2 }).2) : ((Nat → Dbl) × (Nat → Dbl)) × σ))
      ((fun _ => some 0, fun _ => some 0), st.ext)).2 = S.source_ext C st k := by
  induction k with
  | zero => rfl
  | succ k ih =>
    rw [for_range_succ]
    simp only [ih, MGSolverCMFD.source_ext, for_range_succ]

theorem assemble_prefix {σ ω : Type} (S : MGSolverCMFD) (C : Collaborators σ ω) (st : State σ)
    (hmap : ∀ i, i < S.mesh_number_cells → S.cmap i < S.coarse_number_cells) (k : Nat) :
    ∀ g c, c < S.coarse_number_cells →
      (for_range k
        (fun g (acc : ((Nat → Dbl) × (Nat → Dbl)) × σ) =>
          ((for_range S.mesh_number_cells
              (fun i bx =>
                S.assemble_cell st.phi (C.fixed_source g { st with ext := acc.2 }).1 g i bx)
              acc.1,
            (C.fixed_source g { st with ext := acc.2 }).2) : ((Nat → Dbl) × (Nat → Dbl)) × σ))
        ((fun _ => some 0, fun _ => some 0), st.ext)).1.1 (c + g * S.coarse_number_cells) =
          (if g < k then S.coarse_sum (S.group_source C st g) c else some 0) ∧
      (for_range k
        (fun g (acc : ((Nat → Dbl) × (Nat → Dbl)) × σ) =>
          ((for_range S.mesh_number_cells
              (fun i bx =>
                S.assemble_cell st.phi (C.fixed_source g { st with ext := acc.2 }).1 g i bx)
              acc.1,
            (C.fixed_source g { st with ext := acc.2 }).2) : ((Nat → Dbl) × (Nat → Dbl)) × σ))
        ((fun _ => some 0, fun _ => some 0), st.ext)).1.2 (c + g * S.coarse_number_cells) =
          (if g < k then S.coarse_sum (st.phi g) c else some 0) := by
  induction k with
  | zero => intro g c _; exact ⟨rfl, rfl⟩
  | succ k ih =>
    intro g c hc
    rw [for_range_succ]
    have hext := assemble_ext S C st k
    obtain ⟨ihb, ihx⟩ := ih g c hc
    generalize for_range k
      (fun g (acc : ((Nat → Dbl) × (Nat → Dbl)) × σ) =>
        ((for_range S.mesh_number_cells
            (fun i bx =>
              S.assemble_cell st.phi (C.fixed_source g { st with ext := acc.2 }).1 g i bx)
            acc.1,
          (C.fixed_source g { st with ext := acc.2 }).2) : ((Nat → Dbl) × (Nat → Dbl)) × σ))
      ((fun _ => some 0, fun _ => some 0), st.ext) = acc at hext ihb ihx ⊢
    have hin := assemble_inner S st.phi (C.fixed_source k { st with ext := acc.2 }).1 k acc.1
      S.mesh_number_cells (c + g * S.coarse_number_cells)
    simp only []
    rw [hin.1, hin.2, ihb, ihx]
    by_cases hgk : g = k
    · subst hgk
      simp only [lt_irrefl, if_false, Nat.lt_succ_self, if_true]
      constructor
      · unfold MGSolverCMFD.coarse_sum MGSolverCMFD.group_source
        rw [hext]
        apply for_range_congr
        intro i hi t
        have h := ci_eq_iff S g g i c (hmap i hi) hc
        by_cases hci : S.cmap i = c
        · have h1 : S.ci g i = c + g * S.coarse_number_cells := h.mpr ⟨rfl, hci⟩
          simp only [h1, hci, if_true, MGSolverCMFD.v_ratio]
        · have h1 : ¬ S.ci g i = c + g * S.coarse_number_cells := fun hh => hci (h.mp hh).2
          simp only [h1, hci, if_false]
      · unfold MGSolverCMFD.coarse_sum
        apply for_range_congr
        intro i hi t
        have h := ci_eq_iff S g g i c (hmap i hi) hc
        by_cases hci : S.cmap i = c
        · have h1 : S.ci g i = c + g * S.coarse_number_cells := h.mpr ⟨rfl, hci⟩
          simp only [h1, hci, if_true, MGSolverCMFD.v_ratio]
        · have h1 : ¬ S.ci g i = c + g * S.coarse_number_cells := fun hh => hci (h.mp hh).2
          simp only [h1, hci, if_false]
    · have hlt : g < k + 1 ↔ g < k := by omega
      have hskip : ∀ i, i < S.mesh_number_cells →
          ¬ S.ci k i = c + g * S.coarse_number_cells := by
        intro i hi hh
        exact hgk ((ci_eq_iff S g k i c (hmap i hi) hc).mp hh).1.symm
      simp only [hlt]
      constructor
      · apply for_range_skip
        intro i hi t
        simp only [hskip i hi, if_false]
      · apply for_range_skip
        intro i hi t
        simp only [hskip i hi, if_false]

/-- C13: when `cmap` maps the fine cells into `[0, Nc)`, for every group `g < G` and coarse
cell `c < Nc` the vectors assembled by `update` are
`b[c + g*Nc] = Σ q_g[i] * (V_i / V_c)` and `x0[c + g*Nc] = Σ phi_g[i] * (V_i / V_c)`, both sums
over the fine cells `i` with `cmap[i] = c`; the index `c + g*Nc` and every index
`ci = cmap[i] + g*Nc` the loop uses lie below `G * Nc`. -/
theorem update_assembly {σ ω : Type} (S : MGSolverCMFD) (C : Collaborators σ ω) (keff : ℚ)
    (st : State σ) (g c : Nat)
    (hmap : ∀ i, i < S.mesh_number_cells → S.cmap i < S.coarse_number_cells)
    (hg : g < S.d_number_groups) (hc : c < S.coarse_number_cells) :
    S.update_b C keff st (c + g * S.coarse_number_cells) =
      S.coarse_sum (S.group_source C { st with ext := (C.build_operator keff st).2 } g) c ∧
    S.update_x0 C keff st (c + g * S.coarse_number_cells) = S.coarse_sum (st.phi g) c ∧
    c + g * S.coarse_number_cells < S.d_number_groups * S.coarse_number_cells ∧
    ∀ i, i < S.mesh_number_cells →
      S.ci g i < S.d_number_groups * S.coarse_number_cells := by
  have h := assemble_prefix S C { st with ext := (C.build_operator keff st).2 } hmap
    S.d_number_groups g c hc
  have hbound : (g + 1) * S.coarse_number_cells ≤ S.d_number_groups * S.coarse_number_cells :=
    Nat.mul_le_mul_right _ hg
  rw [Nat.add_mul, Nat.one_mul] at hbound
  refine ⟨?_, ?_, by omega, ?_⟩
  · have := h.1
    simp only [hg, if_true] at this
    exact this
  · have := h.2
    simp only [hg, if_true] at this
    exact this
  · intro i hi
    have := hmap i hi
    unfold MGSolverCMFD.ci
    omega

theorem update_assembly_witness :
    demo_cmfd.update_x0 (demo_collab 1) 1 demo_state_flat (0 + 0 * demo_cmfd.coarse_number_cells) =
      demo_cmfd.coarse_sum (demo_state_flat.phi 0) 0 ∧
    demo_cmfd.coarse_sum (demo_state_flat.phi 0) 0 = some 1 :=
  ⟨(update_assembly demo_cmfd (demo_collab 1) 1 demo_state_flat 0 0
      (fun _ _ => by show (0 : Nat) < 1; decide) (by decide) (by decide)).2.1,
    by norm_num [MGSolverCMFD.coarse_sum, for_range, List.range_succ, demo_cmfd,
      demo_state_flat, Dbl.add, Dbl.mul, Dbl.div]⟩

/-! ### LinearMaterial: the constructor -/

theorem for_range_proj {T α : Type} (π : T → α) (n : Nat) (body : Nat → T → T) (s : T)
    (h : ∀ i t, π (body i t) = π t) : π (for_range n body s) = π s := by
  induction n with
  | zero => rfl
  | succ n ih => rw [for_range_succ, h, ih]

theorem entry_ok_spec {times : List ℚ} {materials : List (Option KineticsMaterial)}
    {nm ng np i : Nat} (h : LinearMaterial.entry_ok times materials nm ng np i = true) :
    (0 < i → times.getD (i - 1) 0 < times.getD i 0) ∧
    ∃ X, materials[i]? = some (some X) ∧ X.number_materials = nm ∧ X.number_groups = ng ∧
      X.number_precursor_groups = np := by
  unfold LinearMaterial.entry_ok at h
  rw [Bool.and_eq_true] at h
  obtain ⟨h1, h2⟩ := h
  constructor
  · intro hi
    simp only [hi, if_true] at h1
    cases ha : times[i - 1]? with
    | none => simp [ha] at h1
    | some a =>
      cases hb : times[i]? with
      | none => simp [ha, hb] at h1
      | some b =>
        simp only [ha, hb, decide_eq_true_eq] at h1
        simpa [List.getD_eq_getElem?_getD, ha, hb] using h1
  · cases hm : materials[i]? with
    | none => simp [hm] at h2
    | some o =>
      cases o with
      | none => simp [hm] at h2
      | some X =>
        simp only [hm, Bool.and_eq_true, decide_eq_true_eq] at h2
        exact ⟨X, rfl, h2.1.1, h2.1.2, h2.2⟩

theorem create_invariants {init M : LinearMaterial} {times : List ℚ}
    {materials : List (Option KineticsMaterial)} {name : String}
    (h : LinearMaterial.create init times materials name = some M) :
    M.d_times = times ∧ M.d_materials = materials ∧ M.d_number_times = times.length ∧
    0 < times.length ∧ times.length = materials.length ∧
    ∀ i, i < times.length →
      LinearMaterial.entry_ok times materials M.d_number_materials M.d_number_groups
        M.d_number_precursor_groups i = true := by
  unfold LinearMaterial.create at h
  cases hm : materials[0]? with
  | none => simp [hm] at h
  | some o =>
    cases o with
    | none => simp [hm] at h
    | some m0 =>
      simp only [hm] at h
      split_ifs at h with hc
      simp only [Option.some.injEq] at h
      obtain ⟨hpos, hlen, hall⟩ := hc
      subst h
      simp only []
      have hT : ∀ (n1 n2 : Nat) (X : LinearMaterial),
          (for_range n2
            (fun i (X : LinearMaterial) =>
              { X with d_lambda := Function.update X.d_lambda i (m0.lambda i) })
            (for_range n1
              (fun g (X : LinearMaterial) =>
                { X with d_velocity := Function.update X.d_velocity g (m0.velocity g) })
              X)).d_times = X.d_times := by
        intro n1 n2 X
        exact (for_range_proj (fun X : LinearMaterial => X.d_times) _ _ _
          (by intro i t; rfl)).trans
          (for_range_proj (fun X : LinearMaterial => X.d_times) _ _ _ (by intro i t; rfl))
      have hMat : ∀ (n1 n2 : Nat) (X : LinearMaterial),
          (for_range n2
            (fun i (X : LinearMaterial) =>
              { X with d_lambda := Function.update X.d_lambda i (m0.lambda i) })
            (for_range n1
              (fun g (X : LinearMaterial) =>
                { X with d_velocity := Function.update X.d_velocity g (m0.velocity g) })
              X)).d_materials = X.d_materials := by
        intro n1 n2 X
        exact (for_range_proj (fun X : LinearMaterial => X.d_materials) _ _ _
          (by intro i t; rfl)).trans
          (for_range_proj (fun X : LinearMaterial => X.d_materials) _ _ _ (by intro i t; rfl))
      have hN : ∀ (n1 n2 : Nat) (X : LinearMaterial),
          (for_range n2
            (fun i (X : LinearMaterial) =>
              { X with d_lambda := Function.update X.d_lambda i (m0.lambda i) })
            (for_range n1
              (fun g (X : LinearMaterial) =>
                { X with d_velocity := Function.update X.d_velocity g (m0.velocity g) })
              X)).d_number_materials = X.d_number_materials ∧
          (for_range n2
            (fun i (X : LinearMaterial) =>
              { X with d_lambda := Function.update X.d_lambda i (m0.lambda i) })
            (for_range n1
              (fun g (X : LinearMaterial) =>
                { X with d_velocity := Function.update X.d_velocity g (m0.velocity g) })
              X)).d_number_groups = X.d_number_groups ∧
          (for_range n2
            (fun i (X : LinearMaterial) =>
              { X with d_lambda := Function.update X.d_lambda i (m0.lambda i) })
            (for_range n1
              (fun g (X : LinearMaterial) =>
                { X with d_velocity := Function.update X.d_velocity g (m0.velocity g) })
              X)).d_number_precursor_groups = X.d_number_precursor_groups := by
        intro n1 n2 X
        refine ⟨?_, ?_, ?_⟩
        · exact (for_range_proj (fun X : LinearMaterial => X.d_number_materials) _ _ _
            (by intro i t; rfl)).trans
            (for_range_proj (fun X : LinearMaterial => X.d_number_materials) _ _ _
              (by intro i t; rfl))
        · exact (for_range_proj (fun X : LinearMaterial => X.d_number_groups) _ _ _
            (by intro i t; rfl)).trans
            (for_range_proj (fun X : LinearMaterial => X.d_number_groups) _ _ _
              (by intro i t; rfl))
        · exact (for_range_proj (fun X : LinearMaterial => X.d_number_precursor_groups) _ _ _
            (by intro i t; rfl)).trans
            (for_range_proj (fun X : LinearMaterial => X.d_number_precursor_groups) _ _ _
              (by intro i t; rfl))
      refine ⟨by rw [hT], by rw [hMat], by rw [hT], hpos, hlen, ?_⟩
      intro i hi
      have h1 := (hN m0.number_groups
        (for_range m0.number_groups
          (fun g (X : LinearMaterial) =>
            { X with d_velocity := Function.update X.d_velocity g (m0.velocity g) })
          { init with
            d_number_materials := m0.number_materials
            d_number_groups := m0.number_groups
            d_number_precursor_groups := m0.number_precursor_groups
            d_times := times
            d_materials := materials }).d_number_precursor_groups
        { init with
          d_number_materials := m0.number_materials
          d_number_groups := m0.number_groups
          d_number_precursor_groups := m0.number_precursor_groups
          d_times := times
          d_materials := materials })
      rw [h1.1, h1.2.1, h1.2.2]
      exact List.all_eq_true.mp hall i (List.mem_range.mpr hi)

/-! ### LinearMaterial: the choice of the materials and factors -/

theorem getElem?_eq_getD (times : List ℚ) (i : Nat) (h : i < times.length) :
    times[i]? = some (times.getD i 0) := by
  simp [List.getD_eq_getElem?_getD, List.getElem?_eq_getElem h]

theorem times_mono (times : List ℚ)
    (hstep : ∀ i, 0 < i → i < times.length → times.getD (i - 1) 0 < times.getD i 0) :
    ∀ j i, i < j → j < times.length → times.getD i 0 < times.getD j 0 := by
  intro j
  induction j with
  | zero => intro i hi; omega
  | succ j ih =>
    intro i hi hj
    have h1 := hstep (j + 1) (by omega) hj
    simp only [Nat.add_sub_cancel] at h1
    by_cases hij : i = j
    · subst hij
      exact h1
    · exact lt_trans (ih i (by omega) (by omega)) h1

theorem index_loop_spec (times : List ℚ) (t : ℚ) :
    ∀ (k i index_B : Nat), 1 ≤ i → i + k = times.length →
      ∃ r, index_loop times t k i index_B = some r ∧
        ((r = index_B ∧ ∀ j, i ≤ j → j < times.length →
            ¬ (times.getD (j - 1) 0 < t ∧ t ≤ times.getD j 0)) ∨
          (i ≤ r ∧ r < times.length ∧ times.getD (r - 1) 0 < t ∧ t ≤ times.getD r 0)) := by
  intro k
  induction k with
  | zero =>
    intro i index_B _ hlen
    exact ⟨index_B, rfl, Or.inl ⟨rfl, fun j h1 h2 => by omega⟩⟩
  | succ k ih =>
    intro i index_B hi hlen
    have ha := getElem?_eq_getD times (i - 1) (by omega)
    have hb := getElem?_eq_getD times i (by omega)
    by_cases h1 : times.getD (i - 1) 0 < t
    · by_cases h2 : t ≤ times.getD i 0
      · obtain ⟨r, hr, hcase⟩ := ih (i + 1) i (by omega) (by omega)
        refine ⟨r, ?_, ?_⟩
        · simp only [index_loop, ha, hb, gt_iff_lt, h1, h2, if_true]
          exact hr
        · rcases hcase with ⟨hri, _⟩ | ⟨h3, h4, h5, h6⟩
          · right
            rw [hri]
            exact ⟨le_refl i, by omega, h1, h2⟩
          · right
            exact ⟨by omega, h4, h5, h6⟩
      · obtain ⟨r, hr, hcase⟩ := ih (i + 1) index_B (by omega) (by omega)
        refine ⟨r, ?_, ?_⟩
        · simp only [index_loop, ha, hb, gt_iff_lt, h1, h2, if_true, if_false]
          exact hr
        · rcases hcase with ⟨hri, hno⟩ | ⟨h3, h4, h5, h6⟩
          · left
            refine ⟨hri, ?_⟩
            intro j hj1 hj2
            by_cases hji : j = i
            · subst hji
              exact fun hp => h2 hp.2
            · exact hno j (by omega) hj2
          · right
            exact ⟨by omega, h4, h5, h6⟩
    · obtain ⟨r, hr, hcase⟩ := ih (i + 1) index_B (by omega) (by omega)
      refine ⟨r, ?_, ?_⟩
      · simp only [index_loop, ha, gt_iff_lt, h1, if_false]
        exact hr
      · rcases hcase with ⟨hri, hno⟩ | ⟨h3, h4, h5, h6⟩
        · left
          refine ⟨hri, ?_⟩
          intro j hj1 hj2
          by_cases hji : j = i
          · subst hji
            exact fun hp => h1 hp.1
          · exact hno j (by omega) hj2
        · right
          exact ⟨by omega, h4, h5, h6⟩

theorem interval_unique (times : List ℚ)
    (hstep : ∀ i, 0 < i → i < times.length → times.getD (i - 1) 0 < times.getD i 0) (t : ℚ)
    (i j : Nat) (hi : 1 ≤ i) (hil : i < times.length) (hj : 1 ≤ j) (hjl : j < times.length)
    (hpi : times.getD (i - 1) 0 < t ∧ t ≤ times.getD i 0)
    (hpj : times.getD (j - 1) 0 < t ∧ t ≤ times.getD j 0) : j = i := by
  have hmono := times_mono times hstep
  rcases Nat.lt_trichotomy i j with h | h | h
  · exfalso
    have h1 : times.getD i 0 ≤ times.getD (j - 1) 0 := by
      by_cases he : i = j - 1
      · rw [he]
      · exact le_of_lt (hmono (j - 1) i (by omega) (by omega))
    linarith [hpi.2, hpj.1]
  · exact h.symm
  · exfalso
    have h1 : times.getD j 0 ≤ times.getD (i - 1) 0 := by
      by_cases he : j = i - 1
      · rw [he]
      · exact le_of_lt (hmono (i - 1) j (by omega) (by omega))
    linarith [hpj.2, hpi.1]

theorem interval_exists (times : List ℚ) (t : ℚ) (h0 : times.getD 0 0 < t)
    (hl : t ≤ times.getD (times.length - 1) 0) :
    ∃ i, 1 ≤ i ∧ i < times.length ∧ times.getD (i - 1) 0 < t ∧ t ≤ times.getD i 0 := by
  have hex : ∃ j, t ≤ times.getD j 0 := ⟨times.length - 1, hl⟩
  have hfind := Nat.find_spec hex
  have hmin : Nat.find hex ≤ times.length - 1 := Nat.find_min' hex hl
  have hne : Nat.find hex ≠ 0 := by
    intro h
    rw [h] at hfind
    exact absurd hfind (not_le.mpr h0)
  have hprev : ¬ t ≤ times.getD (Nat.find hex - 1) 0 :=
    Nat.find_min hex (by omega)
  exact ⟨Nat.find hex, by omega, by omega, not_le.mp hprev, hfind⟩

theorem select_cases (M : LinearMaterial)
    (hstep : ∀ i, 0 < i → i < M.d_times.length →
      M.d_times.getD (i - 1) 0 < M.d_times.getD i 0)
    (hn : M.d_number_times = M.d_times.length) (hpos : 0 < M.d_times.length) :
    (M.d_t ≤ M.d_times.getD 0 0 → M.select = some (0, 0, some 1, some 0)) ∧
    (M.d_times.getD (M.d_times.length - 1) 0 < M.d_t →
      M.select = some (M.d_times.length - 1, M.d_times.length - 1, some 1, some 0)) ∧
    (M.d_times.getD 0 0 < M.d_t → M.d_t ≤ M.d_times.getD (M.d_times.length - 1) 0 →
      ∃ i, 1 ≤ i ∧ i < M.d_times.length ∧
        M.d_times.getD (i - 1) 0 < M.d_t ∧ M.d_t ≤ M.d_times.getD i 0 ∧
        (∀ j, 1 ≤ j → j < M.d_times.length → M.d_times.getD (j - 1) 0 < M.d_t →
          M.d_t ≤ M.d_times.getD j 0 → j = i) ∧
        M.d_times.getD i 0 - M.d_times.getD (i - 1) 0 ≠ 0 ∧
        0 < (M.d_t - M.d_times.getD (i - 1) 0) /
          (M.d_times.getD i 0 - M.d_times.getD (i - 1) 0) ∧
        (M.d_t - M.d_times.getD (i - 1) 0) /
          (M.d_times.getD i 0 - M.d_times.getD (i - 1) 0) ≤ 1 ∧
        M.select = some (i - 1, i,
          some (1 - (M.d_t - M.d_times.getD (i - 1) 0) /
            (M.d_times.getD i 0 - M.d_times.getD (i - 1) 0)),
          some ((M.d_t - M.d_times.getD (i - 1) 0) /
            (M.d_times.getD i 0 - M.d_times.getD (i - 1) 0)))) := by
  have h0 := getElem?_eq_getD M.d_times 0 hpos
  have hlast := getElem?_eq_getD M.d_times (M.d_times.length - 1) (by omega)
  have hmono := times_mono M.d_times hstep
  have hnz : ¬ M.d_times.length = 0 := by omega
  have h0l : M.d_times.getD 0 0 ≤ M.d_times.getD (M.d_times.length - 1) 0 := by
    by_cases h1 : M.d_times.length - 1 = 0
    · rw [h1]
    · exact le_of_lt (hmono _ 0 (by omega) (by omega))
  refine ⟨?_, ?_, ?_⟩
  · intro hle
    simp only [LinearMaterial.select, h0, hle, if_true]
  · intro hgt
    have hnle : ¬ M.d_t ≤ M.d_times.getD 0 0 := not_le.mpr (lt_of_le_of_lt h0l hgt)
    simp only [LinearMaterial.select, h0, hnle, if_false, hn, hnz, hlast, gt_iff_lt, hgt,
      if_true]
  · intro hgt hle
    obtain ⟨i, hi1, hil, hp1, hp2⟩ := interval_exists M.d_times M.d_t hgt hle
    have huniq : ∀ j, 1 ≤ j → j < M.d_times.length → M.d_times.getD (j - 1) 0 < M.d_t →
        M.d_t ≤ M.d_times.getD j 0 → j = i :=
      fun j hj1 hjl hq1 hq2 =>
        interval_unique M.d_times hstep M.d_t i j hi1 hil hj1 hjl ⟨hp1, hp2⟩ ⟨hq1, hq2⟩
    have hden : 0 < M.d_times.getD i 0 - M.d_times.getD (i - 1) 0 :=
      sub_pos.mpr (hstep i (by omega) hil)
    have hnum : 0 < M.d_t - M.d_times.getD (i - 1) 0 := sub_pos.mpr hp1
    obtain ⟨r, hr, hcase⟩ := index_loop_spec M.d_times M.d_t (M.d_times.length - 1) 1 0
      (le_refl 1) (by omega)
    have hri : r = i := by
      rcases hcase with ⟨_, hno⟩ | ⟨h3, h4, h5, h6⟩
      · exact absurd ⟨hp1, hp2⟩ (hno i hi1 hil)
      · exact huniq r h3 h4 h5 h6
    subst hri
    refine ⟨r, hi1, hil, hp1, hp2, huniq, ne_of_gt hden, div_pos hnum hden, ?_, ?_⟩
    · rw [div_le_one hden]
      linarith
    · have hnle : ¬ M.d_t ≤ M.d_times.getD 0 0 := not_le.mpr hgt
      have hngt : ¬ M.d_times.getD (M.d_times.length - 1) 0 < M.d_t := not_lt.mpr hle
      have hr0 : ¬ r = 0 := by omega
      have ha := getElem?_eq_getD M.d_times (r - 1) (by omega)
      have hb := getElem?_eq_getD M.d_times r hil
      simp only [LinearMaterial.select, h0, hnle, if_false, hn, hnz, hlast, gt_iff_lt, hngt,
        hr, hr0, ha, hb, Dbl.div, ne_of_gt hden, Dbl.sub]

/-! ### LinearMaterial: the loops that fill the arrays -/

theorem for_range_fill {T X V : Type} (π : T → X → V) (I : T → Prop) (D : Nat → X → Prop)
    (val : X → V) (body : Nat → T → T)
    (hI : ∀ i s, I s → I (body i s))
    (hset : ∀ i s x, I s → D i x → π (body i s) x = val x)
    (hkeep : ∀ i s x, I s → ¬ D i x → π (body i s) x = π s x) :
    ∀ (n : Nat) (s : T), I s →
      I (for_range n body s) ∧
      ∀ x, ((∃ i, i < n ∧ D i x) → π (for_range n body s) x = val x) ∧
        ((∀ i, i < n → ¬ D i x) → π (for_range n body s) x = π s x) := by
  intro n
  induction n with
  | zero =>
    intro s hs
    exact ⟨hs, fun x => ⟨fun ⟨i, hi, _⟩ => absurd hi (Nat.not_lt_zero i), fun _ => rfl⟩⟩
  | succ n ih =>
    intro s hs
    obtain ⟨hIn, hx⟩ := ih s hs
    rw [for_range_succ]
    refine ⟨hI _ _ hIn, fun x => ?_⟩
    by_cases hd : D n x
    · exact ⟨fun _ => hset n _ x hIn hd, fun h => absurd hd (h n (Nat.lt_succ_self n))⟩
    · rw [hkeep n _ x hIn hd]
      constructor
      · rintro ⟨i, hi, hdi⟩
        have hin : i < n := by
          rcases Nat.lt_succ_iff_lt_or_eq.mp hi with h | h
          · exact h
          · subst h
            exact absurd hdi hd
        exact (hx x).1 ⟨i, hin, hdi⟩
      · intro h
        exact (hx x).2 (fun i hi => h i (Nat.lt_succ_of_lt hi))

theorem set2_apply (a : Nat → Nat → Dbl) (i j : Nat) (v : Dbl) (i' j' : Nat) :
    set2 a i j v i' j' = if i' = i ∧ j' = j then v else a i' j' := by
  unfold set2
  by_cases hi : i' = i
  · subst hi
    by_cases hj : j' = j
    · subst hj
      simp
    · simp [Function.update, hj]
  · simp [Function.update, hi]

theorem set3_apply (a : Nat → Nat → Nat → Dbl) (i j k : Nat) (v : Dbl) (i' j' k' : Nat) :
    set3 a i j k v i' j' k' = if i' = i ∧ j' = j ∧ k' = k then v else a i' j' k' := by
  unfold set3
  by_cases hi : i' = i
  · subst hi
    simp only [Function.update_same, set2_apply, true_and]
  · simp [Function.update, hi]

theorem fill_scatter_keeps {α : Type} (π : LinearMaterial → α)
    (h : ∀ (X : LinearMaterial) (v : Nat → Nat → Nat → Dbl), π { X with d_sigma_s := v } = π X)
    (M : LinearMaterial) (A B : KineticsMaterial) (cA cB : Dbl) (m g : Nat) :
    π (M.fill_scatter A B cA cB m g) = π M := by
  unfold LinearMaterial.fill_scatter
  exact for_range_proj π _ _ _ (by intro i t; exact h _ _)

theorem fill_delayed_keeps {α : Type} (π : LinearMaterial → α)
    (h : ∀ (X : LinearMaterial) (v : Nat → Nat → Nat → Dbl), π { X with d_chi_d := v } = π X)
    (M : LinearMaterial) (A B : KineticsMaterial) (cA cB : Dbl) (m g : Nat) :
    π (M.fill_delayed A B cA cB m g).2.2 = π M := by
  unfold LinearMaterial.fill_delayed
  exact for_range_proj (fun acc : Dbl × Dbl × LinearMaterial => π acc.2.2) _ _ _
    (by intro i t; exact h _ _)

theorem fill_group_eq_basic {α : Type} (π : LinearMaterial → α)
    (hs : ∀ (X : LinearMaterial) (v : Nat → Nat → Nat → Dbl), π { X with d_sigma_s := v } = π X)
    (hd : ∀ (X : LinearMaterial) (v : Nat → Nat → Nat → Dbl), π { X with d_chi_d := v } = π X)
    (hc : ∀ (X : LinearMaterial) (v : Nat → Nat → Dbl), π { X with d_chi := v } = π X)
    (M : LinearMaterial) (A B : KineticsMaterial) (cA cB : Dbl) (m g : Nat) :
    π (M.fill_group A B cA cB m g) = π (M.fill_basic A B cA cB m g) := by
  unfold LinearMaterial.fill_group
  simp only []
  rw [hc, fill_delayed_keeps π hd, fill_scatter_keeps π hs]

theorem fill_group_keeps {α : Type} (π : LinearMaterial → α)
    (hb : ∀ (X : LinearMaterial) (A B : KineticsMaterial) (cA cB : Dbl) (m g : Nat),
      π (X.fill_basic A B cA cB m g) = π X)
    (hs : ∀ (X : LinearMaterial) (v : Nat → Nat → Nat → Dbl), π { X with d_sigma_s := v } = π X)
    (hd : ∀ (X : LinearMaterial) (v : Nat → Nat → Nat → Dbl), π { X with d_chi_d := v } = π X)
    (hc : ∀ (X : LinearMaterial) (v : Nat → Nat → Dbl), π { X with d_chi := v } = π X)
    (M : LinearMaterial) (A B : KineticsMaterial) (cA cB : Dbl) (m g : Nat) :
    π (M.fill_group A B cA cB m g) = π M := by
  rw [fill_group_eq_basic π hs hd hc, hb]

theorem fill_material_eq_groups {α : Type} (π : LinearMaterial → α)
    (hβ : ∀ (X : LinearMaterial) (v : Nat → Nat → Dbl), π { X with d_beta := v } = π X)
    (M : LinearMaterial) (A B : KineticsMaterial) (cA cB : Dbl) (m : Nat) :
    π (M.fill_material A B cA cB m) =
      π (for_range A.number_groups
        (fun g (X : LinearMaterial) => X.fill_group A B cA cB m g) M) := by
  unfold LinearMaterial.fill_material
  exact for_range_proj π _ _ _ (by intro i t; exact hβ _ _)

theorem material_loop_fill {X β : Type} (π : LinearMaterial → X → Dbl) (ι : LinearMaterial → β)
    (c : β) (D : Nat → Nat → X → Prop) (val : X → Dbl) (A B : KineticsMaterial) (cA cB : Dbl)
    (hιg : ∀ (s : LinearMaterial) (m g : Nat), ι (s.fill_group A B cA cB m g) = ι s)
    (hιβ : ∀ (s : LinearMaterial) (v : Nat → Nat → Dbl), ι { s with d_beta := v } = ι s)
    (hπβ : ∀ (s : LinearMaterial) (v : Nat → Nat → Dbl), π { s with d_beta := v } = π s)
    (hset : ∀ (s : LinearMaterial) (m g : Nat) (x : X), ι s = c → D m g x →
      π (s.fill_group A B cA cB m g) x = val x)
    (hkeep : ∀ (s : LinearMaterial) (m g : Nat) (x : X), ι s = c → ¬ D m g x →
      π (s.fill_group A B cA cB m g) x = π s x)
    (M : LinearMaterial) (hM : ι M = c) (x : X)
    (hx : ∃ m, m < A.number_materials ∧ ∃ g, g < A.number_groups ∧ D m g x) :
    π (for_range A.number_materials
      (fun m (s : LinearMaterial) => s.fill_material A B cA cB m) M) x = val x := by
  have hinner : ∀ (s : LinearMaterial) (m : Nat), ι s = c →
      ι (s.fill_material A B cA cB m) = c ∧
      ∀ x, ((∃ g, g < A.number_groups ∧ D m g x) →
          π (s.fill_material A B cA cB m) x = val x) ∧
        ((∀ g, g < A.number_groups → ¬ D m g x) →
          π (s.fill_material A B cA cB m) x = π s x) := by
    intro s m hs
    rw [fill_material_eq_groups ι hιβ, fill_material_eq_groups π hπβ]
    exact for_range_fill π (fun s => ι s = c) (fun g x => D m g x) val
      (fun g (s : LinearMaterial) => s.fill_group A B cA cB m g)
      (fun g s h => (hιg s m g).trans h)
      (fun g s x h hd => hset s m g x h hd)
      (fun g s x h hd => hkeep s m g x h hd)
      A.number_groups s hs
  exact ((for_range_fill π (fun s => ι s = c)
    (fun m x => ∃ g, g < A.number_groups ∧ D m g x) val
    (fun m (s : LinearMaterial) => s.fill_material A B cA cB m)
    (fun m s h => (hinner s m h).1)
    (fun m s x h hd => ((hinner s m h).2 x).1 hd)
    (fun m s x h hd => ((hinner s m h).2 x).2 (fun g hg hdg => hd ⟨g, hg, hdg⟩))
    A.number_materials M hM).2 x).1 hx

theorem fill_group_sigma_s (M : LinearMaterial) (A B : KineticsMaterial) (cA cB : Dbl)
    (m g : Nat) (x : Nat × Nat × Nat) :
    ((x.1 = g ∧ x.2.2 = m ∧ x.2.1 < A.number_groups) →
      (M.fill_group A B cA cB m g).d_sigma_s x.1 x.2.1 x.2.2 =
        blend cA cB (A.sigma_s x.2.2 x.1 x.2.1) (B.sigma_s x.2.2 x.1 x.2.1)) ∧
    (¬ (x.1 = g ∧ x.2.2 = m ∧ x.2.1 < A.number_groups) →
      (M.fill_group A B cA cB m g).d_sigma_s x.1 x.2.1 x.2.2 = M.d_sigma_s x.1 x.2.1 x.2.2) := by
  have h1 : (M.fill_group A B cA cB m g).d_sigma_s =
      ((M.fill_basic A B cA cB m g).fill_scatter A B cA cB m g).d_sigma_s := by
    unfold LinearMaterial.fill_group
    simp only []
    exact fill_delayed_keeps (fun X => X.d_sigma_s) (fun _ _ => rfl) _ A B cA cB m g
  rw [h1]
  unfold LinearMaterial.fill_scatter
  have h := (for_range_fill
    (fun (s : LinearMaterial) (x : Nat × Nat × Nat) => s.d_sigma_s x.1 x.2.1 x.2.2)
    (fun _ => True) (fun gp x => x = (g, gp, m))
    (fun x => blend cA cB (A.sigma_s x.2.2 x.1 x.2.1) (B.sigma_s x.2.2 x.1 x.2.1))
    (fun gp (X : LinearMaterial) =>
      { X with
        d_sigma_s := set3 X.d_sigma_s g gp m
          (blend cA cB (A.sigma_s m g gp) (B.sigma_s m g gp)) })
    (fun _ _ _ => trivial)
    (fun gp s x _ hx => by
      subst hx
      simp only [set3_apply, and_self, if_true])
    (fun gp s x _ hx => by
      have : ¬ (x.1 = g ∧ x.2.1 = gp ∧ x.2.2 = m) :=
        fun h => hx (Prod.ext h.1 (Prod.ext h.2.1 h.2.2))
      simp only [set3_apply, this, if_false])
    A.number_groups (M.fill_basic A B cA cB m g) trivial).2 x
  constructor
  · intro hx
    exact h.1 ⟨x.2.1, hx.2.2, Prod.ext hx.1 (Prod.ext rfl hx.2.1)⟩
  · intro hx
    refine (h.2 ?_).trans rfl
    intro gp hgp hxe
    apply hx
    rw [hxe]
    exact ⟨rfl, rfl, hgp⟩

theorem fill_group_chi_d (M : LinearMaterial) (A B : KineticsMaterial) (cA cB : Dbl)
    (m g : Nat) (x : Nat × Nat × Nat) :
    ((x.1 = m ∧ x.2.2 = g ∧ x.2.1 < M.d_number_precursor_groups) →
      (M.fill_group A B cA cB m g).d_chi_d x.1 x.2.1 x.2.2 =
        blend cA cB (A.chi_d x.1 x.2.1 x.2.2) (B.chi_d x.1 x.2.1 x.2.2)) ∧
    (¬ (x.1 = m ∧ x.2.2 = g ∧ x.2.1 < M.d_number_precursor_groups) →
      (M.fill_group A B cA cB m g).d_chi_d x.1 x.2.1 x.2.2 = M.d_chi_d x.1 x.2.1 x.2.2) := by
  have h1 : (M.fill_group A B cA cB m g).d_chi_d =
      (((M.fill_basic A B cA cB m g).fill_scatter A B cA cB m g).fill_delayed
        A B cA cB m g).2.2.d_chi_d := by
    unfold LinearMaterial.fill_group
    rfl
  have hnp : ((M.fill_basic A B cA cB m g).fill_scatter A B cA cB m g).d_number_precursor_groups
      = M.d_number_precursor_groups :=
    fill_scatter_keeps (fun X => X.d_number_precursor_groups) (fun _ _ => rfl) _ A B cA cB m g
  have hchi : ((M.fill_basic A B cA cB m g).fill_scatter A B cA cB m g).d_chi_d = M.d_chi_d :=
    fill_scatter_keeps (fun X => X.d_chi_d) (fun _ _ => rfl) _ A B cA cB m g
  rw [h1]
  unfold LinearMaterial.fill_delayed
  rw [hnp]
  have h := (for_range_fill
    (fun (s : Dbl × Dbl × LinearMaterial) (x : Nat × Nat × Nat) =>
      s.2.2.d_chi_d x.1 x.2.1 x.2.2)
    (fun _ => True) (fun i x => x = (m, i, g))
    (fun x => blend cA cB (A.chi_d x.1 x.2.1 x.2.2) (B.chi_d x.1 x.2.1 x.2.2))
    (fun i (acc : Dbl × Dbl × LinearMaterial) =>
      let den : Dbl := some (1 + acc.2.2.d_dt * acc.2.2.d_lambda i)
      (Dbl.add acc.1
          (Dbl.div (some (A.lambda i * A.beta m i * A.chi_d m i g * acc.2.2.d_dt)) den),
        Dbl.add acc.2.1
          (Dbl.div (some (B.lambda i * B.beta m i * B.chi_d m i g * acc.2.2.d_dt)) den),
        { acc.2.2 with
          d_chi_d := set3 acc.2.2.d_chi_d m i g
            (blend cA cB (A.chi_d m i g) (B.chi_d m i g)) }))
    (fun _ _ _ => trivial)
    (fun i s x _ hx => by
      subst hx
      simp only [set3_apply, and_self, if_true])
    (fun i s x _ hx => by
      have : ¬ (x.1 = m ∧ x.2.1 = i ∧ x.2.2 = g) :=
        fun h => hx (Prod.ext h.1 (Prod.ext h.2.1 h.2.2))
      simp only [set3_apply, this, if_false])
    M.d_number_precursor_groups
    (some 0, some 0, (M.fill_basic A B cA cB m g).fill_scatter A B cA cB m g) trivial).2 x
  constructor
  · intro hx
    exact h.1 ⟨x.2.1, hx.2.2, Prod.ext hx.1 (Prod.ext rfl hx.2.1)⟩
  · intro hx
    refine (h.2 ?_).trans (by rw [hchi])
    intro i hi hxe
    apply hx
    rw [hxe]
    exact ⟨rfl, rfl, hi⟩

theorem group_loop_keeps {α : Type} (π : LinearMaterial → α)
    (hb : ∀ (X : LinearMaterial) (A B : KineticsMaterial) (cA cB : Dbl) (m g : Nat),
      π (X.fill_basic A B cA cB m g) = π X)
    (hs : ∀ (X : LinearMaterial) (v : Nat → Nat → Nat → Dbl), π { X with d_sigma_s := v } = π X)
    (hd : ∀ (X : LinearMaterial) (v : Nat → Nat → Nat → Dbl), π { X with d_chi_d := v } = π X)
    (hc : ∀ (X : LinearMaterial) (v : Nat → Nat → Dbl), π { X with d_chi := v } = π X)
    (M : LinearMaterial) (A B : KineticsMaterial) (cA cB : Dbl) (m n : Nat) :
    π (for_range n (fun g (X : LinearMaterial) => X.fill_group A B cA cB m g) M) = π M :=
  for_range_proj π _ _ _ (by intro i t; exact fill_group_keeps π hb hs hd hc t A B cA cB m i)

theorem fill_material_beta (M : LinearMaterial) (A B : KineticsMaterial) (cA cB : Dbl)
    (m : Nat) :
    (M.fill_material A B cA cB m).d_number_precursor_groups = M.d_number_precursor_groups ∧
    ∀ x : Nat × Nat,
      ((x.2 = m ∧ x.1 < M.d_number_precursor_groups) →
        (M.fill_material A B cA cB m).d_beta x.1 x.2 =
          blend cA cB (A.beta x.2 x.1) (B.beta x.2 x.1)) ∧
      (¬ (x.2 = m ∧ x.1 < M.d_number_precursor_groups) →
        (M.fill_material A B cA cB m).d_beta x.1 x.2 = M.d_beta x.1 x.2) := by
  have hnp : (M.fill_material A B cA cB m).d_number_precursor_groups =
      M.d_number_precursor_groups :=
    (fill_material_eq_groups (fun X => X.d_number_precursor_groups) (fun _ _ => rfl)
      M A B cA cB m).trans
      (group_loop_keeps (fun X => X.d_number_precursor_groups) (fun _ _ _ _ _ _ _ => rfl)
        (fun _ _ => rfl) (fun _ _ => rfl) (fun _ _ => rfl) M A B cA cB m A.number_groups)
  have hb : (for_range A.number_groups
      (fun g (X : LinearMaterial) => X.fill_group A B cA cB m g) M).d_beta = M.d_beta :=
    group_loop_keeps (fun X => X.d_beta) (fun _ _ _ _ _ _ _ => rfl)
      (fun _ _ => rfl) (fun _ _ => rfl) (fun _ _ => rfl) M A B cA cB m A.number_groups
  refine ⟨hnp, fun x => ?_⟩
  unfold LinearMaterial.fill_material
  have h := (for_range_fill
    (fun (s : LinearMaterial) (x : Nat × Nat) => s.d_beta x.1 x.2)
    (fun _ => True) (fun i x => x = (i, m))
    (fun x => blend cA cB (A.beta x.2 x.1) (B.beta x.2 x.1))
    (fun i (X : LinearMaterial) =>
      { X with d_beta := set2 X.d_beta i m (blend cA cB (A.beta m i) (B.beta m i)) })
    (fun _ _ _ => trivial)
    (fun i s x _ hx => by
      subst hx
      simp only [set2_apply, and_self, if_true])
    (fun i s x _ hx => by
      have : ¬ (x.1 = i ∧ x.2 = m) := fun h => hx (Prod.ext h.1 h.2)
      simp only [set2_apply, this, if_false])
    M.d_number_precursor_groups
    (for_range A.number_groups
      (fun g (X : LinearMaterial) => X.fill_group A B cA cB m g) M) trivial).2 x
  constructor
  · intro hx
    exact h.1 ⟨x.1, hx.2, Prod.ext rfl hx.1⟩
  · intro hx
    refine (h.2 ?_).trans (by rw [hb])
    intro i hi hxe
    apply hx
    rw [hxe]
    exact ⟨rfl, hi⟩

theorem update_material_fields (M : LinearMaterial) (A B : KineticsMaterial) (cA cB : Dbl)
    (m g : Nat) (hm : m < A.number_materials) (hg : g < A.number_groups) :
    (for_range A.number_materials
      (fun m (X : LinearMaterial) => X.fill_material A B cA cB m) M).d_sigma_t g m =
        Dbl.add (blend cA cB (A.sigma_t m g) (B.sigma_t m g))
          (Dbl.div (some 1) (some (M.d_velocity g * M.d_dt))) ∧
    (for_range A.number_materials
      (fun m (X : LinearMaterial) => X.fill_material A B cA cB m) M).d_sigma_a g m =
        blend cA cB (A.sigma_a m g) (B.sigma_a m g) ∧
    (for_range A.number_materials
      (fun m (X : LinearMaterial) => X.fill_material A B cA cB m) M).d_sigma_f g m =
        blend cA cB (A.sigma_f m g) (B.sigma_f m g) ∧
    (for_range A.number_materials
      (fun m (X : LinearMaterial) => X.fill_material A B cA cB m) M).d_nu g m =
        blend cA cB (A.nu m g) (B.nu m g) ∧
    (for_range A.number_materials
      (fun m (X : LinearMaterial) => X.fill_material A B cA cB m) M).d_diff_coef g m =
        blend cA cB (A.diff_coef m g) (B.diff_coef m g) ∧
    (∀ gp, gp < A.number_groups →
      (for_range A.number_materials
        (fun m (X : LinearMaterial) => X.fill_material A B cA cB m) M).d_sigma_s g gp m =
          blend cA cB (A.sigma_s m g gp) (B.sigma_s m g gp)) ∧
    (∀ i, i < M.d_number_precursor_groups →
      (for_range A.number_materials
        (fun m (X : LinearMaterial) => X.fill_material A B cA cB m) M).d_chi_d m i g =
          blend cA cB (A.chi_d m i g) (B.chi_d m i g)) := by
  have hpair : ∀ {x : Nat × Nat} {a b : Nat}, ¬ x = (a, b) → ¬ (x.1 = a ∧ x.2 = b) :=
    fun hx h => hx (Prod.ext h.1 h.2)
  have hdom : ∃ m0, m0 < A.number_materials ∧ ∃ g0, g0 < A.number_groups ∧
      ((g, m) : Nat × Nat) = (g0, m0) := ⟨m, hm, g, hg, rfl⟩
  refine ⟨?_, ?_, ?_, ?_, ?_, ?_, ?_⟩
  · exact material_loop_fill (fun (s : LinearMaterial) (x : Nat × Nat) => s.d_sigma_t x.1 x.2)
      (fun s => (s.d_velocity, s.d_dt)) (M.d_velocity, M.d_dt)
      (fun m0 g0 x => x = (g0, m0))
      (fun x => Dbl.add (blend cA cB (A.sigma_t x.2 x.1) (B.sigma_t x.2 x.1))
        (Dbl.div (some 1) (some (M.d_velocity x.1 * M.d_dt))))
      A B cA cB
      (fun s m0 g0 => fill_group_keeps (fun s => (s.d_velocity, s.d_dt))
        (fun _ _ _ _ _ _ _ => rfl) (fun _ _ => rfl) (fun _ _ => rfl) (fun _ _ => rfl)
        s A B cA cB m0 g0)
      (fun _ _ => rfl) (fun _ _ => rfl)
      (fun s m0 g0 x hs hx => by
        subst hx
        have h1 := fill_group_eq_basic (fun s : LinearMaterial => s.d_sigma_t)
          (fun _ _ => rfl) (fun _ _ => rfl) (fun _ _ => rfl) s A B cA cB m0 g0
        simp only [Prod.mk.injEq] at hs
        simp only [h1, LinearMaterial.fill_basic, set2_apply, and_self, if_true, hs.1, hs.2])
      (fun s m0 g0 x hs hx => by
        have h1 := fill_group_eq_basic (fun s : LinearMaterial => s.d_sigma_t)
          (fun _ _ => rfl) (fun _ _ => rfl) (fun _ _ => rfl) s A B cA cB m0 g0
        simp only [h1, LinearMaterial.fill_basic, set2_apply, hpair hx, if_false])
      M rfl (g, m) hdom
  · exact material_loop_fill (fun (s : LinearMaterial) (x : Nat × Nat) => s.d_sigma_a x.1 x.2)
      (fun _ => ()) () (fun m0 g0 x => x = (g0, m0))
      (fun x => blend cA cB (A.sigma_a x.2 x.1) (B.sigma_a x.2 x.1))
      A B cA cB (fun _ _ _ => rfl) (fun _ _ => rfl) (fun _ _ => rfl)
      (fun s m0 g0 x _ hx => by
        subst hx
        have h1 := fill_group_eq_basic (fun s : LinearMaterial => s.d_sigma_a)
          (fun _ _ => rfl) (fun _ _ => rfl) (fun _ _ => rfl) s A B cA cB m0 g0
        simp only [h1, LinearMaterial.fill_basic, set2_apply, and_self, if_true])
      (fun s m0 g0 x _ hx => by
        have h1 := fill_group_eq_basic (fun s : LinearMaterial => s.d_sigma_a)
          (fun _ _ => rfl) (fun _ _ => rfl) (fun _ _ => rfl) s A B cA cB m0 g0
        simp only [h1, LinearMaterial.fill_basic, set2_apply, hpair hx, if_false])
      M rfl (g, m) hdom
  · exact material_loop_fill (fun (s : LinearMaterial) (x : Nat × Nat) => s.d_sigma_f x.1 x.2)
      (fun _ => ()) () (fun m0 g0 x => x = (g0, m0))
      (fun x => blend cA cB (A.sigma_f x.2 x.1) (B.sigma_f x.2 x.1))
      A B cA cB (fun _ _ _ => rfl) (fun _ _ => rfl) (fun _ _ => rfl)
      (fun s m0 g0 x _ hx => by
        subst hx
        have h1 := fill_group_eq_basic (fun s : LinearMaterial => s.d_sigma_f)
          (fun _ _ => rfl) (fun _ _ => rfl) (fun _ _ => rfl) s A B cA cB m0 g0
        simp only [h1, LinearMaterial.fill_basic, set2_apply, and_self, if_true])
      (fun s m0 g0 x _ hx => by
        have h1 := fill_group_eq_basic (fun s : LinearMaterial => s.d_sigma_f)
          (fun _ _ => rfl) (fun _ _ => rfl) (fun _ _ => rfl) s A B cA cB m0 g0
        simp only [h1, LinearMaterial.fill_basic, set2_apply, hpair hx, if_false])
      M rfl (g, m) hdom
  · exact material_loop_fill (fun (s : LinearMaterial) (x : Nat × Nat) => s.d_nu x.1 x.2)
      (fun _ => ()) () (fun m0 g0 x => x = (g0, m0))
      (fun x => blend cA cB (A.nu x.2 x.1) (B.nu x.2 x.1))
      A B cA cB (fun _ _ _ => rfl) (fun _ _ => rfl) (fun _ _ => rfl)
      (fun s m0 g0 x _ hx => by
        subst hx
        have h1 := fill_group_eq_basic (fun s : LinearMaterial => s.d_nu)
          (fun _ _ => rfl) (fun _ _ => rfl) (fun _ _ => rfl) s A B cA cB m0 g0
        simp only [h1, LinearMaterial.fill_basic, set2_apply, and_self, if_true])
      (fun s m0 g0 x _ hx => by
        have h1 := fill_group_eq_basic (fun s : LinearMaterial => s.d_nu)
          (fun _ _ => rfl) (fun _ _ => rfl) (fun _ _ => rfl) s A B cA cB m0 g0
        simp only [h1, LinearMaterial.fill_basic, set2_apply, hpair hx, if_false])
      M rfl (g, m) hdom
  · exact material_loop_fill
      (fun (s : LinearMaterial) (x : Nat × Nat) => s.d_diff_coef x.1 x.2)
      (fun _ => ()) () (fun m0 g0 x => x = (g0, m0))
      (fun x => blend cA cB (A.diff_coef x.2 x.1) (B.diff_coef x.2 x.1))
      A B cA cB (fun _ _ _ => rfl) (fun _ _ => rfl) (fun _ _ => rfl)
      (fun s m0 g0 x _ hx => by
        subst hx
        have h1 := fill_group_eq_basic (fun s : LinearMaterial => s.d_diff_coef)
          (fun _ _ => rfl) (fun _ _ => rfl) (fun _ _ => rfl) s A B cA cB m0 g0
        simp only [h1, LinearMaterial.fill_basic, set2_apply, and_self, if_true])
      (fun s m0 g0 x _ hx => by
        have h1 := fill_group_eq_basic (fun s : LinearMaterial => s.d_diff_coef)
          (fun _ _ => rfl) (fun _ _ => rfl) (fun _ _ => rfl) s A B cA cB m0 g0
        simp only [h1, LinearMaterial.fill_basic, set2_apply, hpair hx, if_false])
      M rfl (g, m) hdom
  · intro gp hgp
    exact material_loop_fill
      (fun (s : LinearMaterial) (x : Nat × Nat × Nat) => s.d_sigma_s x.1 x.2.1 x.2.2)
      (fun _ => ()) ()
      (fun m0 g0 x => x.1 = g0 ∧ x.2.2 = m0 ∧ x.2.1 < A.number_groups)
      (fun x => blend cA cB (A.sigma_s x.2.2 x.1 x.2.1) (B.sigma_s x.2.2 x.1 x.2.1))
      A B cA cB (fun _ _ _ => rfl) (fun _ _ => rfl) (fun _ _ => rfl)
      (fun s m0 g0 x _ hx => (fill_group_sigma_s s A B cA cB m0 g0 x).1 hx)
      (fun s m0 g0 x _ hx => (fill_group_sigma_s s A B cA cB m0 g0 x).2 hx)
      M rfl (g, gp, m) ⟨m, hm, g, hg, rfl, rfl, hgp⟩
  · intro i hi
    exact material_loop_fill
      (fun (s : LinearMaterial) (x : Nat × Nat × Nat) => s.d_chi_d x.1 x.2.1 x.2.2)
      (fun s => s.d_number_precursor_groups) M.d_number_precursor_groups
      (fun m0 g0 x => x.1 = m0 ∧ x.2.2 = g0 ∧ x.2.1 < M.d_number_precursor_groups)
      (fun x => blend cA cB (A.chi_d x.1 x.2.1 x.2.2) (B.chi_d x.1 x.2.1 x.2.2))
      A B cA cB
      (fun s m0 g0 => fill_group_keeps (fun s => s.d_number_precursor_groups)
        (fun _ _ _ _ _ _ _ => rfl) (fun _ _ => rfl) (fun _ _ => rfl) (fun _ _ => rfl)
        s A B cA cB m0 g0)
      (fun _ _ => rfl) (fun _ _ => rfl)
      (fun s m0 g0 x hs hx =>
        (fill_group_chi_d s A B cA cB m0 g0 x).1
          (by have hs2 : s.d_number_precursor_groups = M.d_number_precursor_groups := hs
              rw [hs2]; exact hx))
      (fun s m0 g0 x hs hx =>
        (fill_group_chi_d s A B cA cB m0 g0 x).2
          (by have hs2 : s.d_number_precursor_groups = M.d_number_precursor_groups := hs
              rw [hs2]; exact hx))
      M rfl (m, i, g) ⟨m, hm, g, hg, rfl, rfl, hi⟩

theorem update_material_beta (M : LinearMaterial) (A B : KineticsMaterial) (cA cB : Dbl)
    (m i : Nat) (hm : m < A.number_materials) (hi : i < M.d_number_precursor_groups) :
    (for_range A.number_materials
      (fun m (X : LinearMaterial) => X.fill_material A B cA cB m) M).d_beta i m =
        blend cA cB (A.beta m i) (B.beta m i) := by
  exact ((for_range_fill (fun (s : LinearMaterial) (x : Nat × Nat) => s.d_beta x.1 x.2)
      (fun s => s.d_number_precursor_groups = M.d_number_precursor_groups)
      (fun m0 x => x.2 = m0 ∧ x.1 < M.d_number_precursor_groups)
      (fun x => blend cA cB (A.beta x.2 x.1) (B.beta x.2 x.1))
      (fun m0 (s : LinearMaterial) => s.fill_material A B cA cB m0)
      (fun m0 s hs => (fill_material_beta s A B cA cB m0).1.trans hs)
      (fun m0 s x hs hx => ((fill_material_beta s A B cA cB m0).2 x).1
        (by have hs2 : s.d_number_precursor_groups = M.d_number_precursor_groups := hs
            rw [hs2]; exact hx))
      (fun m0 s x hs hx => ((fill_material_beta s A B cA cB m0).2 x).2
        (by have hs2 : s.d_number_precursor_groups = M.d_number_precursor_groups := hs
            rw [hs2]; exact hx))
      A.number_materials M rfl).2 (i, m)).1 ⟨m, hm, rfl, hi⟩

theorem blend_some (cA cB a b : ℚ) :
    blend (some cA) (some cB) a b = some (cA * a + cB * b) := rfl

theorem times_mono_le (times : List ℚ)
    (hstep : ∀ i, 0 < i → i < times.length → times.getD (i - 1) 0 < times.getD i 0)
    (i j : Nat) (hij : i ≤ j) (hj : j < times.length) : times.getD i 0 ≤ times.getD j 0 := by
  rcases Nat.lt_or_eq_of_le hij with h | h
  · exact le_of_lt (times_mono times hstep j i h hj)
  · rw [h]

theorem update_of_select (M : LinearMaterial) (finalize : LinearMaterial → LinearMaterial)
    (t dt : ℚ) (iA iB : Nat) (cA cB : ℚ) (A B : KineticsMaterial)
    (hsel : ({ M with d_t := t, d_dt := dt } : LinearMaterial).select =
      some (iA, iB, some cA, some cB))
    (hA : M.d_materials[iA]? = some (some A)) (hB : M.d_materials[iB]? = some (some B))
    (hnm : A.number_materials = M.d_number_materials)
    (hng : A.number_groups = M.d_number_groups) :
    ∃ M2 : LinearMaterial,
      ({ M with d_t := t, d_dt := dt } : LinearMaterial).update_material iA iB
        (some cA) (some cB) = some M2 ∧
      M.update finalize t dt = some (finalize M2) ∧
      (∀ m g, m < M.d_number_materials → g < M.d_number_groups →
        M2.d_sigma_a g m = some (cA * A.sigma_a m g + cB * B.sigma_a m g) ∧
        M2.d_sigma_f g m = some (cA * A.sigma_f m g + cB * B.sigma_f m g) ∧
        M2.d_nu g m = some (cA * A.nu m g + cB * B.nu m g) ∧
        M2.d_diff_coef g m = some (cA * A.diff_coef m g + cB * B.diff_coef m g) ∧
        (∀ gp, gp < M.d_number_groups →
          M2.d_sigma_s g gp m = some (cA * A.sigma_s m g gp + cB * B.sigma_s m g gp)) ∧
        (∀ i, i < M.d_number_precursor_groups →
          M2.d_chi_d m i g = some (cA * A.chi_d m i g + cB * B.chi_d m i g)) ∧
        M2.d_sigma_t g m =
          Dbl.add (some (cA * A.sigma_t m g + cB * B.sigma_t m g))
            (Dbl.div (some 1) (some (M.d_velocity g * dt)))) ∧
      (∀ m i, m < M.d_number_materials → i < M.d_number_precursor_groups →
        M2.d_beta i m = some (cA * A.beta m i + cB * B.beta m i)) := by
  have hum : ({ M with d_t := t, d_dt := dt } : LinearMaterial).update_material iA iB
      (some cA) (some cB) =
      some (for_range A.number_materials
        (fun m (X : LinearMaterial) => X.fill_material A B (some cA) (some cB) m)
        { M with d_t := t, d_dt := dt }) := by
    have hA1 : ({ M with d_t := t, d_dt := dt } : LinearMaterial).d_materials[iA]? =
        some (some A) := hA
    have hB1 : ({ M with d_t := t, d_dt := dt } : LinearMaterial).d_materials[iB]? =
        some (some B) := hB
    unfold LinearMaterial.update_material
    rw [hA1, hB1]
  refine ⟨_, hum, ?_, ?_, ?_⟩
  · unfold LinearMaterial.update
    simp only [hsel, hum]
  · intro m g hm hg
    obtain ⟨h1, h2, h3, h4, h5, h6, h7⟩ := update_material_fields
      { M with d_t := t, d_dt := dt } A B (some cA) (some cB) m g (by rw [hnm]; exact hm)
      (by rw [hng]; exact hg)
    refine ⟨h2, h3, h4, h5, ?_, ?_, h1⟩
    · intro gp hgp
      exact h6 gp (by rw [hng]; exact hgp)
    · intro i hi
      exact h7 i hi
  · intro m i hm hi
    exact update_material_beta { M with d_t := t, d_dt := dt } A B (some cA) (some cB) m i
      (by rw [hnm]; exact hm) hi

theorem demo_lm_created :
    LinearMaterial.create demo_lm_init demo_times demo_materials "lin" = some demo_lm := by
  cases h : LinearMaterial.create demo_lm_init demo_times demo_materials "lin" with
  | none =>
    exfalso
    norm_num [LinearMaterial.create, demo_times, demo_materials, LinearMaterial.entry_ok,
      List.range_succ, demo_km] at h
    exact absurd h (Option.some_ne_none _)
  | some X =>
    simp only [demo_lm, h, Option.getD_some]

/-! ### LinearMaterial: the blending of `update` -/

/-- C21: for a material `M` built by the constructor from a time table `times` (which the
constructor accepts only if it is not empty and strictly increasing) and as many materials,
`update(t, dt)` returns, and it fills the arrays from two materials `A = materials[iA]` and
`B = materials[iB]` with factors `cA` and `cB` that sum to one.  For `t ≤ times[0]` these are
material `0` with factors `(1, 0)`; for `t > times[n-1]` the last material with factors `(1, 0)`;
otherwise `iB` is the one index `i ≥ 1` with `times[i-1] < t ≤ times[i]`, `iA = iB - 1`,
`cB = (t - times[iA]) / (times[iB] - times[iA])` with a divisor that is not zero, `cA = 1 - cB`
and `0 < cB ≤ 1`.  The state `M2` handed to `finalize` holds `cA * f_A + cB * f_B` in each entry
of `d_sigma_a`, `d_sigma_f`, `d_nu`, `d_diff_coef`, `d_sigma_s`, `d_chi_d` and `d_beta` (the
synthetic `d_sigma_t` holds that sum plus `1 / (d_velocity[g] * dt)`), and for `t = times[k]` the
sum is the value of material `k`. -/
theorem update_blends_piecewise_linear (init M : LinearMaterial) (times : List ℚ)
    (materials : List (Option KineticsMaterial)) (name : String)
    (finalize : LinearMaterial → LinearMaterial) (t dt : ℚ)
    (hM : LinearMaterial.create init times materials name = some M) :
    ∃ (iA iB : Nat) (cA cB : ℚ) (A B : KineticsMaterial) (M2 : LinearMaterial),
      ({ M with d_t := t, d_dt := dt } : LinearMaterial).select =
        some (iA, iB, some cA, some cB) ∧
      materials[iA]? = some (some A) ∧ materials[iB]? = some (some B) ∧
      ({ M with d_t := t, d_dt := dt } : LinearMaterial).update_material iA iB
        (some cA) (some cB) = some M2 ∧
      M.update finalize t dt = some (finalize M2) ∧
      cA + cB = 1 ∧
      (t ≤ times.getD 0 0 → iA = 0 ∧ iB = 0 ∧ cA = 1 ∧ cB = 0) ∧
      (times.getD (times.length - 1) 0 < t →
        iA = times.length - 1 ∧ iB = times.length - 1 ∧ cA = 1 ∧ cB = 0) ∧
      (times.getD 0 0 < t → t ≤ times.getD (times.length - 1) 0 →
        1 ≤ iB ∧ iB < times.length ∧ times.getD (iB - 1) 0 < t ∧ t ≤ times.getD iB 0 ∧
        (∀ j, 1 ≤ j → j < times.length → times.getD (j - 1) 0 < t → t ≤ times.getD j 0 →
          j = iB) ∧
        iA = iB - 1 ∧ times.getD iB 0 - times.getD iA 0 ≠ 0 ∧
        cB = (t - times.getD iA 0) / (times.getD iB 0 - times.getD iA 0) ∧ cA = 1 - cB ∧
        0 < cB ∧ cB ≤ 1) ∧
      (∀ m g, m < M.d_number_materials → g < M.d_number_groups →
        M2.d_sigma_a g m = some (cA * A.sigma_a m g + cB * B.sigma_a m g) ∧
        M2.d_sigma_f g m = some (cA * A.sigma_f m g + cB * B.sigma_f m g) ∧
        M2.d_nu g m = some (cA * A.nu m g + cB * B.nu m g) ∧
        M2.d_diff_coef g m = some (cA * A.diff_coef m g + cB * B.diff_coef m g) ∧
        (∀ gp, gp < M.d_number_groups →
          M2.d_sigma_s g gp m = some (cA * A.sigma_s m g gp + cB * B.sigma_s m g gp)) ∧
        (∀ i, i < M.d_number_precursor_groups →
          M2.d_chi_d m i g = some (cA * A.chi_d m i g + cB * B.chi_d m i g)) ∧
        M2.d_sigma_t g m =
          Dbl.add (some (cA * A.sigma_t m g + cB * B.sigma_t m g))
            (Dbl.div (some 1) (some (M.d_velocity g * dt)))) ∧
      (∀ m i, m < M.d_number_materials → i < M.d_number_precursor_groups →
        M2.d_beta i m = some (cA * A.beta m i + cB * B.beta m i)) ∧
      (∀ k, k < times.length → t = times.getD k 0 →
        ∃ Mk, materials[k]? = some (some Mk) ∧
          (∀ f : KineticsMaterial → ℚ, cA * f A + cB * f B = f Mk) ∧
          ∀ m g, m < M.d_number_materials → g < M.d_number_groups →
            M2.d_sigma_a g m = some (Mk.sigma_a m g)) := by
  obtain ⟨hT, hMat, hN, hpos, hlen, hentry⟩ := create_invariants hM
  subst hT
  subst hMat
  have hstep : ∀ i, 0 < i → i < M.d_times.length →
      M.d_times.getD (i - 1) 0 < M.d_times.getD i 0 :=
    fun i h0 hi => (entry_ok_spec (hentry i hi)).1 h0
  have hmat : ∀ i, i < M.d_times.length →
      ∃ X, M.d_materials[i]? = some (some X) ∧ X.number_materials = M.d_number_materials ∧
        X.number_groups = M.d_number_groups :=
    fun i hi => by
      obtain ⟨X, h1, h2, h3, _⟩ := (entry_ok_spec (hentry i hi)).2
      exact ⟨X, h1, h2, h3⟩
  have hmono := times_mono M.d_times hstep
  have hle := times_mono_le M.d_times hstep
  obtain ⟨hs1, hs2, hs3⟩ := select_cases { M with d_t := t, d_dt := dt } hstep hN hpos
  rcases le_or_lt t (M.d_times.getD 0 0) with h1 | h1
  · obtain ⟨X0, hX0, d1, d2⟩ := hmat 0 hpos
    have hsel := hs1 h1
    obtain ⟨M2, hum, hupd, hf, hb⟩ :=
      update_of_select M finalize t dt 0 0 1 0 X0 X0 hsel hX0 hX0 d1 d2
    have hfk : ∀ f : KineticsMaterial → ℚ, (1 : ℚ) * f X0 + 0 * f X0 = f X0 :=
      fun f => by ring
    refine ⟨0, 0, 1, 0, X0, X0, M2, hsel, hX0, hX0, hum, hupd, by norm_num,
      fun _ => ⟨rfl, rfl, rfl, rfl⟩, ?_, ?_, hf, hb, ?_⟩
    · intro h
      exact absurd (lt_of_lt_of_le h h1)
        (not_lt.mpr (hle 0 (M.d_times.length - 1) (Nat.zero_le _) (by omega)))
    · intro h
      exact absurd h (not_lt.mpr h1)
    · intro k hk htk
      have hk0 : k = 0 := by
        by_contra hne
        have := hmono k 0 (Nat.pos_of_ne_zero hne) hk
        rw [← htk] at this
        exact absurd this (not_lt.mpr h1)
      subst hk0
      refine ⟨X0, hX0, hfk, ?_⟩
      intro m g hm hg
      rw [(hf m g hm hg).1, hfk (fun K => K.sigma_a m g)]
  · rcases lt_or_le (M.d_times.getD (M.d_times.length - 1) 0) t with h2 | h2
    · obtain ⟨Xl, hXl, d1, d2⟩ := hmat (M.d_times.length - 1) (by omega)
      have hsel := hs2 h2
      obtain ⟨M2, hum, hupd, hf, hb⟩ :=
        update_of_select M finalize t dt (M.d_times.length - 1) (M.d_times.length - 1) 1 0
          Xl Xl hsel hXl hXl d1 d2
      refine ⟨M.d_times.length - 1, M.d_times.length - 1, 1, 0, Xl, Xl, M2, hsel, hXl, hXl,
        hum, hupd, by norm_num, ?_, fun _ => ⟨rfl, rfl, rfl, rfl⟩, ?_, hf, hb, ?_⟩
      · intro h
        exact absurd h (not_le.mpr h1)
      · intro _ h
        exact absurd h (not_le.mpr h2)
      · intro k hk htk
        have := hle k (M.d_times.length - 1) (by omega) (by omega)
        rw [← htk] at this
        exact absurd this (not_le.mpr h2)
    · obtain ⟨i, hi1, hil, hp1, hp2, huniq, hden, hBpos, hBle, hsel⟩ := hs3 h1 h2
      have hil2 : i < M.d_times.length := hil
      obtain ⟨XA, hXA, d1, d2⟩ := hmat (i - 1) (by omega)
      obtain ⟨XB, hXB, _, _⟩ := hmat i hil2
      obtain ⟨M2, hum, hupd, hf, hb⟩ :=
        update_of_select M finalize t dt (i - 1) i
          (1 - (t - M.d_times.getD (i - 1) 0) /
            (M.d_times.getD i 0 - M.d_times.getD (i - 1) 0))
          ((t - M.d_times.getD (i - 1) 0) /
            (M.d_times.getD i 0 - M.d_times.getD (i - 1) 0))
          XA XB hsel hXA hXB d1 d2
      refine ⟨i - 1, i, _, _, XA, XB, M2, hsel, hXA, hXB, hum, hupd, by ring, ?_, ?_, ?_,
        hf, hb, ?_⟩
      · intro h
        exact absurd h (not_le.mpr h1)
      · intro h
        exact absurd h (not_lt.mpr h2)
      · intro _ _
        exact ⟨hi1, hil, hp1, hp2, huniq, rfl, hden, rfl, rfl, hBpos, hBle⟩
      · intro k hk htk
        have hk1 : 1 ≤ k := by
          by_contra hne
          have hk0 : k = 0 := by omega
          rw [hk0] at htk
          exact absurd h1 (by rw [htk]; exact lt_irrefl _)
        have hki : k = i :=
          huniq k hk1 hk (by rw [htk]; exact hstep k (by omega) hk) (le_of_eq htk)
        subst hki
        have hB1 : (t - M.d_times.getD (k - 1) 0) /
            (M.d_times.getD k 0 - M.d_times.getD (k - 1) 0) = 1 := by
          rw [htk]
          exact div_self hden
        have hfk : ∀ f : KineticsMaterial → ℚ,
            (1 - (t - M.d_times.getD (k - 1) 0) /
              (M.d_times.getD k 0 - M.d_times.getD (k - 1) 0)) * f XA +
            (t - M.d_times.getD (k - 1) 0) /
              (M.d_times.getD k 0 - M.d_times.getD (k - 1) 0) * f XB = f XB := by
          intro f
          rw [hB1]
          ring
        refine ⟨XB, hXB, hfk, ?_⟩
        intro m g hm hg
        rw [(hf m g hm hg).1, hfk (fun K => K.sigma_a m g)]

theorem update_blends_piecewise_linear_witness :
    LinearMaterial.create demo_lm_init demo_times demo_materials "lin" = some demo_lm ∧
    ∃ (iA iB : Nat) (cA cB : ℚ) (M2 : LinearMaterial),
      ({ demo_lm with d_t := 2, d_dt := 1 } : LinearMaterial).select =
        some (iA, iB, some cA, some cB) ∧
      cA + cB = 1 ∧ demo_lm.update id 2 1 = some (id M2) :=
  ⟨demo_lm_created,
    match update_blends_piecewise_linear demo_lm_init demo_lm demo_times demo_materials "lin"
      id 2 1 demo_lm_created with
    | ⟨iA, iB, cA, cB, _, _, M2, hsel, _, _, _, hupd, hsum, _⟩ =>
      ⟨iA, iB, cA, cB, M2, hsel, hsum, hupd⟩⟩

end detran
